import Mathlib

/-!
# collector/netdev.go: the network-device statistics collector

A shallow embedding of `parseNetStats`, `parseNetDevLine`, `getNetStats`,
`netDevCollector.Update` and `init`, with the Go library functions they call
(`bufio.Scanner` with the default `ScanLines` split, `strings.Split`,
`strings.Fields`, `fmt.Errorf`, `prometheus.BuildFQName`, Go maps) modelled
from their documented behaviour.

Conventions.
* A Go `string` is a sequence of bytes: `GoString = List Nat`, each element a
  byte value (0..255).
* A Go `map` is an association list read by first match; `range` over a map
  visits its entries in an order chosen by the runtime, which `Update` takes as
  an explicit argument.
* A Go function returning `(T, error)` returns `Result T`; a run-time panic
  (an index or slice bound out of range, a panic of a library call) is the
  third outcome `Result.panic`.
* The cache `netStatsMetrics` is the map from a key to its vector (`Cache`);
  where the identity of a vector matters it is the map from a key to an address
  together with the allocated vectors (`MetricStore`), and `UpdatePtr` on a
  store agrees with `Update` on its cache.
* The reader handed to `parseNetStats` is its full byte content, read without
  I/O error as from an `os.File` (the end of the file is reported by a read
  of its own). The scanner has its default buffer: it stops at a line of
  `bufio.MaxScanTokenSize` (64 KiB) bytes or more.
* `WithLabelValues` panics on a label value that is not valid UTF-8, as
  client_golang checks every label value with `utf8.ValidString`.
-/

namespace Collector

/-! ## Strings -/

/-- A Go string: its bytes in order. -/
abbrev GoString := List Nat

/-- The bytes of a string literal of the source (UTF-8, as Go stores it). -/
def utf8 (s : String) : GoString :=
  (s.toList.flatMap String.utf8EncodeChar).map UInt8.toNat

/-- The outcome of a Go call returning `(T, error)`: a value with a nil error,
a non-nil error (carried as its message, the value being nil), or a panic. -/
inductive Result (α : Type) where
  | ok : α → Result α
  | err : GoString → Result α
  | panic : Result α
  deriving DecidableEq, Repr

/-! ## Go maps -/

/-- A Go map, as the list of its entries. -/
abbrev GoMap (K V : Type) := List (K × V)

/-- Reading `m[k]` (with the comma-ok flag as the option). -/
def mapGet {K V : Type} [DecidableEq K] : GoMap K V → K → Option V
  | [], _ => none
  | (k', v) :: m, k => if k' = k then some v else mapGet m k

/-- The assignment `m[k] = v`: overwrite the entry of `k`, or add one. -/
def mapSet {K V : Type} [DecidableEq K] : GoMap K V → K → V → GoMap K V
  | [], k, v => [(k, v)]
  | (k', v') :: m, k, v => if k' = k then (k, v) :: m else (k', v') :: mapSet m k v

/-- The keys of a map. -/
def mapKeys {K V : Type} (m : GoMap K V) : List K := m.map Prod.fst

/-! ## bufio.Scanner with the ScanLines split function -/

/-- The function `dropCR` of package bufio: drop one trailing carriage return. -/
def dropCR (data : GoString) : GoString :=
  if data.getLast? = some 13 then data.dropLast else data

/-- The newline-separated pieces of the content; a final piece is produced
only when it is not empty (`ScanLines` returns no token at EOF on no data). -/
def rawLines : GoString → List GoString
  | [] => []
  | b :: bs =>
    if b = 10 then [] :: rawLines bs
    else match rawLines bs with
      | [] => [[b]]
      | l :: ls => (b :: l) :: ls

/-- The constant `bufio.MaxScanTokenSize`: the size the buffer of a scanner
grows to when `Buffer` has not been called. -/
def MaxScanTokenSize : Nat := 64 * 1024

/-- The outcomes of the successive calls of `Scan` on a content with the given
newline-separated pieces: the token of a call that returns true, none for a
call that returns false. A piece shorter than the buffer is delivered. At a
piece of `MaxScanTokenSize` bytes or more the buffer is full without a newline:
that call returns false (with the error `ErrTooLong`), the call after it hands
the full buffer to the split function as final data and so delivers it as a
token, and every later call returns false. -/
def scanResults : List GoString → List (Option GoString)
  | [] => []
  | l :: ls =>
    if l.length < MaxScanTokenSize then some (dropCR l) :: scanResults ls
    else [none, some (dropCR (l.take MaxScanTokenSize))]

/-- The outcomes of the successive calls of `Scan` of a `bufio.Scanner` with
the `ScanLines` split on the content, in order; every call after them returns
false. -/
def ScanLines (data : GoString) : List (Option GoString) := scanResults (rawLines data)

/-- A `bufio.Scanner`: the outcomes of the calls of `Scan` yet to come and the
token of the last call to `Scan` (empty after a `Scan` that returned false). -/
structure Scanner where
  pending : List (Option GoString)
  token : GoString
  deriving DecidableEq, Repr

/-- The call `bufio.NewScanner(r)`. -/
def NewScanner (r : GoString) : Scanner := { pending := ScanLines r, token := [] }

/-- The call `scanner.Scan()`: the returned flag and the scanner afterwards. -/
def Scanner.Scan (s : Scanner) : Bool × Scanner :=
  match s.pending with
  | [] => (false, { pending := [], token := [] })
  | none :: ts => (false, { pending := ts, token := [] })
  | some t :: ts => (true, { pending := ts, token := t })

/-- The call `scanner.Text()`. -/
def Scanner.Text (s : Scanner) : GoString := s.token

/-! ## strings.Split and strings.Fields -/

/-- The call `strings.Split(s, sep)` for a separator `sep` of one byte. -/
def Split : GoString → Nat → List GoString
  | [], _ => [[]]
  | b :: bs, sep =>
    if b = sep then [] :: Split bs sep
    else match Split bs sep with
      | [] => [[b]]
      | p :: ps => (b :: p) :: ps

/-- The constant `utf8.RuneError`. -/
def RuneError : Nat := 0xFFFD

/-- A UTF-8 continuation byte. -/
def isCont (b : Nat) : Bool := decide (0x80 ≤ b) && decide (b ≤ 0xBF)

/-- The call `utf8.DecodeRuneInString(s)`: the rune at the head of `s` and its
width in bytes, `(RuneError, 1)` for an invalid or truncated encoding. -/
def DecodeRune (s : GoString) : Nat × Nat :=
  match s with
  | [] => (RuneError, 0)
  | b0 :: t =>
    if b0 < 0x80 then (b0, 1)
    else if 0xC2 ≤ b0 ∧ b0 ≤ 0xDF then
      match t with
      | b1 :: _ =>
        if isCont b1 then ((b0 % 32) * 64 + b1 % 64, 2) else (RuneError, 1)
      | _ => (RuneError, 1)
    else if 0xE0 ≤ b0 ∧ b0 ≤ 0xEF then
      match t with
      | b1 :: b2 :: _ =>
        if (if b0 = 0xE0 then 0xA0 else 0x80) ≤ b1 ∧
            b1 ≤ (if b0 = 0xED then 0x9F else 0xBF) ∧ isCont b2 then
          ((b0 % 16) * 4096 + (b1 % 64) * 64 + b2 % 64, 3)
        else (RuneError, 1)
      | _ => (RuneError, 1)
    else if 0xF0 ≤ b0 ∧ b0 ≤ 0xF4 then
      match t with
      | b1 :: b2 :: b3 :: _ =>
        if (if b0 = 0xF0 then 0x90 else 0x80) ≤ b1 ∧
            b1 ≤ (if b0 = 0xF4 then 0x8F else 0xBF) ∧ isCont b2 ∧ isCont b3 then
          ((b0 % 8) * 262144 + (b1 % 64) * 4096 + (b2 % 64) * 64 + b3 % 64, 4)
        else (RuneError, 1)
      | _ => (RuneError, 1)
    else (RuneError, 1)

/-- The loop of `utf8.ValidString`, one byte at a time: `skip` counts the bytes
still belonging to the rune decoded last; the string is invalid at a byte where
decoding yields `RuneError` with width 1. -/
def validLoop : GoString → Nat → Bool
  | [], _ => true
  | b :: bs, skip =>
    if skip = 0 then
      if (DecodeRune (b :: bs)).1 = RuneError ∧ (DecodeRune (b :: bs)).2 = 1 then false
      else validLoop bs ((DecodeRune (b :: bs)).2 - 1)
    else validLoop bs (skip - 1)

/-- The call `utf8.ValidString(s)`. -/
def ValidString (s : GoString) : Bool := validLoop s 0

/-- The call `unicode.IsSpace(r)`. -/
def IsSpace (r : Nat) : Bool :=
  decide (0x09 ≤ r ∧ r ≤ 0x0D) || r == 0x20 || r == 0x85 || r == 0xA0 ||
  r == 0x1680 || decide (0x2000 ≤ r ∧ r ≤ 0x200A) || r == 0x2028 || r == 0x2029 ||
  r == 0x202F || r == 0x205F || r == 0x3000

/-- The rune loop of `strings.FieldsFunc(s, unicode.IsSpace)`, one byte at a
time: `skip` counts the bytes still belonging to the rune decoded last, `sp`
tells whether that rune is white space, `cur` is the field being read (empty
when no field is open). -/
def fieldsLoop : GoString → Nat → Bool → GoString → List GoString
  | [], _, _, cur => if cur = [] then [] else [cur]
  | b :: bs, skip, sp, cur =>
    let sp1 := if skip = 0 then IsSpace (DecodeRune (b :: bs)).1 else sp
    let skip1 := if skip = 0 then (DecodeRune (b :: bs)).2 - 1 else skip - 1
    if sp1 then
      (if cur = [] then fieldsLoop bs skip1 sp1 []
       else cur :: fieldsLoop bs skip1 sp1 [])
    else fieldsLoop bs skip1 sp1 (cur ++ [b])

/-- The call `strings.Fields(s)`: the maximal runs of non-space runes. -/
def Fields (s : GoString) : List GoString := fieldsLoop s 0 false []

/-! ## parseNetStats -/

/-- The constant `procNetDev`. -/
def procNetDev : GoString := utf8 "/proc/net/dev"

/-- The constant `netStatsSubsystem`. -/
def netStatsSubsystem : GoString := utf8 "network"

/-- The map key "transmit". -/
def transmitKey : GoString := utf8 "transmit"

/-- The map key "receive". -/
def receiveKey : GoString := utf8 "receive"

/-- The statistics of one device in one direction: field name to raw value. -/
abbrev DevStats := GoMap GoString GoString

/-- The type `map[string]map[string]map[string]string` of the parse result:
direction, then device, then field name. -/
abbrev NetStats := GoMap GoString (GoMap GoString DevStats)

instance instDecEqDevs : DecidableEq (GoMap GoString DevStats) := inferInstance

instance instDecEqDirEntry : DecidableEq (GoString × GoMap GoString DevStats) := inferInstance

instance instDecEqNetStats : DecidableEq NetStats := inferInstance

/-- The loop of `parseNetDevLine` from index `i` on:
`devStats[header[i]] = v` for each `v` of `parts`. -/
def parseNetDevLineLoop (header : List GoString) :
    Nat → List GoString → DevStats → Result DevStats
  | _, [], devStats => .ok devStats
  | i, v :: parts, devStats =>
    match header[i]? with
    | none => .panic
    | some h => parseNetDevLineLoop header (i + 1) parts (mapSet devStats h v)

/-- The function `parseNetDevLine`. -/
def parseNetDevLine (parts header : List GoString) : Result DevStats :=
  parseNetDevLineLoop header 0 parts []

/-- The slice expression `s[lo:hi]`; none when it panics. -/
def slice {α : Type} (s : List α) (lo hi : Nat) : Option (List α) :=
  if lo ≤ hi ∧ hi ≤ s.length then some ((s.take hi).drop lo) else none

/-- The assignment `netStats[direction][dev] = stats`; none when
`netStats[direction]` is a nil map (the assignment panics). -/
def setDev (netStats : NetStats) (direction dev : GoString) (stats : DevStats) :
    Option NetStats :=
  match mapGet netStats direction with
  | none => none
  | some devs => some (mapSet netStats direction (mapSet devs dev stats))

/-- The message of `fmt.Errorf("Invalid header line in %s: %s", procNetDev, text)`. -/
def invalidHeader (text : GoString) : GoString :=
  utf8 "Invalid header line in " ++ procNetDev ++ utf8 ": " ++ text

/-- The message of `fmt.Errorf("Invalid line in %s: %s", procNetDev, text)`. -/
def invalidLine (text : GoString) : GoString :=
  utf8 "Invalid line in " ++ procNetDev ++ utf8 ": " ++ text

/-- The body of the loop `for scanner.Scan()` of `parseNetStats` for the line
`text`: the updated `netStats`, or the early return. -/
def parseNetStatsLine (header : List GoString) (text : GoString) (netStats : NetStats) :
    Result NetStats :=
  let parts := Fields text
  if parts.length ≠ 2 * header.length + 1 then .err (invalidLine text)
  else
    match parts[0]? with
    | none => .panic
    | some p0 =>
      if p0.length = 0 then .panic
      else
        let dev := p0.take (p0.length - 1)
        match slice parts 1 (header.length + 1) with
        | none => .panic
        | some recvParts =>
          match parseNetDevLine recvParts header with
          | .err e => .err e
          | .panic => .panic
          | .ok receive =>
            match slice parts (header.length + 1) parts.length with
            | none => .panic
            | some xmitParts =>
              match parseNetDevLine xmitParts header with
              | .err e => .err e
              | .panic => .panic
              | .ok transmit =>
                match setDev netStats transmitKey dev transmit with
                | none => .panic
                | some netStats1 =>
                  match setDev netStats1 receiveKey dev receive with
                  | none => .panic
                  | some netStats2 => .ok netStats2

/-- The loop `for scanner.Scan()` of `parseNetStats` over the outcomes of the
calls of `Scan` yet to come: it ends at the first call that returns false, and
`scanner.Err()` is not read. -/
def parseNetStatsLoop (header : List GoString) :
    List (Option GoString) → NetStats → Result NetStats
  | [], netStats => .ok netStats
  | none :: _, netStats => .ok netStats
  | some text :: rest, netStats =>
    match parseNetStatsLine header text netStats with
    | .ok netStats1 => parseNetStatsLoop header rest netStats1
    | .err e => .err e
    | .panic => .panic

/-- The map `netStats` as `parseNetStats` sets it up before reading. -/
def emptyNetStats : NetStats :=
  mapSet (mapSet [] transmitKey []) receiveKey []

/-- The function `parseNetStats` on a reader with content `r`. -/
def parseNetStats (r : GoString) : Result NetStats :=
  let netStats := emptyNetStats
  let scanner := NewScanner r
  let scanner := scanner.Scan.2
  let scanner := scanner.Scan.2
  let parts := Split scanner.Text 124
  if parts.length ≠ 3 then .err (invalidHeader scanner.Text)
  else
    match parts[1]? with
    | none => .panic
    | some recv =>
      let header := Fields recv
      parseNetStatsLoop header scanner.pending netStats

/-- The function `getNetStats`; `file` is the outcome of `os.Open(procNetDev)`:
the error, or the content of the opened file. -/
def getNetStats (file : Except GoString GoString) : Result NetStats :=
  match file with
  | .error e => .err e
  | .ok r => parseNetStats r

/-! ## The metric cache and Update

The type `F` stands for `float64`, and `parseFloat` for
`strconv.ParseFloat(value, 64)`: the returned number and the returned error
(its message, none for nil). `Namespace` is the package constant of that
name. -/

/-- The fields of `prometheus.GaugeOpts` the collector sets. -/
structure GaugeOpts where
  Namespace : GoString
  Subsystem : GoString
  Name : GoString
  Help : GoString
  deriving DecidableEq, Repr

/-- A `prometheus.GaugeVec`: its options, its label names, and the value of the
gauge of every label value it has been asked for (the vectors of this
collector have the single label `device`). -/
structure GaugeVec (F : Type) where
  opts : GaugeOpts
  labelNames : List GoString
  children : GoMap GoString F
  deriving DecidableEq, Repr

/-- The call `prometheus.NewGaugeVec(opts, labelNames)`. -/
def NewGaugeVec {F : Type} (opts : GaugeOpts) (labelNames : List GoString) : GaugeVec F :=
  { opts := opts, labelNames := labelNames, children := [] }

/-- The vector with the gauge of label value `lv` set to `v`. -/
def GaugeVec.setValue {F : Type} (g : GaugeVec F) (lv : GoString) (v : F) : GaugeVec F :=
  { g with children := mapSet g.children lv v }

/-- The call `g.WithLabelValues(lv).Set(v)`: none when `WithLabelValues`
panics, which it does on a label value that is not valid UTF-8. -/
def GaugeVec.Set {F : Type} (g : GaugeVec F) (lv : GoString) (v : F) : Option (GaugeVec F) :=
  if ValidString lv then some (g.setValue lv v) else none

/-- One metric sent on the channel: the options and label names of its vector,
its label value and its value. -/
structure Sample (F : Type) where
  opts : GaugeOpts
  labelNames : List GoString
  labelValue : GoString
  value : F
  deriving DecidableEq, Repr

/-- The call `g.Collect(ch)`: one metric for every gauge of the vector. -/
def GaugeVec.Collect {F : Type} (g : GaugeVec F) : List (Sample F) :=
  g.children.map fun c =>
    { opts := g.opts, labelNames := g.labelNames, labelValue := c.1, value := c.2 }

/-- The package variable `netStatsMetrics`. -/
abbrev Cache (F : Type) := GoMap GoString (GaugeVec F)

/-- The metrics of every vector of the cache, in the order the cache stores
them. -/
def collectAll {F : Type} (netStatsMetrics : Cache F) : List (Sample F) :=
  netStatsMetrics.flatMap fun m => m.2.Collect

/-- One iteration of the innermost loop of `Update`. -/
structure Quad where
  direction : GoString
  dev : GoString
  t : GoString
  value : GoString
  deriving DecidableEq, Repr

/-- Every (direction, dev, t, value) the three nested `range` loops of `Update`
visit, in the order the maps store them. -/
def quadruples (netStats : NetStats) : List Quad :=
  netStats.flatMap fun d =>
    d.2.flatMap fun dv =>
      dv.2.map fun s => { direction := d.1, dev := dv.1, t := s.1, value := s.2 }

/-- The order in which the runtime visits the maps `Update` ranges over: `stats`
for the three nested loops over `netStats`, `metrics` for the loop over
`netStatsMetrics` and the loops inside `Collect`. -/
structure RangeOrder (F : Type) where
  stats : NetStats → List Quad
  metrics : List (Sample F) → List (Sample F)

/-- A `range` visits every entry of the map exactly once, in some order. -/
def RangeOrder.Valid {F : Type} (ρ : RangeOrder F) : Prop :=
  (∀ netStats, (ρ.stats netStats).Perm (quadruples netStats)) ∧
  (∀ l, (ρ.metrics l).Perm l)

/-- The order in which the maps store their entries. -/
def storageOrder (F : Type) : RangeOrder F := { stats := quadruples, metrics := id }

/-- The order opposite to the one in which the maps store their entries. -/
def reverseOrder (F : Type) : RangeOrder F :=
  { stats := fun netStats => (quadruples netStats).reverse, metrics := List.reverse }

/-- The message of `fmt.Errorf("Invalid value %s in netstats: %s", value, err)`. -/
def invalidValue (value e : GoString) : GoString :=
  utf8 "Invalid value " ++ value ++ utf8 " in netstats: " ++ e

/-- The message of `fmt.Errorf("Couldn't get netstats: %s", err)`. -/
def couldntGet (e : GoString) : GoString := utf8 "Couldn't get netstats: " ++ e

/-- The key `direction + "_" + t` of the cache. -/
def metricKey (direction t : GoString) : GoString := direction ++ utf8 "_" ++ t

/-- The message of `fmt.Sprintf("%s %s from /proc/net/dev.", t, direction)`. -/
def helpText (t direction : GoString) : GoString :=
  t ++ utf8 " " ++ direction ++ utf8 " from /proc/net/dev."

/-- The nested loops of `Update` over the visits still to make: the cache
afterwards, and how the loops ended (`ok` when they ran to their end, `err` on
the early return). -/
def updateLoop {F : Type} (parseFloat : GoString → F × Option GoString) (Namespace : GoString) :
    List Quad → Cache F → Cache F × Result Unit
  | [], netStatsMetrics => (netStatsMetrics, .ok ())
  | q :: rest, netStatsMetrics =>
    let key := metricKey q.direction q.t
    let netStatsMetrics1 :=
      match mapGet netStatsMetrics key with
      | some _ => netStatsMetrics
      | none =>
        mapSet netStatsMetrics key
          (NewGaugeVec
            { Namespace := Namespace, Subsystem := netStatsSubsystem, Name := key,
              Help := helpText q.t q.direction }
            [utf8 "device"])
    match (parseFloat q.value).2 with
    | some e => (netStatsMetrics1, .err (invalidValue q.value e))
    | none =>
      match mapGet netStatsMetrics1 key with
      | none => (netStatsMetrics1, .panic)
      | some g =>
        match g.Set q.dev (parseFloat q.value).1 with
        | none => (netStatsMetrics1, .panic)
        | some g1 => updateLoop parseFloat Namespace rest (mapSet netStatsMetrics1 key g1)

/-- What a call of `Update` leaves behind: the package variable
`netStatsMetrics`, the metrics sent on `ch` during the call, and the returned
error (`ok` for nil). -/
structure UpdateResult (F : Type) where
  netStatsMetrics : Cache F
  sent : List (Sample F)
  ret : Result Unit

/-- The method `netDevCollector.Update`. -/
def Update {F : Type} (parseFloat : GoString → F × Option GoString) (Namespace : GoString)
    (ρ : RangeOrder F) (file : Except GoString GoString) (netStatsMetrics : Cache F) :
    UpdateResult F :=
  match getNetStats file with
  | .err e => { netStatsMetrics := netStatsMetrics, sent := [], ret := .err (couldntGet e) }
  | .panic => { netStatsMetrics := netStatsMetrics, sent := [], ret := .panic }
  | .ok netStats =>
    match updateLoop parseFloat Namespace (ρ.stats netStats) netStatsMetrics with
    | (netStatsMetrics1, .ok _) =>
      { netStatsMetrics := netStatsMetrics1, sent := ρ.metrics (collectAll netStatsMetrics1),
        ret := .ok () }
    | (netStatsMetrics1, .err e) =>
      { netStatsMetrics := netStatsMetrics1, sent := [], ret := .err e }
    | (netStatsMetrics1, .panic) =>
      { netStatsMetrics := netStatsMetrics1, sent := [], ret := .panic }


/-! ## Names for the expressions of parseNetStats -/

/-- The text `scanner.Text()` that `parseNetStats` splits into the header parts:
the token of the second call to `Scan`. -/
def headerText (r : GoString) : GoString := (NewScanner r).Scan.2.Scan.2.Text

/-- The texts a loop `for scanner.Scan()` reads: the tokens of the calls of
`Scan` up to the first that returns false. -/
def delivered : List (Option GoString) → List GoString
  | [] => []
  | none :: _ => []
  | some t :: rest => t :: delivered rest

/-- The texts the loop `for scanner.Scan()` of `parseNetStats` reads. -/
def bodyLines (r : GoString) : List GoString :=
  delivered (NewScanner r).Scan.2.Scan.2.pending

/-- The lines of the content: its newline-separated pieces, each without its
trailing carriage return. -/
def inputLines (r : GoString) : List GoString := (rawLines r).map dropCR

/-- Every line of the content, counted with its carriage return and without
its newline, is shorter than the buffer of the scanner: `Scan` delivers every
line. -/
def ShortLines (r : GoString) : Prop := ∀ l ∈ rawLines r, l.length < MaxScanTokenSize

instance instDecShortLines (r : GoString) : Decidable (ShortLines r) :=
  inferInstanceAs (Decidable (∀ l ∈ rawLines r, l.length < MaxScanTokenSize))

/-- The slice `header` of `parseNetStats`: `strings.Fields(parts[1])`. -/
def fieldHeader (r : GoString) : List GoString :=
  Fields ((Split (headerText r) 124).getD 1 [])

/-- The value `dev` of `parseNetStats` for a line: `parts[0][:len(parts[0])-1]`. -/
def devName (text : GoString) : GoString :=
  ((Fields text).getD 0 []).take (((Fields text).getD 0 []).length - 1)

/-- The map `parseNetDevLine` builds when `parts` is not longer than `header`:
the assignments `devStats[header[i]] = parts[i]` in order. -/
def zipStats (header parts : List GoString) : DevStats :=
  (header.zip parts).foldl (fun m p => mapSet m p.1 p.2) []

/-- The map `receive` of `parseNetStats` for a line. -/
def rowReceive (header : List GoString) (text : GoString) : DevStats :=
  zipStats header (((Fields text).take (header.length + 1)).drop 1)

/-- The map `transmit` of `parseNetStats` for a line. -/
def rowTransmit (header : List GoString) (text : GoString) : DevStats :=
  zipStats header (((Fields text).take (Fields text).length).drop (header.length + 1))

/-- The test `len(parts) != 2*len(header)+1` of `parseNetStats` on a line. -/
def badRow (header : List GoString) (text : GoString) : Bool :=
  decide ((Fields text).length ≠ 2 * header.length + 1)

/-- The map of one direction after the loop of `parseNetStats` has stored the
rows of `lines` into `m`, `row` giving the map of a line. -/
def storeRows (row : GoString → DevStats) (lines : List GoString)
    (m : GoMap GoString DevStats) : GoMap GoString DevStats :=
  lines.foldl (fun m l => mapSet m (devName l) (row l)) m

/-! ## Names for the cells of the cache -/

/-- The gauge `Update` sets on a visit: the key of its vector in the cache and
its label value. -/
def cellOf (q : Quad) : GoString × GoString := (metricKey q.direction q.t, q.dev)

/-- The value the cache holds for a key and a label value, if any. -/
def gaugeValue {F : Type} (netStatsMetrics : Cache F) (key dev : GoString) : Option F :=
  (mapGet netStatsMetrics key).bind fun g => mapGet g.children dev

/-- The cache entry `Update` makes sure exists before a visit. -/
def ensureGauge {F : Type} (Namespace : GoString) (q : Quad) (netStatsMetrics : Cache F) :
    Cache F :=
  match mapGet netStatsMetrics (metricKey q.direction q.t) with
  | some _ => netStatsMetrics
  | none =>
    mapSet netStatsMetrics (metricKey q.direction q.t)
      (NewGaugeVec
        { Namespace := Namespace, Subsystem := netStatsSubsystem,
          Name := metricKey q.direction q.t, Help := helpText q.t q.direction }
        [utf8 "device"])

/-- The cells `Update` sets for the devices of one direction. -/
def cellsOf (direction : GoString) (devs : GoMap GoString DevStats) :
    List (GoString × GoString) :=
  devs.flatMap fun dv => dv.2.map fun s => (metricKey direction s.1, dv.1)

/-! ## Inputs used in the examples -/

/-- The two header lines of the example source, with two field names. -/
def exampleHead : GoString :=
  utf8 "Inter-| Receive | Transmit\n face |bytes packets|bytes packets\n"

/-- The row of the device `eth0` of the example source. -/
def exampleRowEth0 : GoString := utf8 "  eth0: 100 1 200 2\n"

/-- The row of the device `lo` of the example source. -/
def exampleRowLo : GoString := utf8 "    lo: 7 8 9 10\n"

/-- A source with two field names and the rows of two devices. -/
def exampleInput : GoString := exampleHead ++ exampleRowEth0 ++ exampleRowLo

/-- The statistics `parseNetStats` returns on `exampleInput`. -/
def exampleStats : NetStats :=
  [(utf8 "transmit",
      [(utf8 "eth0", [(utf8 "bytes", utf8 "200"), (utf8 "packets", utf8 "2")]),
       (utf8 "lo", [(utf8 "bytes", utf8 "9"), (utf8 "packets", utf8 "10")])]),
   (utf8 "receive",
      [(utf8 "eth0", [(utf8 "bytes", utf8 "100"), (utf8 "packets", utf8 "1")]),
       (utf8 "lo", [(utf8 "bytes", utf8 "7"), (utf8 "packets", utf8 "8")])])]

/-- A source whose header names the field `bytes` twice. -/
def duplicateFieldInput : GoString :=
  utf8 "Inter-| Receive | Transmit\n face |bytes bytes|bytes bytes\neth0: 1 2 3 4\n"

/-- A source with two rows for the device `eth0`. -/
def duplicateDeviceInput : GoString :=
  exampleHead ++ utf8 "eth0: 1 2 3 4\n" ++ utf8 "eth0: 5 6 7 8\n"

/-- A source whose second row lacks its transmit values. -/
def shortRowInput : GoString :=
  utf8 "Inter-| Receive | Transmit\n face |bytes packets|bytes packets\n  eth0: 100 1 200 2\n    lo: 7 8\n"

/-- A stand-in for `strconv.ParseFloat` in the examples, with the natural
numbers for `float64`: a string of decimal digits is read as its number (as
`ParseFloat` does, exactly, up to fifteen digits), anything else is an error. -/
def exampleParseFloat (s : GoString) : Nat × Option GoString :=
  if s ≠ [] ∧ ∀ b ∈ s, 48 ≤ b ∧ b ≤ 57 then
    (s.foldl (fun n b => 10 * n + (b - 48)) 0, none)
  else (0, some (utf8 "invalid number"))

/-- A source whose row holds `abc` in place of a number. -/
def badValueInput : GoString := exampleHead ++ utf8 "  eth0: 100 abc 200 2\n"

/-- The statistics `parseNetStats` returns on `badValueInput`. -/
def badValueStats : NetStats :=
  [(utf8 "transmit", [(utf8 "eth0", [(utf8 "bytes", utf8 "200"), (utf8 "packets", utf8 "2")])]),
   (utf8 "receive", [(utf8 "eth0", [(utf8 "bytes", utf8 "100"), (utf8 "packets", utf8 "abc")])])]

/-- A cache left by earlier calls: the vector `receive_bytes` with the values of
the devices `eth0` and `wlan0`. -/
def exampleCache : Cache Nat :=
  [(utf8 "receive_bytes",
    { opts := { Namespace := utf8 "node", Subsystem := utf8 "network",
                Name := utf8 "receive_bytes",
                Help := utf8 "bytes receive from /proc/net/dev." },
      labelNames := [utf8 "device"],
      children := [(utf8 "eth0", 5), (utf8 "wlan0", 6)] })]

/-- The value of the constant `Namespace` in the examples. -/
def exampleNamespace : GoString := utf8 "node"

/-- A call of `Update` on `exampleInput` with the cache `exampleCache`, the maps
visited in the order they store their entries. -/
def exampleUpdate : UpdateResult Nat :=
  Update exampleParseFloat exampleNamespace (storageOrder Nat) (.ok exampleInput) exampleCache

/-- A source that differs from `exampleInput` in its first line and in the
first and third segment of its header only. -/
def otherHeadInput : GoString :=
  utf8 "another first line\nIFACE|bytes packets|something else\n" ++ exampleRowEth0 ++
    exampleRowLo

/-- A source whose header has no field name and whose row is the device token
alone. -/
def noFieldInput : GoString := utf8 "Inter-| Receive | Transmit\n face || \neth0:\n"

/-- A source whose row starts with the token `eth0`, without a colon. -/
def noColonInput : GoString := exampleHead ++ utf8 "eth0 100 1 200 2\n"

/-- A line of `MaxScanTokenSize` spaces. -/
def longLine : GoString := List.replicate MaxScanTokenSize 32

/-- A source with two rows that lack values, the rows differing. -/
def twoShortRowsInput : GoString := exampleHead ++ utf8 "eth0: 1 2\n" ++ utf8 "lo: 7\n"

/-- A source whose second row is a line of `MaxScanTokenSize` spaces. -/
def longRowInput : GoString := exampleHead ++ exampleRowEth0 ++ (longLine ++ [10] ++ exampleRowLo)

/-- A source whose first line holds two bars and `MaxScanTokenSize` spaces and
whose second line holds no bar. -/
def longFirstLineInput : GoString := utf8 "||" ++ longLine ++ utf8 "\nno bars here\n"

/-- A source that differs from `exampleInput` in its first line only, a line of
`MaxScanTokenSize` spaces. -/
def longDecorInput : GoString :=
  longLine ++ 10 :: (utf8 " face |bytes packets|bytes packets\n" ++ exampleRowEth0 ++ exampleRowLo)

/-- A source with two rows for the device `eth0`, the second behind
`MaxScanTokenSize` spaces. -/
def longLaterRowInput : GoString :=
  exampleHead ++ utf8 "eth0: 1 2 3 4\n" ++ (longLine ++ utf8 "eth0: 5 6 7 8\n")

/-- A source whose device token starts with the byte 0xFF, which no UTF-8
encoding holds. -/
def invalidDeviceInput : GoString := exampleHead ++ 255 :: utf8 "eth0: 100 1 200 2\n"

/-- The statistics `parseNetStats` returns on `invalidDeviceInput`. -/
def invalidDeviceStats : NetStats :=
  [(utf8 "transmit",
      [(255 :: utf8 "eth0", [(utf8 "bytes", utf8 "200"), (utf8 "packets", utf8 "2")])]),
   (utf8 "receive",
      [(255 :: utf8 "eth0", [(utf8 "bytes", utf8 "100"), (utf8 "packets", utf8 "1")])])]

/-- A source whose device token starts with the byte 0xFF and whose row holds
`abc` in place of a number. -/
def invalidDeviceBadValueInput : GoString :=
  exampleHead ++ 255 :: utf8 "eth0: 100 abc 200 2\n"

/-- The statistics `parseNetStats` returns on `invalidDeviceBadValueInput`. -/
def invalidDeviceBadValueStats : NetStats :=
  [(utf8 "transmit",
      [(255 :: utf8 "eth0", [(utf8 "bytes", utf8 "200"), (utf8 "packets", utf8 "2")])]),
   (utf8 "receive",
      [(255 :: utf8 "eth0", [(utf8 "bytes", utf8 "100"), (utf8 "packets", utf8 "abc")])])]

/-- A source with a row whose first token is `eth0` without a colon, followed
by a row of the device `eth`. -/
def noColonTwiceInput : GoString :=
  exampleHead ++ utf8 "eth0 1 2 3 4\n" ++ utf8 "eth: 5 6 7 8\n"

/-! ## The registry -/

/-- The function `init` of netdev.go: the assignment
`Factories["netdev"] = NewNetDevCollector`, as the package variable `Factories`
afterwards. The type `Factory` stands for `func(Config) (Collector, error)`, and
the argument `newNetDevCollector` for the function value `NewNetDevCollector`;
`Factories` is a map made elsewhere in the package. The function has no error
result and no branch, so its outcome is always `ok`. -/
def init {Factory : Type} (newNetDevCollector : Factory) (Factories : GoMap GoString Factory) :
    Result (GoMap GoString Factory) :=
  .ok (mapSet Factories (utf8 "netdev") newNetDevCollector)

/-- A source with the row of the device `lo` only. -/
def loOnlyInput : GoString := exampleHead ++ exampleRowLo

/-- The statistics `parseNetStats` returns on `loOnlyInput`. -/
def loOnlyStats : NetStats :=
  [(utf8 "transmit", [(utf8 "lo", [(utf8 "bytes", utf8 "9"), (utf8 "packets", utf8 "10")])]),
   (utf8 "receive", [(utf8 "lo", [(utf8 "bytes", utf8 "7"), (utf8 "packets", utf8 "8")])])]

/-- The function `prometheus.BuildFQName`: those of the namespace, the
subsystem and the name that are not empty, joined by "_"; the empty string when
the name is empty. -/
def BuildFQName (nspace subsystem name : GoString) : GoString :=
  if name = [] then []
  else if nspace ≠ [] ∧ subsystem ≠ [] then
    nspace ++ utf8 "_" ++ subsystem ++ utf8 "_" ++ name
  else if nspace ≠ [] then nspace ++ utf8 "_" ++ name
  else if subsystem ≠ [] then subsystem ++ utf8 "_" ++ name
  else name

/-- The options `Update` passes to `NewGaugeVec` on a visit. -/
def gaugeOptsOf (Namespace : GoString) (q : Quad) : GaugeOpts :=
  { Namespace := Namespace, Subsystem := netStatsSubsystem,
    Name := metricKey q.direction q.t, Help := helpText q.t q.direction }

/-- The source of the literal example: the receive fields bytes, packets and
errs, and the one row of `eth0`. -/
def literalInput : GoString :=
  utf8 "Inter-| Receive | Transmit\n face |bytes packets errs|bytes packets errs\neth0: 100 1 0 200 2 0\n"

/-- The statistics of the literal example. -/
def literalStats : NetStats :=
  [(utf8 "transmit",
      [(utf8 "eth0", [(utf8 "bytes", utf8 "200"), (utf8 "packets", utf8 "2"),
        (utf8 "errs", utf8 "0")])]),
   (utf8 "receive",
      [(utf8 "eth0", [(utf8 "bytes", utf8 "100"), (utf8 "packets", utf8 "1"),
        (utf8 "errs", utf8 "0")])])]

/-- The keys of the literal example, each with the raw value of `eth0`. -/
def literalCells : List (GoString × GoString) :=
  [(utf8 "receive_bytes", utf8 "100"), (utf8 "receive_packets", utf8 "1"),
   (utf8 "receive_errs", utf8 "0"), (utf8 "transmit_bytes", utf8 "200"),
   (utf8 "transmit_packets", utf8 "2"), (utf8 "transmit_errs", utf8 "0")]

/-! ## The cache with its pointers

The package variable `netStatsMetrics` has the type `map[string]*GaugeVec`. The
definitions below are `Update` once more with the pointers explicit, to state
which vector a key is bound to; `MetricStore.view` gives back the cache of the
definitions above. -/

/-- The variable `netStatsMetrics` and the vectors its pointers refer to: the
map from a key to the address of its vector, and the vectors allocated so far,
in the order of their addresses. -/
structure MetricStore (F : Type) where
  netStatsMetrics : GoMap GoString Nat
  heap : List (GaugeVec F)

/-- The cache of a store: every key with the vector its pointer refers to. -/
def MetricStore.view {F : Type} (s : MetricStore F) : Cache F :=
  s.netStatsMetrics.filterMap fun e => (s.heap[e.2]?).map fun g => (e.1, g)

/-- The nested loops of `Update` on a store: `NewGaugeVec` allocates a vector
at the next free address, and `WithLabelValues(dev).Set(v)` changes the vector
at the address the key is bound to. -/
def updateLoopPtr {F : Type} (parseFloat : GoString → F × Option GoString)
    (Namespace : GoString) : List Quad → MetricStore F → MetricStore F × Result Unit
  | [], s => (s, .ok ())
  | q :: rest, s =>
    let key := metricKey q.direction q.t
    let s1 : MetricStore F :=
      match mapGet s.netStatsMetrics key with
      | some _ => s
      | none =>
        { netStatsMetrics := mapSet s.netStatsMetrics key s.heap.length,
          heap := s.heap ++
            [NewGaugeVec
              { Namespace := Namespace, Subsystem := netStatsSubsystem, Name := key,
                Help := helpText q.t q.direction }
              [utf8 "device"]] }
    match (parseFloat q.value).2 with
    | some e => (s1, .err (invalidValue q.value e))
    | none =>
      match mapGet s1.netStatsMetrics key with
      | none => (s1, .panic)
      | some p =>
        match s1.heap[p]? with
        | none => (s1, .panic)
        | some g =>
          match g.Set q.dev (parseFloat q.value).1 with
          | none => (s1, .panic)
          | some g1 => updateLoopPtr parseFloat Namespace rest { s1 with heap := s1.heap.set p g1 }

/-- What a call of `Update` leaves behind, on a store. -/
structure UpdateStoreResult (F : Type) where
  store : MetricStore F
  sent : List (Sample F)
  ret : Result Unit

/-- The method `netDevCollector.Update` on a store. -/
def UpdatePtr {F : Type} (parseFloat : GoString → F × Option GoString) (Namespace : GoString)
    (ρ : RangeOrder F) (file : Except GoString GoString) (s : MetricStore F) :
    UpdateStoreResult F :=
  match getNetStats file with
  | .err e => { store := s, sent := [], ret := .err (couldntGet e) }
  | .panic => { store := s, sent := [], ret := .panic }
  | .ok netStats =>
    match updateLoopPtr parseFloat Namespace (ρ.stats netStats) s with
    | (s1, .ok _) => { store := s1, sent := ρ.metrics (collectAll s1.view), ret := .ok () }
    | (s1, .err e) => { store := s1, sent := [], ret := .err e }
    | (s1, .panic) => { store := s1, sent := [], ret := .panic }

/-- The store `Update` makes sure of before a visit. -/
def ensureGaugePtr {F : Type} (Namespace : GoString) (q : Quad) (s : MetricStore F) :
    MetricStore F :=
  match mapGet s.netStatsMetrics (metricKey q.direction q.t) with
  | some _ => s
  | none =>
    { netStatsMetrics := mapSet s.netStatsMetrics (metricKey q.direction q.t) s.heap.length,
      heap := s.heap ++ [NewGaugeVec (gaugeOptsOf Namespace q) [utf8 "device"]] }

/-- The store `s1` comes from the store `s` by binding keys that `s` did not
hold to vectors at new addresses and by setting values: every key keeps its
pointer, every vector keeps its address, its options, its label names and its
label values, and the keys of `s1` are those of `s` followed by new ones, one
new vector each. -/
def MetricStore.Grows {F : Type} (s s1 : MetricStore F) : Prop :=
  (∀ key p, mapGet s.netStatsMetrics key = some p → mapGet s1.netStatsMetrics key = some p) ∧
  (∀ (p : Nat) (g : GaugeVec F), s.heap[p]? = some g →
    ∃ g1, s1.heap[p]? = some g1 ∧ g1.opts = g.opts ∧ g1.labelNames = g.labelNames ∧
      ∀ d, d ∈ mapKeys g.children → d ∈ mapKeys g1.children) ∧
  ∃ added, mapKeys s1.netStatsMetrics = mapKeys s.netStatsMetrics ++ added ∧
    added.Nodup ∧ (∀ k ∈ added, k ∉ mapKeys s.netStatsMetrics) ∧
    s1.heap.length = s.heap.length + added.length ∧
    ∀ k ∈ added, ∃ p, mapGet s1.netStatsMetrics k = some p ∧ s.heap.length ≤ p

/-- Every pointer of the map refers to an allocated vector, and no two keys
share a vector. -/
def MetricStore.WellFormed {F : Type} (s : MetricStore F) : Prop :=
  (∀ e ∈ s.netStatsMetrics, e.2 < s.heap.length) ∧ (s.netStatsMetrics.map Prod.snd).Nodup

/-- A store whose cache is `exampleCache`: the key `receive_bytes` bound to the
vector at address 0. -/
def exampleStore : MetricStore Nat :=
  { netStatsMetrics := [(utf8 "receive_bytes", 0)],
    heap := [{ opts := { Namespace := utf8 "node", Subsystem := utf8 "network",
                         Name := utf8 "receive_bytes",
                         Help := utf8 "bytes receive from /proc/net/dev." },
               labelNames := [utf8 "device"],
               children := [(utf8 "eth0", 5), (utf8 "wlan0", 6)] }] }

/-! ## Lemmas on maps -/

section MapLemmas

variable {K V : Type} [DecidableEq K]

theorem mapGet_mapSet_self (m : GoMap K V) (k : K) (v : V) :
    mapGet (mapSet m k v) k = some v := by
  induction m with
  | nil => simp [mapSet, mapGet]
  | cons e m ih =>
    obtain ⟨k1, v1⟩ := e
    by_cases h : k1 = k
    · simp [mapSet, mapGet, h]
    · simp [mapSet, mapGet, h, ih]

theorem mapGet_mapSet_ne (m : GoMap K V) {k k1 : K} (v : V) (h : k1 ≠ k) :
    mapGet (mapSet m k v) k1 = mapGet m k1 := by
  induction m with
  | nil => simp [mapSet, mapGet, h.symm]
  | cons e m ih =>
    obtain ⟨k2, v2⟩ := e
    by_cases h2 : k2 = k
    · subst h2
      simp [mapSet, mapGet, h.symm]
    · by_cases h3 : k2 = k1
      · subst h3
        simp [mapSet, mapGet, h2]
      · simp [mapSet, mapGet, h2, h3, ih]

theorem mapGet_eq_none_iff (m : GoMap K V) (k : K) :
    mapGet m k = none ↔ k ∉ mapKeys m := by
  induction m with
  | nil => simp [mapGet, mapKeys]
  | cons e m ih =>
    obtain ⟨k1, v1⟩ := e
    by_cases h : k1 = k
    · simp [mapGet, mapKeys, h]
    · have h1 : ¬ k = k1 := fun c => h c.symm
      simpa [mapGet, mapKeys, h, h1] using ih

theorem mapGet_isSome_iff (m : GoMap K V) (k : K) :
    (mapGet m k).isSome ↔ k ∈ mapKeys m := by
  rw [← not_iff_not, ← mapGet_eq_none_iff]
  cases mapGet m k <;> simp

theorem mapSet_of_not_mem (m : GoMap K V) (k : K) (v : V) (h : k ∉ mapKeys m) :
    mapSet m k v = m ++ [(k, v)] := by
  induction m with
  | nil => simp [mapSet]
  | cons e m ih =>
    obtain ⟨k1, v1⟩ := e
    simp [mapKeys] at h
    have h1 : ¬ k1 = k := fun c => h.1 c.symm
    have h2 : k ∉ mapKeys m := by simpa [mapKeys] using h.2
    simp [mapSet, h1, ih h2]

theorem mem_mapKeys_mapSet (m : GoMap K V) (k k1 : K) (v : V) :
    k1 ∈ mapKeys (mapSet m k v) ↔ k1 = k ∨ k1 ∈ mapKeys m := by
  induction m with
  | nil => simp [mapSet, mapKeys]
  | cons e m ih =>
    obtain ⟨k2, v2⟩ := e
    by_cases h : k2 = k
    · subst h
      simp [mapSet, mapKeys]
    · simp only [mapKeys] at ih
      simp [mapSet, mapKeys, h, ih]
      tauto

theorem mapKeys_mapSet_of_mem (m : GoMap K V) (k : K) (v : V) (h : k ∈ mapKeys m) :
    mapKeys (mapSet m k v) = mapKeys m := by
  induction m with
  | nil => simp [mapKeys] at h
  | cons e m ih =>
    obtain ⟨k2, v2⟩ := e
    by_cases h2 : k2 = k
    · subst h2
      simp [mapSet, mapKeys]
    · have h3 : k ∈ mapKeys m := by
        simp [mapKeys] at h
        rcases h with h | h
        · exact absurd h.symm h2
        · simpa [mapKeys] using h
      simp only [mapKeys] at ih
      simp [mapSet, mapKeys, h2, ih h3]

theorem nodup_mapKeys_mapSet (m : GoMap K V) (k : K) (v : V) (h : (mapKeys m).Nodup) :
    (mapKeys (mapSet m k v)).Nodup := by
  by_cases hk : k ∈ mapKeys m
  · rw [mapKeys_mapSet_of_mem m k v hk]
    exact h
  · rw [mapSet_of_not_mem m k v hk]
    simp only [mapKeys, List.map_append, List.map_cons, List.map_nil]
    rw [List.nodup_append]
    refine ⟨h, by simp, ?_⟩
    intro a ha hb
    simp at hb
    subst hb
    exact hk ha

theorem mapSet_same (m : GoMap K V) (k : K) (v : V) (h : mapGet m k = some v) :
    mapSet m k v = m := by
  induction m with
  | nil => simp [mapGet] at h
  | cons e m ih =>
    obtain ⟨k2, v2⟩ := e
    by_cases h2 : k2 = k
    · subst h2
      simp [mapGet] at h
      simp [mapSet, h]
    · simp [mapGet, h2] at h
      simp [mapSet, h2, ih h]

end MapLemmas

/-! ## Lemmas on the scanner and on Fields -/

theorem scanResults_short (ls : List GoString)
    (h : ∀ l ∈ ls, l.length < MaxScanTokenSize) :
    scanResults ls = (ls.map dropCR).map some := by
  induction ls with
  | nil => rfl
  | cons l ls ih =>
    have h1 : l.length < MaxScanTokenSize := h l (List.mem_cons_self _ _)
    rw [scanResults, if_pos h1, ih fun x hx => h x (List.mem_cons_of_mem _ hx)]
    rfl

theorem ScanLines_short (r : GoString) (h : ShortLines r) :
    ScanLines r = (inputLines r).map some :=
  scanResults_short _ h

theorem delivered_map_some (ls : List GoString) : delivered (ls.map some) = ls := by
  induction ls with
  | nil => rfl
  | cons l ls ih => simp [delivered, ih]

theorem headerText_eq (r : GoString) (h : ShortLines r) :
    headerText r = (inputLines r).getD 1 [] := by
  unfold headerText NewScanner Scanner.Scan Scanner.Text
  rw [ScanLines_short r h]
  rcases inputLines r with _ | ⟨a, _ | ⟨b, t⟩⟩ <;> simp

theorem bodyLines_eq (r : GoString) (h : ShortLines r) :
    bodyLines r = (inputLines r).drop 2 := by
  unfold bodyLines NewScanner Scanner.Scan
  rw [ScanLines_short r h]
  rcases inputLines r with _ | ⟨a, _ | ⟨b, t⟩⟩
  · simp [delivered]
  · simp [delivered]
  · simp only [List.map_cons, List.drop_succ_cons, List.drop_zero]
    exact delivered_map_some t

theorem fieldsLoop_ne_nil (s : GoString) :
    ∀ (skip : Nat) (sp : Bool) (cur : GoString), ∀ t ∈ fieldsLoop s skip sp cur, t ≠ [] := by
  induction s with
  | nil =>
    intro skip sp cur t ht
    by_cases hc : cur = []
    · simp [fieldsLoop, hc] at ht
    · simp [fieldsLoop, hc] at ht
      rw [ht]
      exact hc
  | cons b bs ih =>
    intro skip sp cur t ht
    simp only [fieldsLoop] at ht
    split_ifs at ht
    all_goals first
      | exact ih _ _ _ t ht
      | (rcases List.mem_cons.mp ht with h | h
         · rw [h]; assumption
         · exact ih _ _ _ t h)

theorem Fields_ne_nil (s : GoString) : ∀ t ∈ Fields s, t ≠ [] :=
  fieldsLoop_ne_nil s 0 false []

theorem Fields_nil : Fields [] = [] := by
  simp [Fields, fieldsLoop]

/-! ## Lemmas on parseNetDevLine and the loop of parseNetStats -/

theorem parseNetDevLineLoop_eq (header : List GoString) (parts : List GoString) :
    ∀ (i : Nat) (m : DevStats), i + parts.length ≤ header.length →
      parseNetDevLineLoop header i parts m =
        .ok (((header.drop i).zip parts).foldl (fun m p => mapSet m p.1 p.2) m) := by
  induction parts with
  | nil => intro i m _; simp [parseNetDevLineLoop]
  | cons v parts ih =>
    intro i m h
    simp only [List.length_cons] at h
    have hi : i < header.length := by omega
    rw [parseNetDevLineLoop, List.getElem?_eq_getElem hi]
    simp only
    rw [ih (i + 1) _ (by omega), List.drop_eq_getElem_cons hi]
    simp only [List.zip_cons_cons, List.foldl_cons]

theorem parseNetDevLine_eq (parts header : List GoString) (h : parts.length ≤ header.length) :
    parseNetDevLine parts header = .ok (zipStats header parts) := by
  unfold parseNetDevLine zipStats
  rw [parseNetDevLineLoop_eq header parts 0 [] (by simpa using h)]
  simp

theorem transmitKey_ne_receiveKey : transmitKey ≠ receiveKey := by decide

theorem parseNetStatsLine_bad (header : List GoString) (text : GoString) (netStats : NetStats)
    (h : (Fields text).length ≠ 2 * header.length + 1) :
    parseNetStatsLine header text netStats = .err (invalidLine text) := by
  simp [parseNetStatsLine, h]

theorem parseNetStatsLine_good (header : List GoString) (text : GoString)
    (T R : GoMap GoString DevStats)
    (h : (Fields text).length = 2 * header.length + 1) :
    parseNetStatsLine header text [(transmitKey, T), (receiveKey, R)] =
      .ok [(transmitKey, mapSet T (devName text) (rowTransmit header text)),
           (receiveKey, mapSet R (devName text) (rowReceive header text))] := by
  have hne := transmitKey_ne_receiveKey
  obtain ⟨p0, ps, hp⟩ : ∃ p0 ps, Fields text = p0 :: ps := by
    cases hf : Fields text with
    | nil => simp [hf] at h
    | cons a b => exact ⟨a, b, rfl⟩
  have hp0 : p0 ≠ [] := Fields_ne_nil text p0 (by simp [hp])
  have hlen : p0.length ≠ 0 := by simpa using hp0
  have hps : ps.length = 2 * header.length := by simpa [hp] using h
  have h1 : slice (p0 :: ps) 1 (header.length + 1) =
      some (((p0 :: ps).take (header.length + 1)).drop 1) := by
    simp [slice]
    omega
  have h2 : slice (p0 :: ps) (header.length + 1) (2 * header.length + 1) =
      some (((p0 :: ps).take (2 * header.length + 1)).drop (header.length + 1)) := by
    simp [slice]
    omega
  have e1 : parseNetDevLine (((p0 :: ps).take (header.length + 1)).drop 1) header =
      .ok (zipStats header (((p0 :: ps).take (header.length + 1)).drop 1)) :=
    parseNetDevLine_eq _ _ (by simp)
  have e2 : parseNetDevLine (((p0 :: ps).take (2 * header.length + 1)).drop (header.length + 1))
      header =
      .ok (zipStats header (((p0 :: ps).take (2 * header.length + 1)).drop (header.length + 1))) :=
    parseNetDevLine_eq _ _ (by simp; omega)
  unfold parseNetStatsLine
  simp only [hp, List.length_cons, hps, ne_eq, not_true_eq_false, if_false, List.getElem?_cons_zero,
    hlen]
  rw [h1]
  simp only
  rw [e1]
  simp only
  rw [h2]
  simp only
  rw [e2]
  simp only [setDev, mapGet, mapSet, if_true, hne, if_false, devName, rowTransmit, rowReceive, hp,
    List.getD_cons_zero, hne.symm, List.length_cons, hps]

theorem parseNetStatsLoop_eq (header : List GoString) (lines : List (Option GoString)) :
    ∀ T R : GoMap GoString DevStats,
      parseNetStatsLoop header lines [(transmitKey, T), (receiveKey, R)] =
        match (delivered lines).find? (badRow header) with
        | some l => .err (invalidLine l)
        | none =>
          .ok [(transmitKey, storeRows (rowTransmit header) (delivered lines) T),
               (receiveKey, storeRows (rowReceive header) (delivered lines) R)] := by
  induction lines with
  | nil => intro T R; simp [parseNetStatsLoop, storeRows, delivered]
  | cons o lines ih =>
    intro T R
    cases o with
    | none => simp [parseNetStatsLoop, storeRows, delivered]
    | some l =>
      by_cases hb : (Fields l).length = 2 * header.length + 1
      · have hb1 : badRow header l = false := by simp [badRow, hb]
        rw [parseNetStatsLoop, parseNetStatsLine_good header l T R hb]
        simp only
        rw [ih, delivered, List.find?_cons, hb1]
        simp only [storeRows, List.foldl_cons]
      · have hb1 : badRow header l = true := by simp [badRow, hb]
        rw [parseNetStatsLoop, parseNetStatsLine_bad header l _ hb, delivered, List.find?_cons,
          hb1]

theorem emptyNetStats_eq : emptyNetStats = [(transmitKey, []), (receiveKey, [])] := by
  decide

theorem parseNetStats_eq (r : GoString) :
    parseNetStats r =
      if (Split (headerText r) 124).length ≠ 3 then .err (invalidHeader (headerText r))
      else
        match (bodyLines r).find? (badRow (fieldHeader r)) with
        | some l => .err (invalidLine l)
        | none =>
          .ok [(transmitKey, storeRows (rowTransmit (fieldHeader r)) (bodyLines r) []),
               (receiveKey, storeRows (rowReceive (fieldHeader r)) (bodyLines r) [])] := by
  have e1 : (NewScanner r).Scan.2.Scan.2.Text = headerText r := rfl
  have e2 : delivered (NewScanner r).Scan.2.Scan.2.pending = bodyLines r := rfl
  unfold parseNetStats
  simp only [e1]
  by_cases h : (Split (headerText r) 124).length = 3
  · obtain ⟨a, b, c, habc⟩ : ∃ a b c, Split (headerText r) 124 = [a, b, c] := by
      rcases hs : Split (headerText r) 124 with _ | ⟨a, _ | ⟨b, _ | ⟨c, _ | ⟨d, t⟩⟩⟩⟩ <;>
        simp [hs] at h
      exact ⟨a, b, c, rfl⟩
    have hf : fieldHeader r = Fields b := by simp [fieldHeader, habc]
    simp only [h, ne_eq, not_true_eq_false, if_false, habc, List.getElem?_cons_succ,
      List.getElem?_cons_zero, emptyNetStats_eq]
    rw [parseNetStatsLoop_eq, hf, e2]
  · simp [h]

/-! ## Lemmas on the maps of a row and of a direction -/

theorem foldl_mapSet_eq_append {K V : Type} [DecidableEq K] (ps : List (K × V)) :
    ∀ m : GoMap K V, (mapKeys m ++ ps.map Prod.fst).Nodup →
      ps.foldl (fun m p => mapSet m p.1 p.2) m = m ++ ps := by
  induction ps with
  | nil => intro m _; simp
  | cons p ps ih =>
    intro m h
    have hp : p.1 ∉ mapKeys m := by
      intro hm
      rw [List.nodup_append] at h
      exact h.2.2 hm (by simp)
    rw [List.foldl_cons, mapSet_of_not_mem m p.1 p.2 hp, ih]
    · simp
    · simpa [mapKeys, List.append_assoc] using h

theorem mem_mapKeys_foldl_mapSet {K V : Type} [DecidableEq K] (ps : List (K × V)) (k : K) :
    ∀ m : GoMap K V,
      k ∈ mapKeys (ps.foldl (fun m p => mapSet m p.1 p.2) m) ↔
        k ∈ mapKeys m ∨ k ∈ ps.map Prod.fst := by
  induction ps with
  | nil => intro m; simp
  | cons p ps ih =>
    intro m
    rw [List.foldl_cons, ih, mem_mapKeys_mapSet]
    simp only [List.map_cons, List.mem_cons]
    tauto

theorem nodup_mapKeys_foldl_mapSet {K V : Type} [DecidableEq K] (ps : List (K × V)) :
    ∀ m : GoMap K V, (mapKeys m).Nodup →
      (mapKeys (ps.foldl (fun m p => mapSet m p.1 p.2) m)).Nodup := by
  induction ps with
  | nil => intro m h; simpa using h
  | cons p ps ih =>
    intro m h
    rw [List.foldl_cons]
    exact ih _ (nodup_mapKeys_mapSet m p.1 p.2 h)

theorem zipStats_nodup (header parts : List GoString) (hn : header.Nodup)
    (hl : header.length ≤ parts.length) : zipStats header parts = header.zip parts := by
  unfold zipStats
  rw [foldl_mapSet_eq_append]
  · simp
  · simpa [mapKeys, List.map_fst_zip _ _ hl] using hn

theorem mem_mapKeys_zipStats (header parts : List GoString)
    (hl : header.length ≤ parts.length) (k : GoString) :
    k ∈ mapKeys (zipStats header parts) ↔ k ∈ header := by
  unfold zipStats
  rw [mem_mapKeys_foldl_mapSet, List.map_fst_zip _ _ hl]
  simp [mapKeys]

theorem nodup_mapKeys_zipStats (header parts : List GoString) :
    (mapKeys (zipStats header parts)).Nodup :=
  nodup_mapKeys_foldl_mapSet _ [] (by simp [mapKeys])

theorem mapGet_zip {K V : Type} [DecidableEq K] (dk : K) (dv : V) (hs : List K) :
    ∀ (vs : List V) (i : Nat), hs.Nodup → i < hs.length → i < vs.length →
      mapGet (hs.zip vs) (hs.getD i dk) = some (vs.getD i dv) := by
  induction hs with
  | nil => intro vs i _ hi; simp at hi
  | cons h hs ih =>
    intro vs i hn hi hv
    cases vs with
    | nil => simp at hv
    | cons v vs =>
      cases i with
      | zero => simp [mapGet]
      | succ i =>
        have hi1 : i < hs.length := by simpa using hi
        have hv1 : i < vs.length := by simpa using hv
        have hne : ¬ h = hs.getD i dk := by
          intro c
          have hmem : hs.getD i dk ∈ hs := by
            rw [List.getD_eq_getElem _ _ hi1]
            exact List.getElem_mem hi1
          exact (List.nodup_cons.mp hn).1 (c ▸ hmem)
        simp only [List.zip_cons_cons, List.getD_cons_succ, mapGet, hne, if_false]
        exact ih vs i (List.nodup_cons.mp hn).2 hi1 hv1

theorem storeRows_append (row : GoString → DevStats) (pre post : List GoString)
    (m : GoMap GoString DevStats) :
    storeRows row (pre ++ post) m = storeRows row post (storeRows row pre m) := by
  simp [storeRows]

theorem mapGet_storeRows_of_absent (row : GoString → DevStats) (k : GoString)
    (lines : List GoString) :
    ∀ m : GoMap GoString DevStats, (∀ l ∈ lines, devName l ≠ k) →
      mapGet (storeRows row lines m) k = mapGet m k := by
  induction lines with
  | nil => intro m _; simp [storeRows]
  | cons l lines ih =>
    intro m h
    have h1 : devName l ≠ k := h l (by simp)
    have h2 : ∀ l1 ∈ lines, devName l1 ≠ k := fun l1 hl1 => h l1 (by simp [hl1])
    have e : storeRows row (l :: lines) m =
        storeRows row lines (mapSet m (devName l) (row l)) := by simp [storeRows]
    rw [e, ih _ h2, mapGet_mapSet_ne m (row l) (Ne.symm h1)]

theorem mapGet_storeRows_last (row : GoString → DevStats) (pre post : List GoString)
    (l : GoString) (m : GoMap GoString DevStats) (h : ∀ l1 ∈ post, devName l1 ≠ devName l) :
    mapGet (storeRows row (pre ++ l :: post) m) (devName l) = some (row l) := by
  have e : storeRows row (pre ++ l :: post) m =
      storeRows row post (mapSet (storeRows row pre m) (devName l) (row l)) := by
    simp [storeRows]
  rw [e, mapGet_storeRows_of_absent row (devName l) post _ h, mapGet_mapSet_self]

theorem mem_mapKeys_storeRows (row : GoString → DevStats) (k : GoString)
    (lines : List GoString) :
    ∀ m : GoMap GoString DevStats,
      k ∈ mapKeys (storeRows row lines m) ↔ k ∈ mapKeys m ∨ ∃ l ∈ lines, devName l = k := by
  induction lines with
  | nil => intro m; simp [storeRows]
  | cons l lines ih =>
    intro m
    have e : storeRows row (l :: lines) m =
        storeRows row lines (mapSet m (devName l) (row l)) := by simp [storeRows]
    rw [e, ih, mem_mapKeys_mapSet]
    simp only [List.mem_cons, exists_eq_or_imp]
    constructor
    · rintro ((h | h) | h)
      · exact Or.inr (Or.inl h.symm)
      · exact Or.inl h
      · exact Or.inr (Or.inr h)
    · rintro (h | h | h)
      · exact Or.inl (Or.inr h)
      · exact Or.inl (Or.inl h.symm)
      · exact Or.inr h

theorem nodup_mapKeys_storeRows (row : GoString → DevStats) (lines : List GoString) :
    ∀ m : GoMap GoString DevStats, (mapKeys m).Nodup →
      (mapKeys (storeRows row lines m)).Nodup := by
  induction lines with
  | nil => intro m h; simpa [storeRows] using h
  | cons l lines ih =>
    intro m h
    have e : storeRows row (l :: lines) m =
        storeRows row lines (mapSet m (devName l) (row l)) := by simp [storeRows]
    rw [e]
    exact ih _ (nodup_mapKeys_mapSet m _ _ h)

theorem mapGet_storeRows_some (row : GoString → DevStats) (k : GoString) (stats : DevStats)
    (lines : List GoString) :
    ∀ m : GoMap GoString DevStats, mapGet (storeRows row lines m) k = some stats →
      mapGet m k = some stats ∨ ∃ l ∈ lines, devName l = k ∧ stats = row l := by
  induction lines with
  | nil => intro m h; exact Or.inl (by simpa [storeRows] using h)
  | cons l lines ih =>
    intro m h
    have e : storeRows row (l :: lines) m =
        storeRows row lines (mapSet m (devName l) (row l)) := by simp [storeRows]
    rw [e] at h
    rcases ih _ h with h1 | ⟨l1, hl1, hd, hs⟩
    · by_cases hk : k = devName l
      · subst hk
        rw [mapGet_mapSet_self] at h1
        exact Or.inr ⟨l, by simp, rfl, (Option.some.inj h1).symm⟩
      · rw [mapGet_mapSet_ne m _ hk] at h1
        exact Or.inl h1
    · exact Or.inr ⟨l1, by simp [hl1], hd, hs⟩

theorem Split_length (s : GoString) (sep : Nat) :
    (Split s sep).length = s.count sep + 1 := by
  induction s with
  | nil => simp [Split]
  | cons b bs ih =>
    by_cases h : b = sep
    · subst h
      simp [Split, ih]
    · rw [Split, if_neg h, List.count_cons_of_ne (fun c => h c.symm)]
      cases hs : Split bs sep with
      | nil => simp [hs] at ih
      | cons p ps =>
        rw [hs] at ih
        simpa using ih

/-! ## Lemmas on long lines -/

theorem scanResults_append_short (xs ys : List GoString)
    (h : ∀ l ∈ xs, l.length < MaxScanTokenSize) :
    scanResults (xs ++ ys) = (xs.map dropCR).map some ++ scanResults ys := by
  induction xs with
  | nil => rfl
  | cons l xs ih =>
    have h1 : l.length < MaxScanTokenSize := h l (List.mem_cons_self _ _)
    rw [List.cons_append, scanResults, if_pos h1, ih fun x hx => h x (List.mem_cons_of_mem _ hx)]
    rfl

theorem scanResults_long (l : GoString) (ls : List GoString)
    (h : MaxScanTokenSize ≤ l.length) :
    scanResults (l :: ls) = [none, some (dropCR (l.take MaxScanTokenSize))] := by
  rw [scanResults, if_neg (by omega)]

theorem delivered_append_some (xs : List GoString) (ys : List (Option GoString)) :
    delivered (xs.map some ++ ys) = xs ++ delivered ys := by
  induction xs with
  | nil => rfl
  | cons l xs ih => simp [delivered, ih]

theorem rawLines_line (l rest : GoString) (h : 10 ∉ l) :
    rawLines (l ++ 10 :: rest) = l :: rawLines rest := by
  induction l with
  | nil => simp [rawLines]
  | cons c l ih =>
    have hc : c ≠ 10 := fun e => h (by simp [e])
    have hl : 10 ∉ l := fun e => h (List.mem_cons_of_mem _ e)
    rw [List.cons_append, rawLines, if_neg hc, ih hl]

theorem rawLines_ne_nil (b : Nat) (bs : GoString) : rawLines (b :: bs) ≠ [] := by
  rw [rawLines]
  split_ifs
  · simp
  · cases rawLines bs <;> simp

theorem rawLines_append_newline (a b : GoString) :
    rawLines (a ++ 10 :: b) = rawLines (a ++ [10]) ++ rawLines b := by
  induction a with
  | nil => simp [rawLines]
  | cons c a ih =>
    by_cases hc : c = 10
    · subst hc
      simp [rawLines, ih]
    · rw [List.cons_append, List.cons_append, rawLines, rawLines, if_neg hc, if_neg hc, ih]
      cases h : rawLines (a ++ [10]) with
      | nil =>
        cases a with
        | nil => simp [rawLines] at h
        | cons x xs =>
          rw [List.cons_append] at h
          exact absurd h (rawLines_ne_nil x (xs ++ [10]))
      | cons p ps => simp

theorem rawLines_append (a b : GoString) (h : a.getLast? = some 10) :
    rawLines (a ++ b) = rawLines a ++ rawLines b := by
  obtain ⟨a0, rfl⟩ := List.getLast?_eq_some_iff.mp h
  rw [List.append_assoc, List.singleton_append, rawLines_append_newline]

theorem dropCR_of_not_mem (l : GoString) (h : 13 ∉ l) : dropCR l = l := by
  unfold dropCR
  rw [if_neg]
  intro e
  exact h (List.mem_of_getLast?_eq_some e)

theorem Split_of_not_mem (s : GoString) (sep : Nat) (h : sep ∉ s) : Split s sep = [s] := by
  induction s with
  | nil => rfl
  | cons b bs ih =>
    have hb : b ≠ sep := fun e => h (by simp [e])
    rw [Split, if_neg hb, ih fun e => h (List.mem_cons_of_mem _ e)]

theorem fieldsLoop_skip_zero (s : GoString) (sp sp1 : Bool) (cur : GoString) :
    fieldsLoop s 0 sp cur = fieldsLoop s 0 sp1 cur := by
  cases s <;> simp [fieldsLoop]

theorem Fields_space (s : GoString) : Fields (32 :: s) = Fields s := by
  have hd : DecodeRune (32 :: s) = (32, 1) := by simp [DecodeRune]
  have hs : IsSpace 32 = true := by decide
  unfold Fields
  rw [fieldsLoop]
  simp only [hd, hs, if_true]
  exact fieldsLoop_skip_zero s _ _ _

theorem Fields_spaces (n : Nat) (s : GoString) : Fields (List.replicate n 32 ++ s) = Fields s := by
  induction n with
  | zero => rfl
  | succ n ih => rw [List.replicate_succ, List.cons_append, Fields_space, ih]

theorem longLine_length : longLine.length = MaxScanTokenSize := by
  simp [longLine]

theorem not_mem_longLine (b : Nat) (h : b ≠ 32) : b ∉ longLine := by
  intro e
  exact h (List.eq_of_mem_replicate e)

theorem scanned_twice (r : GoString) (a b : Option GoString) (rest : List (Option GoString))
    (h : ScanLines r = a :: b :: rest) :
    headerText r = b.getD [] ∧ bodyLines r = delivered rest := by
  unfold headerText bodyLines NewScanner Scanner.Scan Scanner.Text
  rw [h]
  cases a <;> cases b <;> simp

theorem headerText_of_short_head (r : GoString)
    (h : ∀ l ∈ (rawLines r).take 2, l.length < MaxScanTokenSize) :
    headerText r = (inputLines r).getD 1 [] := by
  unfold headerText NewScanner Scanner.Scan Scanner.Text ScanLines inputLines
  generalize rawLines r = ls at h
  rcases ls with _ | ⟨a, _ | ⟨b, t⟩⟩
  · simp [scanResults]
  · have ha : a.length < MaxScanTokenSize := h a (by simp)
    simp [scanResults, ha]
  · have ha : a.length < MaxScanTokenSize := h a (by simp)
    have hb : b.length < MaxScanTokenSize := h b (by simp)
    simp [scanResults, ha, hb]

theorem parseNetStats_congr (r r2 : GoString) (hh : headerText r = headerText r2)
    (hb : bodyLines r = bodyLines r2) : parseNetStats r = parseNetStats r2 := by
  rw [parseNetStats_eq, parseNetStats_eq, fieldHeader, fieldHeader, hh, hb]

theorem invalidLine_eq (l : GoString) :
    invalidLine l = utf8 "Invalid line in /proc/net/dev: " ++ l := by
  have e0 : utf8 "Invalid line in " ++ procNetDev ++ utf8 ": " =
      utf8 "Invalid line in /proc/net/dev: " := by decide
  rw [invalidLine, e0]

theorem invalidHeader_eq (l : GoString) :
    invalidHeader l = utf8 "Invalid header line in /proc/net/dev: " ++ l := by
  have e0 : utf8 "Invalid header line in " ++ procNetDev ++ utf8 ": " =
      utf8 "Invalid header line in /proc/net/dev: " := by decide
  rw [invalidHeader, e0]

/-! ## The claims on parseNetStats -/

/-- C1, as amended: when every line of the input is shorter than the buffer of
the scanner (so that the header text is the second line and the body lines are
the lines after it), the second line has three segments, the N field names of
the receive segment are pairwise distinct and every body line has 2N+1 tokens,
`parseNetStats` succeeds, and for every body line the receive and the transmit
map of its device have the N field names as keys, N entries each, with
receive[h_i] = t_i and transmit[h_i] = t_(N+i) when no later line repeats the
device name of the line. -/
theorem parseNetStats_row_values (r : GoString)
    (hshort : ShortLines r)
    (hseg : (Split (headerText r) 124).length = 3)
    (hnodup : (fieldHeader r).Nodup)
    (hrows : ∀ l ∈ bodyLines r, (Fields l).length = 2 * (fieldHeader r).length + 1) :
    headerText r = (inputLines r).getD 1 [] ∧ bodyLines r = (inputLines r).drop 2 ∧
    ∃ ns, parseNetStats r = .ok ns ∧
      ∀ pre l post, bodyLines r = pre ++ l :: post →
        ∃ receive transmit,
          (mapGet ns receiveKey).bind (fun devs => mapGet devs (devName l)) = some receive ∧
          (mapGet ns transmitKey).bind (fun devs => mapGet devs (devName l)) = some transmit ∧
          mapKeys receive = fieldHeader r ∧ mapKeys transmit = fieldHeader r ∧
          receive.length = (fieldHeader r).length ∧
          transmit.length = (fieldHeader r).length ∧
          ((∀ l1 ∈ post, devName l1 ≠ devName l) →
            ∀ i, i < (fieldHeader r).length →
              mapGet receive ((fieldHeader r).getD i []) = some ((Fields l).getD (i + 1) []) ∧
              mapGet transmit ((fieldHeader r).getD i []) =
                some ((Fields l).getD ((fieldHeader r).length + 1 + i) [])) := by
  have hne := transmitKey_ne_receiveKey
  have hfind : (bodyLines r).find? (badRow (fieldHeader r)) = none := by
    rw [List.find?_eq_none]
    intro l hl
    simp [badRow, hrows l hl]
  have hR : ∀ l ∈ bodyLines r, rowReceive (fieldHeader r) l =
      (fieldHeader r).zip (((Fields l).take ((fieldHeader r).length + 1)).drop 1) := by
    intro l hl
    have := hrows l hl
    exact zipStats_nodup _ _ hnodup (by simp; omega)
  have hT : ∀ l ∈ bodyLines r, rowTransmit (fieldHeader r) l =
      (fieldHeader r).zip
        (((Fields l).take (Fields l).length).drop ((fieldHeader r).length + 1)) := by
    intro l hl
    have := hrows l hl
    exact zipStats_nodup _ _ hnodup (by simp; omega)
  have hstored : ∀ (row : GoString → DevStats) (l : GoString), l ∈ bodyLines r →
      ∃ l2 ∈ bodyLines r, mapGet (storeRows row (bodyLines r) []) (devName l) = some (row l2) := by
    intro row l hl
    have hmem : devName l ∈ mapKeys (storeRows row (bodyLines r) []) := by
      rw [mem_mapKeys_storeRows]
      exact Or.inr ⟨l, hl, rfl⟩
    obtain ⟨st, hst⟩ := Option.isSome_iff_exists.mp ((mapGet_isSome_iff _ _).mpr hmem)
    rcases mapGet_storeRows_some row _ st _ [] hst with h1 | ⟨l2, hl2, -, hs⟩
    · simp [mapGet] at h1
    · exact ⟨l2, hl2, by rw [hst, hs]⟩
  refine ⟨headerText_eq r hshort, bodyLines_eq r hshort, _,
    by rw [parseNetStats_eq, if_neg (by simp [hseg]), hfind], ?_⟩
  intro pre l post hb
  have hmem : l ∈ bodyLines r := by rw [hb]; simp
  have hl : (Fields l).length = 2 * (fieldHeader r).length + 1 := hrows l hmem
  obtain ⟨lr, hlr, hgr⟩ := hstored (rowReceive (fieldHeader r)) l hmem
  obtain ⟨lt, hlt, hgt⟩ := hstored (rowTransmit (fieldHeader r)) l hmem
  have hlenr := hrows lr hlr
  have hlent := hrows lt hlt
  refine ⟨rowReceive (fieldHeader r) lr, rowTransmit (fieldHeader r) lt, ?_, ?_, ?_, ?_, ?_, ?_,
    ?_⟩
  · simp only [mapGet, hne, if_false, if_true, Option.bind]
    exact hgr
  · simp only [mapGet, if_true, Option.bind]
    exact hgt
  · rw [hR lr hlr, mapKeys, List.map_fst_zip _ _ (by simp; omega)]
  · rw [hT lt hlt, mapKeys, List.map_fst_zip _ _ (by simp; omega)]
  · rw [hR lr hlr]
    simp
    omega
  · rw [hT lt hlt]
    simp
    omega
  · intro hlast i hi
    have er : rowReceive (fieldHeader r) lr = rowReceive (fieldHeader r) l := by
      have h1 := mapGet_storeRows_last (rowReceive (fieldHeader r)) pre post l [] hlast
      rw [← hb, hgr] at h1
      exact Option.some.inj h1
    have et : rowTransmit (fieldHeader r) lt = rowTransmit (fieldHeader r) l := by
      have h1 := mapGet_storeRows_last (rowTransmit (fieldHeader r)) pre post l [] hlast
      rw [← hb, hgt] at h1
      exact Option.some.inj h1
    rw [er, et]
    constructor
    · rw [hR l hmem, mapGet_zip [] [] _ _ i hnodup hi (by simp; omega)]
      congr 1
      rw [List.getD_eq_getElem _ _ (by simp; omega), List.getD_eq_getElem _ _ (by omega)]
      simp
    · rw [hT l hmem, mapGet_zip [] [] _ _ i hnodup hi (by simp; omega)]
      congr 1
      rw [List.getD_eq_getElem _ _ (by simp; omega), List.getD_eq_getElem _ _ (by omega)]
      simp

/-- C1, an instance: the lines of `exampleInput` are short, its header has the
two distinct field names `bytes` and `packets` and both rows have five
tokens. -/
theorem parseNetStats_row_values_example :
    ShortLines exampleInput ∧
    (Split (headerText exampleInput) 124).length = 3 ∧
    (fieldHeader exampleInput).Nodup ∧
    (∀ l ∈ bodyLines exampleInput,
      (Fields l).length = 2 * (fieldHeader exampleInput).length + 1) ∧
    headerText exampleInput = (inputLines exampleInput).getD 1 [] ∧
    bodyLines exampleInput = (inputLines exampleInput).drop 2 ∧
    ∃ ns, parseNetStats exampleInput = .ok ns ∧
      ∀ pre l post, bodyLines exampleInput = pre ++ l :: post →
        ∃ receive transmit,
          (mapGet ns receiveKey).bind (fun devs => mapGet devs (devName l)) = some receive ∧
          (mapGet ns transmitKey).bind (fun devs => mapGet devs (devName l)) = some transmit ∧
          mapKeys receive = fieldHeader exampleInput ∧
          mapKeys transmit = fieldHeader exampleInput ∧
          receive.length = (fieldHeader exampleInput).length ∧
          transmit.length = (fieldHeader exampleInput).length ∧
          ((∀ l1 ∈ post, devName l1 ≠ devName l) →
            ∀ i, i < (fieldHeader exampleInput).length →
              mapGet receive ((fieldHeader exampleInput).getD i []) =
                some ((Fields l).getD (i + 1) []) ∧
              mapGet transmit ((fieldHeader exampleInput).getD i []) =
                some ((Fields l).getD ((fieldHeader exampleInput).length + 1 + i) [])) :=
  ⟨by decide, by decide, by decide, by decide,
    parseNetStats_row_values exampleInput (by decide) (by decide) (by decide) (by decide)⟩

/-- C1, as stated, fails on two inputs. On `duplicateFieldInput` the receive
segment tokenizes into N = 2 field names (`bytes` twice) and the body line has
2N+1 = 5 tokens, yet the device entry has one receive and one transmit value,
and receive[h_1] is t_2 = "2", not t_1 = "1". On `duplicateDeviceInput` both
body lines have 5 tokens, and the entry of the device of the first line
(tokens `eth0:` 1 2 3 4) has receive[bytes] = "5", not t_1 = "1". -/
theorem parseNetStats_duplicate_names :
    ((Split (headerText duplicateFieldInput) 124).length = 3 ∧
     fieldHeader duplicateFieldInput = [utf8 "bytes", utf8 "bytes"] ∧
     bodyLines duplicateFieldInput = [utf8 "eth0: 1 2 3 4"] ∧
     Fields (utf8 "eth0: 1 2 3 4") = [utf8 "eth0:", utf8 "1", utf8 "2", utf8 "3", utf8 "4"] ∧
     parseNetStats duplicateFieldInput =
       .ok [(transmitKey, [(utf8 "eth0", [(utf8 "bytes", utf8 "4")])]),
            (receiveKey, [(utf8 "eth0", [(utf8 "bytes", utf8 "2")])])]) ∧
    ((Split (headerText duplicateDeviceInput) 124).length = 3 ∧
     fieldHeader duplicateDeviceInput = [utf8 "bytes", utf8 "packets"] ∧
     bodyLines duplicateDeviceInput = [utf8 "eth0: 1 2 3 4", utf8 "eth0: 5 6 7 8"] ∧
     Fields (utf8 "eth0: 1 2 3 4") = [utf8 "eth0:", utf8 "1", utf8 "2", utf8 "3", utf8 "4"] ∧
     Fields (utf8 "eth0: 5 6 7 8") = [utf8 "eth0:", utf8 "5", utf8 "6", utf8 "7", utf8 "8"] ∧
     parseNetStats duplicateDeviceInput =
       .ok [(transmitKey, [(utf8 "eth0", [(utf8 "bytes", utf8 "7"), (utf8 "packets", utf8 "8")])]),
            (receiveKey, [(utf8 "eth0", [(utf8 "bytes", utf8 "5"), (utf8 "packets", utf8 "6")])])]) := by
  decide

/-- C2, as stated, fails on two inputs. On `twoShortRowsInput` the header has
three segments and N = 2 field names, and the body line `lo: 7` has two tokens,
not five, yet the message of the error is that of the earlier line `eth0: 1 2`
and does not contain the text `lo: 7`. On `longRowInput` the header is the
same and the body line of `MaxScanTokenSize` spaces has no token, yet
`parseNetStats` returns the statistics of the row before it and no error. -/
theorem parseNetStats_first_malformed_only :
    ((Split (headerText twoShortRowsInput) 124).length = 3 ∧
     fieldHeader twoShortRowsInput = [utf8 "bytes", utf8 "packets"] ∧
     inputLines twoShortRowsInput =
       [utf8 "Inter-| Receive | Transmit", utf8 " face |bytes packets|bytes packets",
        utf8 "eth0: 1 2", utf8 "lo: 7"] ∧
     Fields (utf8 "lo: 7") = [utf8 "lo:", utf8 "7"] ∧
     parseNetStats twoShortRowsInput =
       .err (utf8 "Invalid line in /proc/net/dev: eth0: 1 2") ∧
     ¬ (utf8 "lo: 7" <:+: utf8 "Invalid line in /proc/net/dev: eth0: 1 2")) ∧
    (inputLines longRowInput =
       [utf8 "Inter-| Receive | Transmit", utf8 " face |bytes packets|bytes packets",
        utf8 "  eth0: 100 1 200 2", longLine, utf8 "    lo: 7 8 9 10"] ∧
     Fields longLine = [] ∧
     parseNetStats longRowInput =
       .ok [(transmitKey, [(utf8 "eth0", [(utf8 "bytes", utf8 "200"), (utf8 "packets", utf8 "2")])]),
            (receiveKey, [(utf8 "eth0", [(utf8 "bytes", utf8 "100"), (utf8 "packets", utf8 "1")])])]) := by
  have h10 : (10 : Nat) ∉ longLine := not_mem_longLine 10 (by decide)
  have h13 : (13 : Nat) ∉ longLine := not_mem_longLine 13 (by decide)
  have hraw : rawLines longRowInput =
      rawLines (exampleHead ++ exampleRowEth0) ++ longLine :: rawLines exampleRowLo := by
    rw [longRowInput, rawLines_append _ _ (by decide), List.append_assoc, List.singleton_append,
      rawLines_line _ _ h10]
  have hscan : ScanLines longRowInput =
      some (utf8 "Inter-| Receive | Transmit") ::
        some (utf8 " face |bytes packets|bytes packets") ::
          [some (utf8 "  eth0: 100 1 200 2"), none, some longLine] := by
    rw [ScanLines, hraw, scanResults_append_short _ _ (by decide),
      scanResults_long _ _ (by rw [longLine_length]),
      List.take_of_length_le (by rw [longLine_length]), dropCR_of_not_mem _ h13]
    have e : (rawLines (exampleHead ++ exampleRowEth0)).map dropCR =
        [utf8 "Inter-| Receive | Transmit", utf8 " face |bytes packets|bytes packets",
         utf8 "  eth0: 100 1 200 2"] := by decide
    rw [e]
    rfl
  obtain ⟨hh, hb⟩ := scanned_twice _ _ _ _ hscan
  refine ⟨by decide, ?_, ?_, ?_⟩
  · rw [inputLines, hraw, List.map_append, List.map_cons, dropCR_of_not_mem _ h13]
    have e1 : (rawLines (exampleHead ++ exampleRowEth0)).map dropCR =
        [utf8 "Inter-| Receive | Transmit", utf8 " face |bytes packets|bytes packets",
         utf8 "  eth0: 100 1 200 2"] := by decide
    have e2 : (rawLines exampleRowLo).map dropCR = [utf8 "    lo: 7 8 9 10"] := by decide
    rw [e1, e2]
    rfl
  · have e := Fields_spaces MaxScanTokenSize []
    rw [List.append_nil] at e
    rw [longLine, e]
    decide
  · rw [parseNetStats_congr longRowInput (exampleHead ++ exampleRowEth0)
      (by rw [hh]; decide) (by rw [hb]; decide)]
    decide

/-- C2, as amended: when every line of the input is shorter than the buffer of
the scanner (so that the header text is the second line and the body lines are
the lines after it), the second line has three segments and some body line has
a token count other than 2N+1, `parseNetStats` returns an error and no
statistics; the message is "Invalid line in /proc/net/dev: " followed by the
text of the first such line. -/
theorem parseNetStats_malformed_row (r : GoString)
    (hshort : ShortLines r)
    (hseg : (Split (headerText r) 124).length = 3)
    (hbad : ∃ l ∈ bodyLines r, (Fields l).length ≠ 2 * (fieldHeader r).length + 1) :
    headerText r = (inputLines r).getD 1 [] ∧ bodyLines r = (inputLines r).drop 2 ∧
    ∃ pre l post, bodyLines r = pre ++ l :: post ∧
      (∀ l1 ∈ pre, (Fields l1).length = 2 * (fieldHeader r).length + 1) ∧
      (Fields l).length ≠ 2 * (fieldHeader r).length + 1 ∧
      parseNetStats r = .err (utf8 "Invalid line in /proc/net/dev: " ++ l) := by
  obtain ⟨l0, hl0, hb0⟩ := hbad
  have hsome : ((bodyLines r).find? (badRow (fieldHeader r))).isSome := by
    rw [List.find?_isSome]
    exact ⟨l0, hl0, by simp [badRow, hb0]⟩
  obtain ⟨l, hl⟩ := Option.isSome_iff_exists.mp hsome
  obtain ⟨hbl, pre, post, hsplit, hpre⟩ := List.find?_eq_some.mp hl
  refine ⟨headerText_eq r hshort, bodyLines_eq r hshort, pre, l, post, hsplit, ?_, ?_, ?_⟩
  · intro l1 hl1
    have := hpre l1 hl1
    simpa [badRow] using this
  · simpa [badRow] using hbl
  · rw [parseNetStats_eq, if_neg (by simp [hseg]), hl]
    simp only [invalidLine_eq]

/-- C2, an instance: the first row of `shortRowInput` is well formed, the
second has three tokens where five are expected. -/
theorem parseNetStats_malformed_row_example :
    ShortLines shortRowInput ∧
    (Split (headerText shortRowInput) 124).length = 3 ∧
    (∃ l ∈ bodyLines shortRowInput,
      (Fields l).length ≠ 2 * (fieldHeader shortRowInput).length + 1) ∧
    headerText shortRowInput = (inputLines shortRowInput).getD 1 [] ∧
    bodyLines shortRowInput = (inputLines shortRowInput).drop 2 ∧
    ∃ pre l post, bodyLines shortRowInput = pre ++ l :: post ∧
      (∀ l1 ∈ pre, (Fields l1).length = 2 * (fieldHeader shortRowInput).length + 1) ∧
      (Fields l).length ≠ 2 * (fieldHeader shortRowInput).length + 1 ∧
      parseNetStats shortRowInput = .err (utf8 "Invalid line in /proc/net/dev: " ++ l) :=
  ⟨by decide, by decide, by decide,
    parseNetStats_malformed_row shortRowInput (by decide) (by decide) (by decide)⟩

/-- C3, as stated, fails on `longFirstLineInput`: the second line of the input
is `no bars here`, which holds no bar and splits into one segment, yet
`parseNetStats` returns statistics (without any device) and no error. The first
line is two bars followed by `MaxScanTokenSize` spaces: the first call of
`Scan` fails on it, and the second call delivers the buffer, with the two bars,
as the header text. -/
theorem parseNetStats_long_first_line :
    inputLines longFirstLineInput = [utf8 "||" ++ longLine, utf8 "no bars here"] ∧
    (utf8 "no bars here").count 124 = 0 ∧
    (Split (utf8 "no bars here") 124).length = 1 ∧
    parseNetStats longFirstLineInput = .ok [(transmitKey, []), (receiveKey, [])] := by
  have h10 : (10 : Nat) ∉ utf8 "||" ++ longLine := by
    rw [List.mem_append, not_or]
    exact ⟨by decide, not_mem_longLine 10 (by decide)⟩
  have h13 : (13 : Nat) ∉ utf8 "||" ++ longLine := by
    rw [List.mem_append, not_or]
    exact ⟨by decide, not_mem_longLine 13 (by decide)⟩
  have e0 : utf8 "\nno bars here\n" = 10 :: utf8 "no bars here\n" := by decide
  have hraw : rawLines longFirstLineInput =
      (utf8 "||" ++ longLine) :: rawLines (utf8 "no bars here\n") := by
    rw [longFirstLineInput, e0, rawLines_line _ _ h10]
  have h2 : 2 ≤ MaxScanTokenSize := by decide
  have htake : (utf8 "||" ++ longLine).take MaxScanTokenSize =
      124 :: 124 :: List.replicate (MaxScanTokenSize - 2) 32 := by
    have e1 : utf8 "||" = [124, 124] := by decide
    rw [e1, longLine, List.take_append_eq_append_take, List.take_of_length_le (by simpa using h2),
      List.take_replicate]
    simp
  have h13b : (13 : Nat) ∉ 124 :: 124 :: List.replicate (MaxScanTokenSize - 2) 32 := by
    intro e
    rcases List.mem_cons.mp e with e | e
    · exact absurd e (by decide)
    · rcases List.mem_cons.mp e with e | e
      · exact absurd e (by decide)
      · exact absurd (List.eq_of_mem_replicate e) (by decide)
  have hscan : ScanLines longFirstLineInput =
      none :: some (124 :: 124 :: List.replicate (MaxScanTokenSize - 2) 32) :: [] := by
    rw [ScanLines, hraw, scanResults_long _ _ (by simp [longLine_length]), htake,
      dropCR_of_not_mem _ h13b]
  obtain ⟨hh, hb⟩ := scanned_twice _ _ _ _ hscan
  have hsplit : Split (headerText longFirstLineInput) 124 =
      [[], [], List.replicate (MaxScanTokenSize - 2) 32] := by
    rw [hh]
    simp only [Option.getD_some]
    rw [Split, if_pos rfl, Split, if_pos rfl,
      Split_of_not_mem _ _ fun e => absurd (List.eq_of_mem_replicate e) (by decide)]
  refine ⟨?_, by decide, by decide, ?_⟩
  · rw [inputLines, hraw, List.map_cons, dropCR_of_not_mem _ h13]
    have e2 : (rawLines (utf8 "no bars here\n")).map dropCR = [utf8 "no bars here"] := by decide
    rw [e2]
  · rw [parseNetStats_eq, fieldHeader, hsplit, hb]
    simp [delivered, storeRows, Fields_nil]

/-- C3, as amended: when the first two lines of the input are shorter than the
buffer of the scanner and the second line (the empty string when the input has
fewer than two lines) does not split on the bar into exactly three segments,
which is to say it does not hold exactly two bars, `parseNetStats` returns the
error "Invalid header line in /proc/net/dev: " followed by that line and no
statistics, whatever the body lines are. -/
theorem parseNetStats_bad_header (r : GoString)
    (hshort : ∀ l ∈ (rawLines r).take 2, l.length < MaxScanTokenSize)
    (h : (Split ((inputLines r).getD 1 []) 124).length ≠ 3) :
    (Split ((inputLines r).getD 1 []) 124).length = ((inputLines r).getD 1 []).count 124 + 1 ∧
    ((inputLines r).getD 1 []).count 124 ≠ 2 ∧
    parseNetStats r =
      .err (utf8 "Invalid header line in /proc/net/dev: " ++ (inputLines r).getD 1 []) := by
  refine ⟨Split_length _ _, ?_, ?_⟩
  · intro hc
    rw [Split_length, hc] at h
    exact h rfl
  · rw [← headerText_of_short_head r hshort] at h ⊢
    rw [parseNetStats_eq, if_pos h, invalidHeader_eq]

/-- C3, the empty source: it has no line, its second line is the empty string,
which has one segment, and `parseNetStats` fails on it. -/
theorem parseNetStats_empty_source :
    (∀ l ∈ (rawLines []).take 2, l.length < MaxScanTokenSize) ∧
    (Split ((inputLines []).getD 1 []) 124).length ≠ 3 ∧
    parseNetStats [] = .err (utf8 "Invalid header line in /proc/net/dev: ") :=
  ⟨by decide, by decide,
    by simpa using (parseNetStats_bad_header [] (by decide) (by decide)).2.2⟩

theorem mapGet_of_mem {K V : Type} [DecidableEq K] (m : GoMap K V) (k : K) (v : V)
    (hn : (mapKeys m).Nodup) (h : (k, v) ∈ m) : mapGet m k = some v := by
  induction m with
  | nil => simp at h
  | cons e m ih =>
    obtain ⟨k1, v1⟩ := e
    have hn1 : k1 ∉ mapKeys m ∧ (mapKeys m).Nodup := by
      simpa [mapKeys] using hn
    rcases List.mem_cons.mp h with h1 | h1
    · cases h1
      simp [mapGet]
    · have hk : k ∈ mapKeys m := List.mem_map.mpr ⟨(k, v), h1, rfl⟩
      have hne : ¬ k1 = k := fun c => hn1.1 (c ▸ hk)
      simp [mapGet, hne, ih hn1.2 h1]

theorem parseNetStats_ok (r : GoString) (ns : NetStats) (hok : parseNetStats r = .ok ns) :
    (Split (headerText r) 124).length = 3 ∧
    (∀ l ∈ bodyLines r, (Fields l).length = 2 * (fieldHeader r).length + 1) ∧
    ns = [(transmitKey, storeRows (rowTransmit (fieldHeader r)) (bodyLines r) []),
          (receiveKey, storeRows (rowReceive (fieldHeader r)) (bodyLines r) [])] := by
  rw [parseNetStats_eq] at hok
  by_cases hseg : (Split (headerText r) 124).length = 3
  · rw [if_neg (by simp [hseg])] at hok
    cases hf : (bodyLines r).find? (badRow (fieldHeader r)) with
    | some l => simp [hf] at hok
    | none =>
      rw [hf] at hok
      refine ⟨hseg, ?_, ?_⟩
      · intro l hl
        have := List.find?_eq_none.mp hf l hl
        simpa [badRow] using this
      · simp only [Result.ok.injEq] at hok
        exact hok.symm
  · rw [if_pos hseg] at hok
    cases hok

/-- C4, as stated, fails on `duplicateDeviceInput`: the input is accepted, its
first body line has the first token `eth0:` and the values 1 2 and 3 4, and the
result holds under `eth0` the values 5 6 and 7 8 of the second body line, in
both mappings. -/
theorem parseNetStats_overwrites_device :
    inputLines duplicateDeviceInput =
      [utf8 "Inter-| Receive | Transmit", utf8 " face |bytes packets|bytes packets",
       utf8 "eth0: 1 2 3 4", utf8 "eth0: 5 6 7 8"] ∧
    fieldHeader duplicateDeviceInput = [utf8 "bytes", utf8 "packets"] ∧
    Fields (utf8 "eth0: 1 2 3 4") =
      (utf8 "eth0" ++ [58]) :: [utf8 "1", utf8 "2", utf8 "3", utf8 "4"] ∧
    ∃ ns, parseNetStats duplicateDeviceInput = .ok ns ∧
      (mapGet ns receiveKey).bind (fun devs => mapGet devs (utf8 "eth0")) =
        some [(utf8 "bytes", utf8 "5"), (utf8 "packets", utf8 "6")] ∧
      (mapGet ns transmitKey).bind (fun devs => mapGet devs (utf8 "eth0")) =
        some [(utf8 "bytes", utf8 "7"), (utf8 "packets", utf8 "8")] :=
  ⟨by decide, by decide, by decide,
    [(transmitKey, [(utf8 "eth0", [(utf8 "bytes", utf8 "7"), (utf8 "packets", utf8 "8")])]),
     (receiveKey, [(utf8 "eth0", [(utf8 "bytes", utf8 "5"), (utf8 "packets", utf8 "6")])])],
    by decide, by decide, by decide⟩

/-- C4, as amended: on an input `parseNetStats` accepts whose lines are all
shorter than the buffer of the scanner (so that the body lines are the lines
after the second), for a body line whose first token is `d` followed by a
colon, `dev` is `d`; the maps `parseNetDevLine` returns for the line are stored
under `d` in both directions when the loop has read the line, `d` is a device
of both directions in the result, and the result holds these maps under `d`
unless a later line has the same device name. -/
theorem parseNetStats_device_name (r : GoString) (ns : NetStats)
    (hshort : ShortLines r)
    (hok : parseNetStats r = .ok ns)
    (pre : List GoString) (l : GoString) (post : List GoString)
    (hb : bodyLines r = pre ++ l :: post)
    (d : GoString) (rest : List GoString) (htok : Fields l = (d ++ [58]) :: rest) :
    bodyLines r = (inputLines r).drop 2 ∧
    devName l = d ∧
    ∃ receive transmit,
      parseNetDevLine (((Fields l).take ((fieldHeader r).length + 1)).drop 1) (fieldHeader r) =
        .ok receive ∧
      parseNetDevLine ((Fields l).drop ((fieldHeader r).length + 1)) (fieldHeader r) =
        .ok transmit ∧
      (∃ ns1, parseNetStatsLoop (fieldHeader r) ((pre ++ [l]).map some) emptyNetStats =
          .ok ns1 ∧
        (mapGet ns1 receiveKey).bind (fun devs => mapGet devs d) = some receive ∧
        (mapGet ns1 transmitKey).bind (fun devs => mapGet devs d) = some transmit) ∧
      (∃ R T, mapGet ns receiveKey = some R ∧ mapGet ns transmitKey = some T ∧
        d ∈ mapKeys R ∧ d ∈ mapKeys T) ∧
      ((∀ l1 ∈ post, devName l1 ≠ d) →
        (mapGet ns receiveKey).bind (fun devs => mapGet devs d) = some receive ∧
        (mapGet ns transmitKey).bind (fun devs => mapGet devs d) = some transmit) := by
  have hne := transmitKey_ne_receiveKey
  obtain ⟨-, hrows, hns⟩ := parseNetStats_ok r ns hok
  have hd : devName l = d := by simp [devName, htok]
  have hl : (Fields l).length = 2 * (fieldHeader r).length + 1 :=
    hrows l (by rw [hb]; simp)
  have hfind : (pre ++ [l]).find? (badRow (fieldHeader r)) = none := by
    rw [List.find?_eq_none]
    intro l1 hl1
    have : l1 ∈ bodyLines r := by
      rw [hb]
      rcases List.mem_append.mp hl1 with h | h
      · exact List.mem_append_left _ h
      · exact List.mem_append_right _ (by simp at h; simp [h])
    simp [badRow, hrows l1 this]
  refine ⟨bodyLines_eq r hshort, hd, rowReceive (fieldHeader r) l,
    rowTransmit (fieldHeader r) l, ?_, ?_, ?_, ?_, ?_⟩
  · exact parseNetDevLine_eq _ _ (by simp)
  · rw [parseNetDevLine_eq _ _ (by simp; omega), rowTransmit, List.take_length]
  · refine ⟨_, by rw [emptyNetStats_eq, parseNetStatsLoop_eq, delivered_map_some, hfind], ?_,
      ?_⟩
    · simp only [mapGet, hne, if_false, if_true, Option.bind]
      rw [← hd, mapGet_storeRows_last _ pre [] l [] (by simp)]
    · simp only [mapGet, if_true, Option.bind]
      rw [← hd, mapGet_storeRows_last _ pre [] l [] (by simp)]
  · subst hns
    refine ⟨storeRows (rowReceive (fieldHeader r)) (bodyLines r) [],
      storeRows (rowTransmit (fieldHeader r)) (bodyLines r) [],
      by simp [mapGet, hne], by simp [mapGet], ?_, ?_⟩
    · rw [mem_mapKeys_storeRows]
      exact Or.inr ⟨l, by rw [hb]; simp, hd⟩
    · rw [mem_mapKeys_storeRows]
      exact Or.inr ⟨l, by rw [hb]; simp, hd⟩
  · intro hlast
    subst hns
    rw [← hd] at hlast ⊢
    constructor
    · simp only [mapGet, hne, if_false, if_true, Option.bind]
      rw [hb, mapGet_storeRows_last _ _ _ _ _ hlast]
    · simp only [mapGet, if_true, Option.bind]
      rw [hb, mapGet_storeRows_last _ _ _ _ _ hlast]

/-- C4, an instance: the row of `eth0` in `exampleInput`. -/
theorem parseNetStats_device_name_example :
    ShortLines exampleInput ∧
    parseNetStats exampleInput = .ok exampleStats ∧
    bodyLines exampleInput = [] ++ utf8 "  eth0: 100 1 200 2" :: [utf8 "    lo: 7 8 9 10"] ∧
    Fields (utf8 "  eth0: 100 1 200 2") =
      (utf8 "eth0" ++ [58]) :: [utf8 "100", utf8 "1", utf8 "200", utf8 "2"] ∧
    bodyLines exampleInput = (inputLines exampleInput).drop 2 ∧
    devName (utf8 "  eth0: 100 1 200 2") = utf8 "eth0" ∧
    ∃ receive transmit,
      parseNetDevLine (((Fields (utf8 "  eth0: 100 1 200 2")).take
        ((fieldHeader exampleInput).length + 1)).drop 1) (fieldHeader exampleInput) =
        .ok receive ∧
      parseNetDevLine ((Fields (utf8 "  eth0: 100 1 200 2")).drop
        ((fieldHeader exampleInput).length + 1)) (fieldHeader exampleInput) = .ok transmit ∧
      (∃ ns1, parseNetStatsLoop (fieldHeader exampleInput)
          (([] ++ [utf8 "  eth0: 100 1 200 2"]).map some) emptyNetStats = .ok ns1 ∧
        (mapGet ns1 receiveKey).bind (fun devs => mapGet devs (utf8 "eth0")) = some receive ∧
        (mapGet ns1 transmitKey).bind (fun devs => mapGet devs (utf8 "eth0")) =
          some transmit) ∧
      (∃ R T, mapGet exampleStats receiveKey = some R ∧
        mapGet exampleStats transmitKey = some T ∧
        utf8 "eth0" ∈ mapKeys R ∧ utf8 "eth0" ∈ mapKeys T) ∧
      ((∀ l1 ∈ [utf8 "    lo: 7 8 9 10"], devName l1 ≠ utf8 "eth0") →
        (mapGet exampleStats receiveKey).bind (fun devs => mapGet devs (utf8 "eth0")) =
          some receive ∧
        (mapGet exampleStats transmitKey).bind (fun devs => mapGet devs (utf8 "eth0")) =
          some transmit) :=
  ⟨by decide, by decide, by decide, by decide,
    parseNetStats_device_name exampleInput exampleStats (by decide) (by decide) []
      (utf8 "  eth0: 100 1 200 2") [utf8 "    lo: 7 8 9 10"] (by decide) (utf8 "eth0")
      [utf8 "100", utf8 "1", utf8 "200", utf8 "2"] (by decide)⟩

/-- C5: when `parseNetStats` succeeds, the result has the two directions
"receive" and "transmit" and no other, both directions have the same device
names, and the field names of every device entry of either direction are
exactly the names of the header. -/
theorem parseNetStats_complete_records (r : GoString) (ns : NetStats)
    (hok : parseNetStats r = .ok ns) :
    (mapKeys ns).Perm [receiveKey, transmitKey] ∧
    ∃ R T, mapGet ns receiveKey = some R ∧ mapGet ns transmitKey = some T ∧
      (∀ dev, dev ∈ mapKeys R ↔ dev ∈ mapKeys T) ∧
      ∀ dev stats, (dev, stats) ∈ R ∨ (dev, stats) ∈ T →
        ∀ f, f ∈ mapKeys stats ↔ f ∈ fieldHeader r := by
  have hne := transmitKey_ne_receiveKey
  obtain ⟨-, hrows, hns⟩ := parseNetStats_ok r ns hok
  subst hns
  refine ⟨by simpa [mapKeys] using List.Perm.swap receiveKey transmitKey [],
    storeRows (rowReceive (fieldHeader r)) (bodyLines r) [],
    storeRows (rowTransmit (fieldHeader r)) (bodyLines r) [],
    by simp [mapGet, hne], by simp [mapGet], ?_, ?_⟩
  · intro dev
    rw [mem_mapKeys_storeRows, mem_mapKeys_storeRows]
  · intro dev stats hmem f
    have key : ∃ l ∈ bodyLines r,
        stats = rowReceive (fieldHeader r) l ∨ stats = rowTransmit (fieldHeader r) l := by
      rcases hmem with h | h
      · have hg := mapGet_of_mem _ dev stats
          (nodup_mapKeys_storeRows _ (bodyLines r) [] (by simp [mapKeys])) h
        rcases mapGet_storeRows_some _ dev stats _ [] hg with h1 | ⟨l, hl, -, hs⟩
        · simp [mapGet] at h1
        · exact ⟨l, hl, Or.inl hs⟩
      · have hg := mapGet_of_mem _ dev stats
          (nodup_mapKeys_storeRows _ (bodyLines r) [] (by simp [mapKeys])) h
        rcases mapGet_storeRows_some _ dev stats _ [] hg with h1 | ⟨l, hl, -, hs⟩
        · simp [mapGet] at h1
        · exact ⟨l, hl, Or.inr hs⟩
    obtain ⟨l, hl, hs⟩ := key
    have hlen := hrows l hl
    rcases hs with hs | hs
    · rw [hs]
      exact mem_mapKeys_zipStats _ _ (by simp; omega) f
    · rw [hs]
      exact mem_mapKeys_zipStats _ _ (by simp; omega) f

/-- C5, an instance: the statistics of `exampleInput`. -/
theorem parseNetStats_complete_records_example :
    parseNetStats exampleInput = .ok exampleStats ∧
    (mapKeys exampleStats).Perm [receiveKey, transmitKey] ∧
    ∃ R T, mapGet exampleStats receiveKey = some R ∧ mapGet exampleStats transmitKey = some T ∧
      (∀ dev, dev ∈ mapKeys R ↔ dev ∈ mapKeys T) ∧
      ∀ dev stats, (dev, stats) ∈ R ∨ (dev, stats) ∈ T →
        ∀ f, f ∈ mapKeys stats ↔ f ∈ fieldHeader exampleInput :=
  ⟨by decide, parseNetStats_complete_records exampleInput exampleStats (by decide)⟩

/-- C6, as amended: an empty body line is parsed as a row like any other. When
`parseNetStats` accepts an input, the input with an empty line inserted after a
line at or below the header (before, between or after the device rows), every
line before the inserted one being shorter than the buffer of the scanner, is
rejected with the error "Invalid line in /proc/net/dev: " (the empty text
following). -/
theorem parseNetStats_empty_line (a b : GoString) (ns : NetStats)
    (hshort : ShortLines (a ++ [10]))
    (hhdr : 2 ≤ (rawLines (a ++ [10])).length)
    (hok : parseNetStats (a ++ [10] ++ b) = .ok ns) :
    parseNetStats (a ++ [10] ++ [10] ++ b) = .err (utf8 "Invalid line in /proc/net/dev: ") := by
  obtain ⟨hseg, hrows, -⟩ := parseNetStats_ok _ ns hok
  obtain ⟨l1, l2, A, hA⟩ : ∃ l1 l2 A, rawLines (a ++ [10]) = l1 :: l2 :: A := by
    rcases h : rawLines (a ++ [10]) with _ | ⟨l1, _ | ⟨l2, A⟩⟩
    · simp [h] at hhdr
    · simp [h] at hhdr
    · exact ⟨l1, l2, A, rfl⟩
  have hs : ∀ l ∈ l1 :: l2 :: A, l.length < MaxScanTokenSize := by
    rw [← hA]
    exact hshort
  have hold : ScanLines (a ++ [10] ++ b) =
      some (dropCR l1) :: some (dropCR l2) ::
        ((A.map dropCR).map some ++ scanResults (rawLines b)) := by
    have e : a ++ [10] ++ b = a ++ 10 :: b := by simp
    rw [e, ScanLines, rawLines_append_newline, hA, scanResults_append_short _ _ hs]
    rfl
  have hnew : ScanLines (a ++ [10] ++ [10] ++ b) =
      some (dropCR l1) :: some (dropCR l2) ::
        ((A.map dropCR).map some ++ some [] :: scanResults (rawLines b)) := by
    have e : a ++ [10] ++ [10] ++ b = a ++ 10 :: (10 :: b) := by simp
    have e2 : rawLines (10 :: b) = [] :: rawLines b := by simp [rawLines]
    have e3 : scanResults ([] :: rawLines b) = some [] :: scanResults (rawLines b) := by
      rw [scanResults]
      simp [MaxScanTokenSize, dropCR]
    rw [e, ScanLines, rawLines_append_newline, hA, e2, scanResults_append_short _ _ hs, e3]
    rfl
  obtain ⟨hh1, hb1⟩ := scanned_twice _ _ _ _ hold
  obtain ⟨hh2, hb2⟩ := scanned_twice _ _ _ _ hnew
  rw [delivered_append_some] at hb1 hb2
  have hh : headerText (a ++ [10] ++ [10] ++ b) = headerText (a ++ [10] ++ b) := by
    rw [hh1, hh2]
  have hf : fieldHeader (a ++ [10] ++ [10] ++ b) = fieldHeader (a ++ [10] ++ b) := by
    rw [fieldHeader, fieldHeader, hh]
  have hd : delivered (some [] :: scanResults (rawLines b)) =
      [] :: delivered (scanResults (rawLines b)) := rfl
  rw [hd] at hb2
  have hfind : (A.map dropCR ++ [] :: delivered (scanResults (rawLines b))).find?
      (badRow (fieldHeader (a ++ [10] ++ b))) = some [] := by
    rw [List.find?_eq_some]
    refine ⟨by simp [badRow, Fields_nil], A.map dropCR, delivered (scanResults (rawLines b)),
      rfl, ?_⟩
    intro l hl
    have := hrows l (by rw [hb1]; exact List.mem_append_left _ hl)
    simp [badRow, this]
  rw [parseNetStats_eq, hh, hf, hb2, if_neg (not_not.mpr hseg), hfind]
  have e0 : invalidLine [] = utf8 "Invalid line in /proc/net/dev: " := by decide
  simp only [e0]

/-- C6, an instance: an empty line between the two rows of `exampleInput`. -/
theorem parseNetStats_empty_line_example :
    ShortLines (exampleHead ++ utf8 "  eth0: 100 1 200 2" ++ [10]) ∧
    2 ≤ (rawLines (exampleHead ++ utf8 "  eth0: 100 1 200 2" ++ [10])).length ∧
    parseNetStats (exampleHead ++ utf8 "  eth0: 100 1 200 2" ++ [10] ++ exampleRowLo) =
      .ok exampleStats ∧
    parseNetStats (exampleHead ++ utf8 "  eth0: 100 1 200 2" ++ [10] ++ [10] ++ exampleRowLo) =
      .err (utf8 "Invalid line in /proc/net/dev: ") :=
  ⟨by decide, by decide, by decide,
    parseNetStats_empty_line (exampleHead ++ utf8 "  eth0: 100 1 200 2") exampleRowLo
      exampleStats (by decide) (by decide) (by decide)⟩

/-- C6, as stated, fails on `exampleInput`: the input is accepted, and with an
empty line inserted before, between or after its rows it is rejected. -/
theorem parseNetStats_rejects_empty_line :
    parseNetStats (exampleHead ++ exampleRowEth0 ++ exampleRowLo) = .ok exampleStats ∧
    parseNetStats (exampleHead ++ utf8 "\n" ++ exampleRowEth0 ++ exampleRowLo) =
      .err (utf8 "Invalid line in /proc/net/dev: ") ∧
    parseNetStats (exampleHead ++ exampleRowEth0 ++ utf8 "\n" ++ exampleRowLo) =
      .err (utf8 "Invalid line in /proc/net/dev: ") ∧
    parseNetStats (exampleHead ++ exampleRowEth0 ++ exampleRowLo ++ utf8 "\n") =
      .err (utf8 "Invalid line in /proc/net/dev: ") := by
  decide

/-! ## Lemmas on the loops of Update -/

section UpdateLemmas

variable {F : Type} (parseFloat : GoString → F × Option GoString) (Namespace : GoString)

theorem updateLoop_cons (q : Quad) (rest : List Quad) (c : Cache F) :
    updateLoop parseFloat Namespace (q :: rest) c =
      match (parseFloat q.value).2 with
      | some e => (ensureGauge Namespace q c, .err (invalidValue q.value e))
      | none =>
        match mapGet (ensureGauge Namespace q c) (metricKey q.direction q.t) with
        | none => (ensureGauge Namespace q c, .panic)
        | some g =>
          match g.Set q.dev (parseFloat q.value).1 with
          | none => (ensureGauge Namespace q c, .panic)
          | some g1 =>
            updateLoop parseFloat Namespace rest
              (mapSet (ensureGauge Namespace q c) (metricKey q.direction q.t) g1) := by
  rfl

theorem Set_of_valid (g : GaugeVec F) (lv : GoString) (v : F) (h : ValidString lv = true) :
    g.Set lv v = some (g.setValue lv v) := by
  simp [GaugeVec.Set, h]

theorem Set_of_invalid (g : GaugeVec F) (lv : GoString) (v : F) (h : ValidString lv = false) :
    g.Set lv v = none := by
  simp [GaugeVec.Set, h]

theorem mapGet_ensureGauge_ne (q : Quad) (c : Cache F) (k : GoString)
    (h : k ≠ metricKey q.direction q.t) :
    mapGet (ensureGauge Namespace q c) k = mapGet c k := by
  unfold ensureGauge
  cases hg : mapGet c (metricKey q.direction q.t) with
  | some g => rfl
  | none => exact mapGet_mapSet_ne c _ h

theorem mapGet_ensureGauge_self (q : Quad) (c : Cache F) :
    ∃ g, mapGet (ensureGauge Namespace q c) (metricKey q.direction q.t) = some g ∧
      ∀ d, mapGet g.children d = gaugeValue c (metricKey q.direction q.t) d := by
  unfold ensureGauge
  cases hg : mapGet c (metricKey q.direction q.t) with
  | some g => exact ⟨g, hg, fun d => by simp [gaugeValue, hg]⟩
  | none =>
    exact ⟨_, mapGet_mapSet_self c _ _, fun d => by simp [gaugeValue, hg, NewGaugeVec, mapGet]⟩

theorem updateLoop_err (q : Quad) (rest : List Quad) (c : Cache F) (e : GoString)
    (hp : (parseFloat q.value).2 = some e) :
    updateLoop parseFloat Namespace (q :: rest) c =
      (ensureGauge Namespace q c, .err (invalidValue q.value e)) := by
  rw [updateLoop_cons, hp]

theorem updateLoop_panic (q : Quad) (rest : List Quad) (c : Cache F)
    (hp : (parseFloat q.value).2 = none) (hv : ValidString q.dev = false) :
    updateLoop parseFloat Namespace (q :: rest) c = (ensureGauge Namespace q c, .panic) := by
  obtain ⟨g, hg, -⟩ := mapGet_ensureGauge_self Namespace q c
  rw [updateLoop_cons, hp]
  simp only [hg, Set_of_invalid _ _ _ hv]

theorem updateLoop_step (q : Quad) (rest : List Quad) (c : Cache F)
    (hp : (parseFloat q.value).2 = none) (hv : ValidString q.dev = true) :
    ∃ g, mapGet (ensureGauge Namespace q c) (metricKey q.direction q.t) = some g ∧
      (∀ d, mapGet g.children d = gaugeValue c (metricKey q.direction q.t) d) ∧
      updateLoop parseFloat Namespace (q :: rest) c =
        updateLoop parseFloat Namespace rest
          (mapSet (ensureGauge Namespace q c) (metricKey q.direction q.t)
            (g.setValue q.dev (parseFloat q.value).1)) := by
  obtain ⟨g, hg, hc⟩ := mapGet_ensureGauge_self Namespace q c
  refine ⟨g, hg, hc, ?_⟩
  rw [updateLoop_cons, hp]
  simp only [hg, Set_of_valid _ _ _ hv]

theorem updateLoop_cases (q : Quad) (rest : List Quad) (c : Cache F) :
    (∃ e, (parseFloat q.value).2 = some e ∧
      updateLoop parseFloat Namespace (q :: rest) c =
        (ensureGauge Namespace q c, .err (invalidValue q.value e))) ∨
    ((parseFloat q.value).2 = none ∧ ValidString q.dev = false ∧
      updateLoop parseFloat Namespace (q :: rest) c = (ensureGauge Namespace q c, .panic)) ∨
    ((parseFloat q.value).2 = none ∧ ValidString q.dev = true ∧
      ∃ g, mapGet (ensureGauge Namespace q c) (metricKey q.direction q.t) = some g ∧
        (∀ d, mapGet g.children d = gaugeValue c (metricKey q.direction q.t) d) ∧
        updateLoop parseFloat Namespace (q :: rest) c =
          updateLoop parseFloat Namespace rest
            (mapSet (ensureGauge Namespace q c) (metricKey q.direction q.t)
              (g.setValue q.dev (parseFloat q.value).1))) := by
  cases hp : (parseFloat q.value).2 with
  | some e => exact Or.inl ⟨e, rfl, updateLoop_err parseFloat Namespace q rest c e hp⟩
  | none =>
    cases hv : ValidString q.dev with
    | false => exact Or.inr (Or.inl ⟨rfl, rfl, updateLoop_panic parseFloat Namespace q rest c hp hv⟩)
    | true => exact Or.inr (Or.inr ⟨rfl, rfl, updateLoop_step parseFloat Namespace q rest c hp hv⟩)

theorem gaugeValue_ensureGauge (q : Quad) (c : Cache F) (k d : GoString) :
    gaugeValue (ensureGauge Namespace q c) k d = gaugeValue c k d := by
  by_cases hk : k = metricKey q.direction q.t
  · subst hk
    obtain ⟨g, hg, hc⟩ := mapGet_ensureGauge_self Namespace q c
    rw [← hc d]
    simp [gaugeValue, hg]
  · simp [gaugeValue, mapGet_ensureGauge_ne Namespace q c k hk]

theorem gaugeValue_set (c : Cache F) (key dev : GoString) (g : GaugeVec F) (v : F)
    (hg : mapGet c key = some g) (k d : GoString) :
    gaugeValue (mapSet c key (g.setValue dev v)) k d =
      if k = key ∧ d = dev then some v else gaugeValue c k d := by
  by_cases hk : k = key
  · subst hk
    by_cases hd : d = dev
    · subst hd
      simp [gaugeValue, mapGet_mapSet_self, GaugeVec.setValue]
    · simp [gaugeValue, mapGet_mapSet_self, GaugeVec.setValue, hd, mapGet_mapSet_ne _ _ hd, hg]
  · simp [gaugeValue, hk, mapGet_mapSet_ne _ _ hk]

theorem gaugeValue_updateLoop_frame (visits : List Quad) :
    ∀ (c : Cache F) (k d : GoString), (k, d) ∉ visits.map cellOf →
      gaugeValue (updateLoop parseFloat Namespace visits c).1 k d = gaugeValue c k d := by
  induction visits with
  | nil => intro c k d _; rfl
  | cons q rest ih =>
    intro c k d h
    have hq : ¬ (k = metricKey q.direction q.t ∧ d = q.dev) := by
      rintro ⟨h1, h2⟩
      exact h (by simp [cellOf, h1, h2])
    have hrest : (k, d) ∉ rest.map cellOf := fun hm => h (by simp at hm ⊢; exact Or.inr hm)
    rcases updateLoop_cases parseFloat Namespace q rest c with
      ⟨e, -, he⟩ | ⟨-, -, he⟩ | ⟨-, -, g, hg, -, he⟩
    · rw [he]
      exact gaugeValue_ensureGauge Namespace q c k d
    · rw [he]
      exact gaugeValue_ensureGauge Namespace q c k d
    · rw [he, ih _ k d hrest, gaugeValue_set _ _ _ _ _ hg, if_neg hq, gaugeValue_ensureGauge]

theorem updateLoop_valid (visits : List Quad) :
    ∀ c : Cache F,
      (∀ q ∈ visits, (parseFloat q.value).2 = none ∧ ValidString q.dev = true) →
      (updateLoop parseFloat Namespace visits c).2 = .ok () := by
  induction visits with
  | nil => intro c _; rfl
  | cons q rest ih =>
    intro c h
    obtain ⟨hp, hv⟩ := h q (by simp)
    obtain ⟨g, -, -, he⟩ := updateLoop_step parseFloat Namespace q rest c hp hv
    rw [he]
    exact ih _ fun q1 h1 => h q1 (by simp [h1])

theorem gaugeValue_updateLoop_visited (visits : List Quad) :
    ∀ c : Cache F,
      (∀ q ∈ visits, (parseFloat q.value).2 = none ∧ ValidString q.dev = true) →
      (visits.map cellOf).Nodup →
      ∀ q ∈ visits,
        gaugeValue (updateLoop parseFloat Namespace visits c).1 (metricKey q.direction q.t)
          q.dev = some (parseFloat q.value).1 := by
  induction visits with
  | nil => intro c _ _ q hq; simp at hq
  | cons q0 rest ih =>
    intro c h hn q hq
    have hn1 : cellOf q0 ∉ rest.map cellOf ∧ (rest.map cellOf).Nodup := by
      simpa using hn
    obtain ⟨hp, hv⟩ := h q0 (by simp)
    obtain ⟨g, hg, -, he⟩ := updateLoop_step parseFloat Namespace q0 rest c hp hv
    rw [he]
    rcases List.mem_cons.mp hq with h1 | h1
    · subst h1
      rw [gaugeValue_updateLoop_frame parseFloat Namespace rest _ _ _ hn1.1,
        gaugeValue_set _ _ _ _ _ hg, if_pos ⟨rfl, rfl⟩]
    · exact ih _ (fun q1 hq1 => h q1 (by simp [hq1])) hn1.2 q h1

theorem gaugeValue_updateLoop_isSome (visits : List Quad) :
    ∀ (c : Cache F) (k d : GoString), (gaugeValue c k d).isSome →
      (gaugeValue (updateLoop parseFloat Namespace visits c).1 k d).isSome := by
  induction visits with
  | nil => intro c k d h; exact h
  | cons q rest ih =>
    intro c k d h
    rcases updateLoop_cases parseFloat Namespace q rest c with
      ⟨e, -, he⟩ | ⟨-, -, he⟩ | ⟨-, -, g, hg, -, he⟩
    · rw [he]
      simp only
      rw [gaugeValue_ensureGauge]
      exact h
    · rw [he]
      simp only
      rw [gaugeValue_ensureGauge]
      exact h
    · rw [he]
      apply ih
      rw [gaugeValue_set _ _ _ _ _ hg, gaugeValue_ensureGauge]
      split_ifs
      · rfl
      · exact h

theorem updateLoop_ok_valid (visits : List Quad) :
    ∀ c : Cache F, (updateLoop parseFloat Namespace visits c).2 = .ok () →
      ∀ q ∈ visits, (parseFloat q.value).2 = none ∧ ValidString q.dev = true := by
  induction visits with
  | nil => intro c _ q hq; simp at hq
  | cons q0 rest ih =>
    intro c h q hq
    rcases updateLoop_cases parseFloat Namespace q0 rest c with
      ⟨e, -, he⟩ | ⟨-, -, he⟩ | ⟨hp, hv, g, hg, -, he⟩
    · rw [he] at h
      cases h
    · rw [he] at h
      cases h
    · rw [he] at h
      rcases List.mem_cons.mp hq with h1 | h1
      · rw [h1]
        exact ⟨hp, hv⟩
      · exact ih _ h q h1

theorem updateLoop_invalid (visits : List Quad) :
    ∀ c : Cache F, (∀ q ∈ visits, ValidString q.dev = true) →
      (∃ q ∈ visits, (parseFloat q.value).2 ≠ none) →
      ∃ q ∈ visits, ∃ e, (parseFloat q.value).2 = some e ∧
        (updateLoop parseFloat Namespace visits c).2 = .err (invalidValue q.value e) := by
  induction visits with
  | nil => intro c _ h; simp at h
  | cons q0 rest ih =>
    intro c hu h
    have hv0 : ValidString q0.dev = true := hu q0 (by simp)
    rcases updateLoop_cases parseFloat Namespace q0 rest c with
      ⟨e, hp, he⟩ | ⟨-, hv, -⟩ | ⟨hp, -, g, hg, -, he⟩
    · exact ⟨q0, by simp, e, hp, by rw [he]⟩
    · rw [hv0] at hv
      cases hv
    · obtain ⟨q, hq, hbad⟩ := h
      have hq1 : q ∈ rest := by
        rcases List.mem_cons.mp hq with h1 | h1
        · rw [h1] at hbad
          exact absurd hp hbad
        · exact h1
      obtain ⟨q2, hq2, e, he2, hres⟩ := ih
        (mapSet (ensureGauge Namespace q0 c) (metricKey q0.direction q0.t)
          (g.setValue q0.dev (parseFloat q0.value).1))
        (fun q1 h1 => hu q1 (by simp [h1])) ⟨q, hq1, hbad⟩
      exact ⟨q2, by simp [hq2], e, he2, by rw [he, hres]⟩

theorem updateLoop_not_ok (visits : List Quad) (c : Cache F)
    (h : ∃ q ∈ visits, (parseFloat q.value).2 ≠ none) :
    (updateLoop parseFloat Namespace visits c).2 ≠ .ok () := by
  intro hok
  obtain ⟨q, hq, hbad⟩ := h
  exact hbad (updateLoop_ok_valid parseFloat Namespace visits c hok q hq).1

theorem updateLoop_fixed (visits : List Quad) (c : Cache F)
    (h : ∀ q ∈ visits, ((parseFloat q.value).2 = none ∧ ValidString q.dev = true) ∧
      gaugeValue c (metricKey q.direction q.t) q.dev = some (parseFloat q.value).1) :
    updateLoop parseFloat Namespace visits c = (c, .ok ()) := by
  induction visits with
  | nil => rfl
  | cons q rest ih =>
    obtain ⟨⟨hp, hu⟩, hv⟩ := h q (by simp)
    obtain ⟨g, hg, hgv⟩ : ∃ g, mapGet c (metricKey q.direction q.t) = some g ∧
        mapGet g.children q.dev = some (parseFloat q.value).1 := by
      unfold gaugeValue at hv
      cases hm : mapGet c (metricKey q.direction q.t) with
      | none => simp [hm] at hv
      | some g => exact ⟨g, rfl, by simpa [hm] using hv⟩
    have he : ensureGauge Namespace q c = c := by simp [ensureGauge, hg]
    have hs : g.setValue q.dev (parseFloat q.value).1 = g := by
      simp [GaugeVec.setValue, mapSet_same _ _ _ hgv]
    obtain ⟨g1, hg1, -, hstep⟩ := updateLoop_step parseFloat Namespace q rest c hp hu
    rw [he, hg] at hg1
    cases hg1
    rw [hstep, he, hs, mapSet_same _ _ _ hg]
    exact ih fun q1 h1 => h q1 (by simp [h1])

end UpdateLemmas

/-! ## The cells of parsed statistics are pairwise distinct -/

theorem metricKey_injective (direction : GoString) :
    Function.Injective (metricKey direction) := by
  intro a b h
  unfold metricKey at h
  exact List.append_cancel_left h

theorem nodup_cellsOf (direction : GoString) (devs : GoMap GoString DevStats) :
    (mapKeys devs).Nodup → (∀ dv ∈ devs, (mapKeys dv.2).Nodup) →
      (cellsOf direction devs).Nodup := by
  induction devs with
  | nil => intro _ _; simp [cellsOf]
  | cons dv devs ih =>
    intro hn hs
    have hn1 : dv.1 ∉ mapKeys devs ∧ (mapKeys devs).Nodup := by simpa [mapKeys] using hn
    have e : cellsOf direction (dv :: devs) =
        (mapKeys dv.2).map (fun f => (metricKey direction f, dv.1)) ++
          cellsOf direction devs := by
      simp [cellsOf, mapKeys, List.map_map, Function.comp_def]
    rw [e, List.nodup_append]
    refine ⟨?_, ih hn1.2 fun dv1 h1 => hs dv1 (by simp [h1]), ?_⟩
    · apply List.Nodup.map _ (hs dv (by simp))
      intro a b hab
      simp only [Prod.mk.injEq, and_true] at hab
      exact metricKey_injective direction hab
    · intro x hx hy
      obtain ⟨f, -, hf⟩ := List.mem_map.mp hx
      simp only [cellsOf, List.mem_flatMap, List.mem_map] at hy
      obtain ⟨dv1, hdv1, s, -, hs1⟩ := hy
      apply hn1.1
      have : dv.1 = dv1.1 := by
        rw [← hf] at hs1
        exact (Prod.mk.inj hs1).2.symm
      rw [this]
      exact List.mem_map.mpr ⟨dv1, hdv1, rfl⟩

theorem storeRows_entry (row : GoString → DevStats) (lines : List GoString)
    (dv : GoString × DevStats) (h : dv ∈ storeRows row lines []) :
    ∃ l ∈ lines, devName l = dv.1 ∧ dv.2 = row l := by
  have hg := mapGet_of_mem _ dv.1 dv.2
    (nodup_mapKeys_storeRows row lines [] (by simp [mapKeys])) h
  rcases mapGet_storeRows_some row dv.1 dv.2 lines [] hg with h1 | h1
  · simp [mapGet] at h1
  · exact h1

theorem quadruples_cells (T R : GoMap GoString DevStats) :
    (quadruples [(transmitKey, T), (receiveKey, R)]).map cellOf =
      cellsOf transmitKey T ++ cellsOf receiveKey R := by
  simp [quadruples, cellsOf, List.map_flatMap, cellOf, Function.comp_def]

theorem metricKey_transmit_ne_receive (f1 f2 : GoString) :
    metricKey transmitKey f1 ≠ metricKey receiveKey f2 := by
  have e1 : transmitKey = 116 :: utf8 "ransmit" := by decide
  have e2 : receiveKey = 114 :: utf8 "eceive" := by decide
  intro h
  rw [metricKey, metricKey, e1, e2] at h
  simp at h

theorem nodup_cells_parsed (r : GoString) (ns : NetStats) (hok : parseNetStats r = .ok ns) :
    ((quadruples ns).map cellOf).Nodup := by
  obtain ⟨-, -, hns⟩ := parseNetStats_ok r ns hok
  subst hns
  rw [quadruples_cells, List.nodup_append]
  refine ⟨?_, ?_, ?_⟩
  · apply nodup_cellsOf _ _ (nodup_mapKeys_storeRows _ _ [] (by simp [mapKeys]))
    intro dv hdv
    obtain ⟨l, -, -, hl⟩ := storeRows_entry _ _ dv hdv
    rw [hl]
    exact nodup_mapKeys_zipStats _ _
  · apply nodup_cellsOf _ _ (nodup_mapKeys_storeRows _ _ [] (by simp [mapKeys]))
    intro dv hdv
    obtain ⟨l, -, -, hl⟩ := storeRows_entry _ _ dv hdv
    rw [hl]
    exact nodup_mapKeys_zipStats _ _
  · intro x hx hy
    simp only [cellsOf, List.mem_flatMap, List.mem_map] at hx hy
    obtain ⟨dv1, -, s1, -, h1⟩ := hx
    obtain ⟨dv2, -, s2, -, h2⟩ := hy
    rw [← h2] at h1
    exact metricKey_transmit_ne_receive s1.1 s2.1 (Prod.mk.inj h1).1

theorem storageOrder_valid (F : Type) : (storageOrder F).Valid :=
  ⟨fun _ => List.Perm.refl _, fun _ => List.Perm.refl _⟩

theorem reverseOrder_valid (F : Type) : (reverseOrder F).Valid :=
  ⟨fun _ => List.reverse_perm _, fun _ => List.reverse_perm _⟩

/-! ## The claims on Update -/

section UpdateClaims

variable {F : Type} (parseFloat : GoString → F × Option GoString) (Namespace : GoString)

theorem Update_of_stats (ρ : RangeOrder F) (file : Except GoString GoString) (ns : NetStats)
    (cache : Cache F) (h : getNetStats file = .ok ns) :
    (Update parseFloat Namespace ρ file cache).netStatsMetrics =
      (updateLoop parseFloat Namespace (ρ.stats ns) cache).1 ∧
    (Update parseFloat Namespace ρ file cache).ret =
      (updateLoop parseFloat Namespace (ρ.stats ns) cache).2 ∧
    (Update parseFloat Namespace ρ file cache).sent =
      match (updateLoop parseFloat Namespace (ρ.stats ns) cache).2 with
      | .ok _ => ρ.metrics (collectAll (updateLoop parseFloat Namespace (ρ.stats ns) cache).1)
      | _ => [] := by
  unfold Update
  rw [h]
  simp only
  generalize updateLoop parseFloat Namespace (ρ.stats ns) cache = p
  obtain ⟨c1, res⟩ := p
  cases res <;> simp

theorem getNetStats_ok (file : Except GoString GoString) (ns : NetStats)
    (h : getNetStats file = .ok ns) : ∃ content, file = .ok content ∧ parseNetStats content = .ok ns := by
  cases file with
  | error e => simp [getNetStats] at h
  | ok content => exact ⟨content, rfl, h⟩

theorem Update_ret_ok (ρ : RangeOrder F) (file : Except GoString GoString) (cache : Cache F)
    (h : (Update parseFloat Namespace ρ file cache).ret = .ok ()) :
    ∃ ns, getNetStats file = .ok ns := by
  unfold Update at h
  cases hg : getNetStats file with
  | ok ns => exact ⟨ns, rfl⟩
  | err e => simp [hg] at h
  | panic => simp [hg] at h

theorem mem_collectAll (c : Cache F) (s : Sample F) :
    s ∈ collectAll c ↔
      ∃ key g dev v, (key, g) ∈ c ∧ (dev, v) ∈ g.children ∧
        s = { opts := g.opts, labelNames := g.labelNames, labelValue := dev, value := v } := by
  simp only [collectAll, GaugeVec.Collect, List.mem_flatMap, List.mem_map, Prod.exists]
  constructor
  · rintro ⟨key, g, hg, dev, v, hc, rfl⟩
    exact ⟨key, g, dev, v, hg, hc, rfl⟩
  · rintro ⟨key, g, dev, v, hg, hc, rfl⟩
    exact ⟨key, g, hg, dev, v, hc, rfl⟩

/-- C7, as amended: when the source parses, every raw value is a valid float
literal and every device name is valid UTF-8, `Update` returns no error,
whatever the order of the visits; afterwards the gauge with key
direction + "_" + field holds for the label device the float parsed from the
raw value, for every quadruple of the statistics; the metrics sent are exactly
those of all gauges of the cache after the pass; and every gauge the cache held
before is still in it. -/
theorem Update_sets_values (ρ : RangeOrder F) (hρ : ρ.Valid) (content : GoString)
    (ns : NetStats) (cache : Cache F)
    (hparse : parseNetStats content = .ok ns)
    (hvalid : ∀ q ∈ quadruples ns, (parseFloat q.value).2 = none)
    (hutf : ∀ q ∈ quadruples ns, ValidString q.dev = true) :
    (Update parseFloat Namespace ρ (.ok content) cache).ret = .ok () ∧
    (∀ q ∈ quadruples ns,
      gaugeValue (Update parseFloat Namespace ρ (.ok content) cache).netStatsMetrics
        (q.direction ++ utf8 "_" ++ q.t) q.dev = some (parseFloat q.value).1) ∧
    ((Update parseFloat Namespace ρ (.ok content) cache).sent.Perm
      (collectAll (Update parseFloat Namespace ρ (.ok content) cache).netStatsMetrics)) ∧
    (∀ s, s ∈ (Update parseFloat Namespace ρ (.ok content) cache).sent ↔
      ∃ key g dev v,
        (key, g) ∈ (Update parseFloat Namespace ρ (.ok content) cache).netStatsMetrics ∧
        (dev, v) ∈ g.children ∧
        s = { opts := g.opts, labelNames := g.labelNames, labelValue := dev, value := v }) ∧
    (∀ key dev, (gaugeValue cache key dev).isSome →
      (gaugeValue (Update parseFloat Namespace ρ (.ok content) cache).netStatsMetrics
        key dev).isSome) := by
  have hg : getNetStats (.ok content) = .ok ns := hparse
  obtain ⟨hc, hr, hs⟩ := Update_of_stats parseFloat Namespace ρ _ ns cache hg
  have hperm := hρ.1 ns
  have hv : ∀ q ∈ ρ.stats ns, (parseFloat q.value).2 = none ∧ ValidString q.dev = true :=
    fun q hq => ⟨hvalid q (hperm.mem_iff.mp hq), hutf q (hperm.mem_iff.mp hq)⟩
  have hok := updateLoop_valid parseFloat Namespace (ρ.stats ns) cache hv
  have hsent : (Update parseFloat Namespace ρ (.ok content) cache).sent =
      ρ.metrics (collectAll (Update parseFloat Namespace ρ (.ok content) cache).netStatsMetrics) := by
    rw [hs, hok, hc]
  refine ⟨by rw [hr, hok], ?_, ?_, ?_, ?_⟩
  · intro q hq
    rw [hc]
    have hn : ((ρ.stats ns).map cellOf).Nodup :=
      ((hperm.map cellOf).nodup_iff).mpr (nodup_cells_parsed content ns hparse)
    exact gaugeValue_updateLoop_visited parseFloat Namespace (ρ.stats ns) cache hv hn q
      (hperm.mem_iff.mpr hq)
  · rw [hsent]
    exact hρ.2 _
  · intro s
    rw [hsent, (hρ.2 _).mem_iff, mem_collectAll]
  · intro key dev h
    rw [hc]
    exact gaugeValue_updateLoop_isSome parseFloat Namespace _ cache key dev h

/-- C8, as amended: when the source parses and some raw value is not a valid
float literal, `Update` does not return nil and sends no metric, whatever the
order of the visits; when moreover every device name is valid UTF-8, it returns
the error "Invalid value v in netstats: e" for a raw value v of the statistics
that `ParseFloat` rejects with the error e. -/
theorem Update_invalid_value (ρ : RangeOrder F) (hρ : ρ.Valid) (content : GoString)
    (ns : NetStats) (cache : Cache F)
    (hparse : parseNetStats content = .ok ns)
    (hbad : ∃ q ∈ quadruples ns, (parseFloat q.value).2 ≠ none) :
    (Update parseFloat Namespace ρ (.ok content) cache).ret ≠ .ok () ∧
    (Update parseFloat Namespace ρ (.ok content) cache).sent = [] ∧
    ((∀ q ∈ quadruples ns, ValidString q.dev = true) →
      ∃ q ∈ quadruples ns, ∃ e, (parseFloat q.value).2 = some e ∧
        (Update parseFloat Namespace ρ (.ok content) cache).ret =
          .err (utf8 "Invalid value " ++ q.value ++ utf8 " in netstats: " ++ e)) := by
  have hg : getNetStats (.ok content) = .ok ns := hparse
  obtain ⟨-, hr, hs⟩ := Update_of_stats parseFloat Namespace ρ _ ns cache hg
  have hperm := hρ.1 ns
  obtain ⟨q0, hq0, hb0⟩ := hbad
  have hnot := updateLoop_not_ok parseFloat Namespace (ρ.stats ns) cache
    ⟨q0, hperm.mem_iff.mpr hq0, hb0⟩
  refine ⟨by rw [hr]; exact hnot, ?_, ?_⟩
  · rw [hs]
    generalize (updateLoop parseFloat Namespace (ρ.stats ns) cache) = p at hnot
    obtain ⟨c1, res⟩ := p
    cases res with
    | ok u => exact absurd rfl hnot
    | err e => rfl
    | panic => rfl
  · intro hutf
    obtain ⟨q, hq, e, he, hres⟩ := updateLoop_invalid parseFloat Namespace (ρ.stats ns) cache
      (fun q hq => hutf q (hperm.mem_iff.mp hq)) ⟨q0, hperm.mem_iff.mpr hq0, hb0⟩
    refine ⟨q, hperm.mem_iff.mp hq, e, he, ?_⟩
    rw [hr, hres]
    rfl

/-- C9: when `getNetStats` returns an error (the source cannot be opened, or
`parseNetStats` fails), `Update` returns the error "Couldn't get netstats: "
followed by its message, sends no metric and leaves the cache as it was. -/
theorem Update_source_failure (ρ : RangeOrder F) (file : Except GoString GoString)
    (e : GoString) (cache : Cache F) (h : getNetStats file = .err e) :
    (Update parseFloat Namespace ρ file cache).ret =
      .err (utf8 "Couldn't get netstats: " ++ e) ∧
    (Update parseFloat Namespace ρ file cache).sent = [] ∧
    (Update parseFloat Namespace ρ file cache).netStatsMetrics = cache := by
  unfold Update
  rw [h]
  exact ⟨rfl, rfl, rfl⟩

/-- C10: when `Update` succeeds on a source, a second `Update` on the same
source, whatever the order of its visits, succeeds too, leaves the cache equal
to the cache after the first, and sends the same metrics. -/
theorem Update_idempotent (ρ1 ρ2 : RangeOrder F) (hρ1 : ρ1.Valid) (hρ2 : ρ2.Valid)
    (file : Except GoString GoString) (cache : Cache F)
    (hok : (Update parseFloat Namespace ρ1 file cache).ret = .ok ()) :
    (Update parseFloat Namespace ρ2 file
      (Update parseFloat Namespace ρ1 file cache).netStatsMetrics).ret = .ok () ∧
    (Update parseFloat Namespace ρ2 file
      (Update parseFloat Namespace ρ1 file cache).netStatsMetrics).netStatsMetrics =
      (Update parseFloat Namespace ρ1 file cache).netStatsMetrics ∧
    (Update parseFloat Namespace ρ2 file
      (Update parseFloat Namespace ρ1 file cache).netStatsMetrics).sent.Perm
      (Update parseFloat Namespace ρ1 file cache).sent := by
  obtain ⟨ns, hg⟩ := Update_ret_ok parseFloat Namespace ρ1 file cache hok
  obtain ⟨content, -, hparse⟩ := getNetStats_ok file ns hg
  obtain ⟨hc1, hr1, hs1⟩ := Update_of_stats parseFloat Namespace ρ1 file ns cache hg
  have hl1 : (updateLoop parseFloat Namespace (ρ1.stats ns) cache).2 = .ok () := by
    rw [← hr1, hok]
  have hv1 := updateLoop_ok_valid parseFloat Namespace (ρ1.stats ns) cache hl1
  have hn1 : ((ρ1.stats ns).map cellOf).Nodup :=
    (((hρ1.1 ns).map cellOf).nodup_iff).mpr (nodup_cells_parsed content ns hparse)
  have hfix : updateLoop parseFloat Namespace (ρ2.stats ns)
      (Update parseFloat Namespace ρ1 file cache).netStatsMetrics =
      ((Update parseFloat Namespace ρ1 file cache).netStatsMetrics, .ok ()) := by
    apply updateLoop_fixed
    intro q hq
    have hq1 : q ∈ ρ1.stats ns := (hρ1.1 ns).mem_iff.mpr ((hρ2.1 ns).mem_iff.mp hq)
    refine ⟨hv1 q hq1, ?_⟩
    rw [hc1]
    exact gaugeValue_updateLoop_visited parseFloat Namespace (ρ1.stats ns) cache hv1 hn1 q hq1
  obtain ⟨hc2, hr2, hs2⟩ := Update_of_stats parseFloat Namespace ρ2 file ns
    (Update parseFloat Namespace ρ1 file cache).netStatsMetrics hg
  refine ⟨by rw [hr2, hfix], by rw [hc2, hfix], ?_⟩
  rw [hs2, hfix, hs1, hl1]
  simp only
  rw [← hc1]
  exact (hρ2.2 _).trans (hρ1.2 _).symm

end UpdateClaims

/-- C7, an instance: `Update` on `exampleInput` with the cache `exampleCache`. -/
theorem Update_sets_values_example :
    (storageOrder Nat).Valid ∧
    parseNetStats exampleInput = .ok exampleStats ∧
    (∀ q ∈ quadruples exampleStats, (exampleParseFloat q.value).2 = none) ∧
    (∀ q ∈ quadruples exampleStats, ValidString q.dev = true) ∧
    exampleUpdate.ret = .ok () ∧
    (∀ q ∈ quadruples exampleStats,
      gaugeValue exampleUpdate.netStatsMetrics (q.direction ++ utf8 "_" ++ q.t) q.dev =
        some (exampleParseFloat q.value).1) ∧
    (exampleUpdate.sent.Perm (collectAll exampleUpdate.netStatsMetrics)) ∧
    (∀ s, s ∈ exampleUpdate.sent ↔
      ∃ key g dev v, (key, g) ∈ exampleUpdate.netStatsMetrics ∧ (dev, v) ∈ g.children ∧
        s = { opts := g.opts, labelNames := g.labelNames, labelValue := dev, value := v }) ∧
    (∀ key dev, (gaugeValue exampleCache key dev).isSome →
      (gaugeValue exampleUpdate.netStatsMetrics key dev).isSome) :=
  ⟨storageOrder_valid Nat, by decide, by decide, by decide,
    Update_sets_values exampleParseFloat exampleNamespace (storageOrder Nat)
      (storageOrder_valid Nat) exampleInput exampleStats exampleCache (by decide) (by decide)
      (by decide)⟩

/-- C7, as stated, fails on `invalidDeviceInput`: the source parses, every raw
value of its statistics is a valid float literal, and `Update` panics in
`WithLabelValues` at its first visit, in either order of the visits, the device
name starting with the byte 0xFF, which is not valid UTF-8; no metric is
sent. -/
theorem Update_invalid_device :
    parseNetStats invalidDeviceInput = .ok invalidDeviceStats ∧
    (∀ q ∈ quadruples invalidDeviceStats, (exampleParseFloat q.value).2 = none) ∧
    (∀ q ∈ quadruples invalidDeviceStats, q.dev = 255 :: utf8 "eth0") ∧
    ValidString (255 :: utf8 "eth0") = false ∧
    (Update exampleParseFloat exampleNamespace (storageOrder Nat) (.ok invalidDeviceInput)
      exampleCache).ret = .panic ∧
    (Update exampleParseFloat exampleNamespace (storageOrder Nat) (.ok invalidDeviceInput)
      exampleCache).sent = [] ∧
    (Update exampleParseFloat exampleNamespace (reverseOrder Nat) (.ok invalidDeviceInput)
      exampleCache).ret = .panic ∧
    (Update exampleParseFloat exampleNamespace (reverseOrder Nat) (.ok invalidDeviceInput)
      exampleCache).sent = [] := by
  decide

/-- C8, an instance: `Update` on `badValueInput`, whose row holds `abc` and
whose device name is valid UTF-8, the maps visited in reverse order. -/
theorem Update_invalid_value_example :
    (reverseOrder Nat).Valid ∧
    parseNetStats badValueInput = .ok badValueStats ∧
    (∃ q ∈ quadruples badValueStats, (exampleParseFloat q.value).2 ≠ none) ∧
    (∀ q ∈ quadruples badValueStats, ValidString q.dev = true) ∧
    (Update exampleParseFloat exampleNamespace (reverseOrder Nat) (.ok badValueInput)
      exampleCache).ret ≠ .ok () ∧
    (Update exampleParseFloat exampleNamespace (reverseOrder Nat) (.ok badValueInput)
      exampleCache).sent = [] ∧
    ∃ q ∈ quadruples badValueStats, ∃ e, (exampleParseFloat q.value).2 = some e ∧
      (Update exampleParseFloat exampleNamespace (reverseOrder Nat) (.ok badValueInput)
        exampleCache).ret =
        .err (utf8 "Invalid value " ++ q.value ++ utf8 " in netstats: " ++ e) :=
  ⟨reverseOrder_valid Nat, by decide, by decide, by decide,
    (Update_invalid_value exampleParseFloat exampleNamespace (reverseOrder Nat)
      (reverseOrder_valid Nat) badValueInput badValueStats exampleCache (by decide)
      (by decide)).1,
    (Update_invalid_value exampleParseFloat exampleNamespace (reverseOrder Nat)
      (reverseOrder_valid Nat) badValueInput badValueStats exampleCache (by decide)
      (by decide)).2.1,
    (Update_invalid_value exampleParseFloat exampleNamespace (reverseOrder Nat)
      (reverseOrder_valid Nat) badValueInput badValueStats exampleCache (by decide)
      (by decide)).2.2 (by decide)⟩

/-- C8, as stated, fails on `invalidDeviceBadValueInput`: the source parses and
its statistics hold the raw value `abc`, which is not a float literal; with the
maps visited in the order they store their entries, the first visit is that of
the valid value 200 of the device, whose name is not valid UTF-8, and `Update`
panics in `WithLabelValues` instead of returning an error. Visited in reverse
order, `abc` comes first and `Update` returns the error that names it. -/
theorem Update_panics_before_invalid_value :
    parseNetStats invalidDeviceBadValueInput = .ok invalidDeviceBadValueStats ∧
    (∃ q ∈ quadruples invalidDeviceBadValueStats, q.value = utf8 "abc" ∧
      (exampleParseFloat q.value).2 ≠ none) ∧
    ((storageOrder Nat).stats invalidDeviceBadValueStats).head? =
      some { direction := utf8 "transmit", dev := 255 :: utf8 "eth0", t := utf8 "bytes",
             value := utf8 "200" } ∧
    (exampleParseFloat (utf8 "200")).2 = none ∧
    ValidString (255 :: utf8 "eth0") = false ∧
    (Update exampleParseFloat exampleNamespace (storageOrder Nat)
      (.ok invalidDeviceBadValueInput) exampleCache).ret = .panic ∧
    (Update exampleParseFloat exampleNamespace (reverseOrder Nat)
      (.ok invalidDeviceBadValueInput) exampleCache).ret =
      .err (utf8 "Invalid value abc in netstats: invalid number") := by
  decide

/-- C9, two instances: the source cannot be opened, and the source
`shortRowInput` does not parse. -/
theorem Update_source_failure_example :
    (getNetStats (.error (utf8 "open /proc/net/dev: no such file or directory")) =
      .err (utf8 "open /proc/net/dev: no such file or directory") ∧
     (Update exampleParseFloat exampleNamespace (storageOrder Nat)
        (.error (utf8 "open /proc/net/dev: no such file or directory")) exampleCache).ret =
       .err (utf8 "Couldn't get netstats: " ++
         utf8 "open /proc/net/dev: no such file or directory") ∧
     (Update exampleParseFloat exampleNamespace (storageOrder Nat)
        (.error (utf8 "open /proc/net/dev: no such file or directory")) exampleCache).sent =
       [] ∧
     (Update exampleParseFloat exampleNamespace (storageOrder Nat)
        (.error (utf8 "open /proc/net/dev: no such file or directory"))
        exampleCache).netStatsMetrics = exampleCache) ∧
    (getNetStats (.ok shortRowInput) = .err (utf8 "Invalid line in /proc/net/dev:     lo: 7 8") ∧
     (Update exampleParseFloat exampleNamespace (storageOrder Nat) (.ok shortRowInput)
        exampleCache).ret =
       .err (utf8 "Couldn't get netstats: " ++
         utf8 "Invalid line in /proc/net/dev:     lo: 7 8") ∧
     (Update exampleParseFloat exampleNamespace (storageOrder Nat) (.ok shortRowInput)
        exampleCache).sent = [] ∧
     (Update exampleParseFloat exampleNamespace (storageOrder Nat) (.ok shortRowInput)
        exampleCache).netStatsMetrics = exampleCache) :=
  ⟨⟨by decide,
      Update_source_failure exampleParseFloat exampleNamespace (storageOrder Nat)
        (.error (utf8 "open /proc/net/dev: no such file or directory"))
        (utf8 "open /proc/net/dev: no such file or directory") exampleCache (by decide)⟩,
    ⟨by decide,
      Update_source_failure exampleParseFloat exampleNamespace (storageOrder Nat)
        (.ok shortRowInput) (utf8 "Invalid line in /proc/net/dev:     lo: 7 8") exampleCache
        (by decide)⟩⟩

/-- C10, an instance: a second `Update` on `exampleInput`, visiting the maps in
reverse order, after the call `exampleUpdate`. -/
theorem Update_idempotent_example :
    (storageOrder Nat).Valid ∧ (reverseOrder Nat).Valid ∧
    exampleUpdate.ret = .ok () ∧
    (Update exampleParseFloat exampleNamespace (reverseOrder Nat) (.ok exampleInput)
      exampleUpdate.netStatsMetrics).ret = .ok () ∧
    (Update exampleParseFloat exampleNamespace (reverseOrder Nat) (.ok exampleInput)
      exampleUpdate.netStatsMetrics).netStatsMetrics = exampleUpdate.netStatsMetrics ∧
    (Update exampleParseFloat exampleNamespace (reverseOrder Nat) (.ok exampleInput)
      exampleUpdate.netStatsMetrics).sent.Perm exampleUpdate.sent :=
  ⟨storageOrder_valid Nat, reverseOrder_valid Nat, by decide,
    Update_idempotent exampleParseFloat exampleNamespace (storageOrder Nat) (reverseOrder Nat)
      (storageOrder_valid Nat) (reverseOrder_valid Nat) (.ok exampleInput) exampleCache
      (by decide)⟩

/-! ## Further claims on parseNetStats -/

/-- C16, as stated, fails on `exampleInput` and `longDecorInput`: the two inputs
have the same second line, with exactly two bars, and the same body lines, and
differ in their first line only, which is `MaxScanTokenSize` spaces in
`longDecorInput`; `parseNetStats` returns statistics on the first and the error
"Invalid header line in /proc/net/dev: " followed by the spaces on the
second. -/
theorem parseNetStats_long_decor_line :
    (inputLines longDecorInput).getD 1 [] = (inputLines exampleInput).getD 1 [] ∧
    ((inputLines exampleInput).getD 1 []).count 124 = 2 ∧
    (inputLines longDecorInput).drop 2 = (inputLines exampleInput).drop 2 ∧
    (inputLines longDecorInput).getD 0 [] = longLine ∧
    parseNetStats exampleInput = .ok exampleStats ∧
    parseNetStats longDecorInput =
      .err (utf8 "Invalid header line in /proc/net/dev: " ++ longLine) := by
  have h10 : (10 : Nat) ∉ longLine := not_mem_longLine 10 (by decide)
  have h13 : (13 : Nat) ∉ longLine := not_mem_longLine 13 (by decide)
  have hraw : rawLines longDecorInput =
      longLine ::
        rawLines (utf8 " face |bytes packets|bytes packets\n" ++ exampleRowEth0 ++
          exampleRowLo) := by
    rw [longDecorInput, rawLines_line _ _ h10]
  have hin : inputLines longDecorInput =
      longLine :: [utf8 " face |bytes packets|bytes packets", utf8 "  eth0: 100 1 200 2",
        utf8 "    lo: 7 8 9 10"] := by
    rw [inputLines, hraw, List.map_cons, dropCR_of_not_mem _ h13]
    have e : (rawLines (utf8 " face |bytes packets|bytes packets\n" ++ exampleRowEth0 ++
        exampleRowLo)).map dropCR =
        [utf8 " face |bytes packets|bytes packets", utf8 "  eth0: 100 1 200 2",
         utf8 "    lo: 7 8 9 10"] := by decide
    rw [e]
  have hscan : ScanLines longDecorInput = none :: some longLine :: [] := by
    rw [ScanLines, hraw, scanResults_long _ _ (by rw [longLine_length]),
      List.take_of_length_le (by rw [longLine_length]), dropCR_of_not_mem _ h13]
  obtain ⟨hh, -⟩ := scanned_twice _ _ _ _ hscan
  have hsplit : Split longLine 124 = [longLine] :=
    Split_of_not_mem _ _ (not_mem_longLine 124 (by decide))
  refine ⟨?_, by decide, ?_, ?_, by decide, ?_⟩
  · rw [hin]
    decide
  · rw [hin]
    decide
  · rw [hin]
    rfl
  · rw [parseNetStats_eq, hh]
    simp only [Option.getD_some]
    rw [hsplit, if_pos (by decide), invalidHeader_eq]

/-- C16, as amended: two inputs whose lines are all shorter than the buffer of
the scanner, whose second lines both hold exactly two bars, with the same
receive segment, and whose body lines are the same, have the same result of
`parseNetStats` (value or error), whatever their first lines and the first and
third segments of their headers are. -/
theorem parseNetStats_header_independent (r1 r2 : GoString)
    (hs1 : ShortLines r1) (hs2 : ShortLines r2)
    (h1 : ((inputLines r1).getD 1 []).count 124 = 2)
    (h2 : ((inputLines r2).getD 1 []).count 124 = 2)
    (hrecv : (Split ((inputLines r1).getD 1 []) 124).getD 1 [] =
      (Split ((inputLines r2).getD 1 []) 124).getD 1 [])
    (hbody : (inputLines r1).drop 2 = (inputLines r2).drop 2) :
    parseNetStats r1 = parseNetStats r2 := by
  rw [← headerText_eq r1 hs1] at h1 hrecv
  rw [← headerText_eq r2 hs2] at h2 hrecv
  rw [← bodyLines_eq r1 hs1, ← bodyLines_eq r2 hs2] at hbody
  have e1 : (Split (headerText r1) 124).length = 3 := by rw [Split_length, h1]
  have e2 : (Split (headerText r2) 124).length = 3 := by rw [Split_length, h2]
  have hf : fieldHeader r1 = fieldHeader r2 := by rw [fieldHeader, fieldHeader, hrecv]
  rw [parseNetStats_eq r1, parseNetStats_eq r2, if_neg (not_not.mpr e1),
    if_neg (not_not.mpr e2), hf, hbody]

/-- C16, an instance: `exampleInput` and `otherHeadInput`, which differ in their
first lines and in the first and third segments of their headers. -/
theorem parseNetStats_header_independent_example :
    ShortLines exampleInput ∧ ShortLines otherHeadInput ∧
    ((inputLines exampleInput).getD 1 []).count 124 = 2 ∧
    ((inputLines otherHeadInput).getD 1 []).count 124 = 2 ∧
    (Split ((inputLines exampleInput).getD 1 []) 124).getD 1 [] =
      (Split ((inputLines otherHeadInput).getD 1 []) 124).getD 1 [] ∧
    (inputLines exampleInput).drop 2 = (inputLines otherHeadInput).drop 2 ∧
    (inputLines exampleInput).getD 0 [] ≠ (inputLines otherHeadInput).getD 0 [] ∧
    (inputLines exampleInput).getD 1 [] ≠ (inputLines otherHeadInput).getD 1 [] ∧
    parseNetStats exampleInput = parseNetStats otherHeadInput :=
  ⟨by decide, by decide, by decide, by decide, by decide, by decide, by decide, by decide,
    parseNetStats_header_independent exampleInput otherHeadInput (by decide) (by decide)
      (by decide) (by decide) (by decide) (by decide)⟩

/-- C17: for directions among "receive" and "transmit", the key
direction + "_" + field determines the direction and the field. -/
theorem metricKey_pair_injective (d1 d2 f1 f2 : GoString)
    (h1 : d1 = receiveKey ∨ d1 = transmitKey) (h2 : d2 = receiveKey ∨ d2 = transmitKey)
    (h : d1 ++ utf8 "_" ++ f1 = d2 ++ utf8 "_" ++ f2) : d1 = d2 ∧ f1 = f2 := by
  rcases h1 with h1 | h1 <;> rcases h2 with h2 | h2 <;> subst h1 <;> subst h2
  · exact ⟨rfl, metricKey_injective receiveKey h⟩
  · exact absurd h.symm (metricKey_transmit_ne_receive f2 f1)
  · exact absurd h (metricKey_transmit_ne_receive f1 f2)
  · exact ⟨rfl, metricKey_injective transmitKey h⟩

/-- C17, an instance: the key `receive_bytes`. -/
theorem metricKey_pair_injective_example :
    (receiveKey = receiveKey ∨ receiveKey = transmitKey) ∧
    receiveKey ++ utf8 "_" ++ utf8 "bytes" = utf8 "receive" ++ utf8 "_" ++ utf8 "bytes" ∧
    (receiveKey = utf8 "receive" ∧ utf8 "bytes" = utf8 "bytes") :=
  ⟨Or.inl rfl, by decide,
    metricKey_pair_injective receiveKey (utf8 "receive") (utf8 "bytes") (utf8 "bytes")
      (Or.inl rfl) (Or.inl (by decide)) (by decide)⟩

/-- C18: `parseNetStats` never panics, and on every line that passes the test
on the token count, token 0 is not empty, the slices `parts[1:N+1]` and
`parts[N+1:]` are within bounds and have N elements each, and
`parseNetDevLine` on either of them returns without an index out of range;
N = 0 included. -/
theorem parseNetStats_no_panic (r : GoString) :
    parseNetStats r ≠ .panic ∧
    ∀ (header : List GoString) (text : GoString),
      (Fields text).length = 2 * header.length + 1 →
      ∃ p0 recvParts xmitParts,
        (Fields text)[0]? = some p0 ∧ p0.length ≠ 0 ∧
        slice (Fields text) 1 (header.length + 1) = some recvParts ∧
        recvParts.length = header.length ∧
        slice (Fields text) (header.length + 1) (Fields text).length = some xmitParts ∧
        xmitParts.length = header.length ∧
        (∃ receive, parseNetDevLine recvParts header = .ok receive) ∧
        (∃ transmit, parseNetDevLine xmitParts header = .ok transmit) ∧
        ∀ i, i < header.length → (header[i]?).isSome := by
  constructor
  · rw [parseNetStats_eq]
    split_ifs
    · simp
    · cases (bodyLines r).find? (badRow (fieldHeader r)) <;> simp
  · intro header text h
    obtain ⟨p0, ps, hp⟩ : ∃ p0 ps, Fields text = p0 :: ps := by
      cases hf : Fields text with
      | nil => simp [hf] at h
      | cons a b => exact ⟨a, b, rfl⟩
    have hp0 : p0 ≠ [] := Fields_ne_nil text p0 (by simp [hp])
    have hps : ps.length = 2 * header.length := by simpa [hp] using h
    refine ⟨p0, ((Fields text).take (header.length + 1)).drop 1,
      ((Fields text).take (Fields text).length).drop (header.length + 1), by simp [hp],
      by simpa using hp0, ?_, ?_, ?_, ?_, ?_, ?_, ?_⟩
    · simp [slice, h]
      omega
    · simp [h]
      omega
    · simp [slice, h]
      omega
    · simp [h]
      omega
    · exact ⟨_, parseNetDevLine_eq _ _ (by simp)⟩
    · exact ⟨_, parseNetDevLine_eq _ _ (by simp [h]; omega)⟩
    · intro i hi
      simp [hi]

/-- C18, an instance: the header of `noFieldInput` has no field name (N = 0)
and its row is the single token `eth0:`. -/
theorem parseNetStats_no_panic_example :
    fieldHeader noFieldInput = [] ∧
    (Fields (utf8 "eth0:")).length = 2 * ([] : List GoString).length + 1 ∧
    parseNetStats noFieldInput = .ok [(transmitKey, [(utf8 "eth0", [])]),
      (receiveKey, [(utf8 "eth0", [])])] ∧
    ∃ p0 recvParts xmitParts,
      (Fields (utf8 "eth0:"))[0]? = some p0 ∧ p0.length ≠ 0 ∧
      slice (Fields (utf8 "eth0:")) 1 (([] : List GoString).length + 1) = some recvParts ∧
      recvParts.length = ([] : List GoString).length ∧
      slice (Fields (utf8 "eth0:")) (([] : List GoString).length + 1)
        (Fields (utf8 "eth0:")).length = some xmitParts ∧
      xmitParts.length = ([] : List GoString).length ∧
      (∃ receive, parseNetDevLine recvParts [] = .ok receive) ∧
      (∃ transmit, parseNetDevLine xmitParts [] = .ok transmit) ∧
      ∀ i, i < ([] : List GoString).length → ((([] : List GoString)[i]?)).isSome :=
  ⟨by decide, by decide, by decide,
    (parseNetStats_no_panic noFieldInput).2 [] (utf8 "eth0:") (by decide)⟩

/-- C19, as stated, fails on `longLaterRowInput`: the input is accepted, its two
body lines both have five tokens and the device name `eth0`, the later one
behind `MaxScanTokenSize` spaces with the values 5 6 7 8, and the result holds
under `eth0` the values 1 2 3 4 of the earlier line: the scanner stops at the
later line, which the loop never reads. -/
theorem parseNetStats_long_later_row :
    inputLines longLaterRowInput =
      [utf8 "Inter-| Receive | Transmit", utf8 " face |bytes packets|bytes packets",
       utf8 "eth0: 1 2 3 4", longLine ++ utf8 "eth0: 5 6 7 8"] ∧
    fieldHeader longLaterRowInput = [utf8 "bytes", utf8 "packets"] ∧
    Fields (utf8 "eth0: 1 2 3 4") = [utf8 "eth0:", utf8 "1", utf8 "2", utf8 "3", utf8 "4"] ∧
    Fields (longLine ++ utf8 "eth0: 5 6 7 8") =
      [utf8 "eth0:", utf8 "5", utf8 "6", utf8 "7", utf8 "8"] ∧
    devName (utf8 "eth0: 1 2 3 4") = utf8 "eth0" ∧
    devName (longLine ++ utf8 "eth0: 5 6 7 8") = utf8 "eth0" ∧
    parseNetStats longLaterRowInput =
      .ok [(transmitKey, [(utf8 "eth0", [(utf8 "bytes", utf8 "3"), (utf8 "packets", utf8 "4")])]),
           (receiveKey, [(utf8 "eth0", [(utf8 "bytes", utf8 "1"), (utf8 "packets", utf8 "2")])])] := by
  have h10 : (10 : Nat) ∉ longLine ++ utf8 "eth0: 5 6 7 8" := by
    rw [List.mem_append, not_or]
    exact ⟨not_mem_longLine 10 (by decide), by decide⟩
  have h13 : (13 : Nat) ∉ longLine ++ utf8 "eth0: 5 6 7 8" := by
    rw [List.mem_append, not_or]
    exact ⟨not_mem_longLine 13 (by decide), by decide⟩
  have h13b : (13 : Nat) ∉ longLine := not_mem_longLine 13 (by decide)
  have e0 : utf8 "eth0: 5 6 7 8\n" = utf8 "eth0: 5 6 7 8" ++ 10 :: [] := by decide
  have hraw : rawLines longLaterRowInput =
      rawLines (exampleHead ++ utf8 "eth0: 1 2 3 4\n") ++
        [longLine ++ utf8 "eth0: 5 6 7 8"] := by
    rw [longLaterRowInput, rawLines_append _ _ (by decide), e0, ← List.append_assoc,
      rawLines_line _ _ h10]
    rfl
  have e1 : (rawLines (exampleHead ++ utf8 "eth0: 1 2 3 4\n")).map dropCR =
      [utf8 "Inter-| Receive | Transmit", utf8 " face |bytes packets|bytes packets",
       utf8 "eth0: 1 2 3 4"] := by decide
  have hscan : ScanLines longLaterRowInput =
      some (utf8 "Inter-| Receive | Transmit") ::
        some (utf8 " face |bytes packets|bytes packets") ::
          [some (utf8 "eth0: 1 2 3 4"), none, some longLine] := by
    rw [ScanLines, hraw, scanResults_append_short _ _ (by decide),
      scanResults_long _ _ (by simp [longLine_length]),
      List.take_append_of_le_length (by rw [longLine_length]),
      List.take_of_length_le (by rw [longLine_length]), dropCR_of_not_mem _ h13b, e1]
    rfl
  obtain ⟨hh, hb⟩ := scanned_twice _ _ _ _ hscan
  have hf : Fields (longLine ++ utf8 "eth0: 5 6 7 8") =
      [utf8 "eth0:", utf8 "5", utf8 "6", utf8 "7", utf8 "8"] := by
    rw [longLine, Fields_spaces]
    decide
  refine ⟨?_, ?_, by decide, hf, by decide, ?_, ?_⟩
  · rw [inputLines, hraw, List.map_append, e1, List.map_cons, dropCR_of_not_mem _ h13]
    rfl
  · rw [fieldHeader, hh]
    decide
  · rw [devName, hf]
    decide
  · rw [parseNetStats_congr longLaterRowInput (exampleHead ++ utf8 "eth0: 1 2 3 4\n")
      (by rw [hh]; decide) (by rw [hb]; decide)]
    decide

/-- C19, as amended: on success on an input whose lines are all shorter than
the buffer of the scanner (so that the body lines are the lines after the
second), for a body line that no later line repeats the device name of
(earlier lines may carry it), the result holds under that name, in both
directions, the maps `parseNetDevLine` returns for this line, and the name
occurs once among the devices of each direction. -/
theorem parseNetStats_last_line_wins (r : GoString) (ns : NetStats)
    (hshort : ShortLines r)
    (hok : parseNetStats r = .ok ns)
    (pre : List GoString) (l : GoString) (post : List GoString)
    (hb : bodyLines r = pre ++ l :: post)
    (hlast : ∀ l1 ∈ post, devName l1 ≠ devName l) :
    bodyLines r = (inputLines r).drop 2 ∧
    ∃ R T receive transmit,
      mapGet ns receiveKey = some R ∧ mapGet ns transmitKey = some T ∧
      parseNetDevLine (((Fields l).take ((fieldHeader r).length + 1)).drop 1) (fieldHeader r) =
        .ok receive ∧
      parseNetDevLine ((Fields l).drop ((fieldHeader r).length + 1)) (fieldHeader r) =
        .ok transmit ∧
      mapGet R (devName l) = some receive ∧ mapGet T (devName l) = some transmit ∧
      devName l ∈ mapKeys R ∧ devName l ∈ mapKeys T ∧
      (mapKeys R).Nodup ∧ (mapKeys T).Nodup := by
  have hne := transmitKey_ne_receiveKey
  obtain ⟨-, hrows, hns⟩ := parseNetStats_ok r ns hok
  subst hns
  have hl : (Fields l).length = 2 * (fieldHeader r).length + 1 :=
    hrows l (by rw [hb]; simp)
  have hmem : ∀ row : GoString → DevStats,
      devName l ∈ mapKeys (storeRows row (bodyLines r) []) := by
    intro row
    rw [mem_mapKeys_storeRows]
    exact Or.inr ⟨l, by rw [hb]; simp, rfl⟩
  refine ⟨bodyLines_eq r hshort, storeRows (rowReceive (fieldHeader r)) (bodyLines r) [],
    storeRows (rowTransmit (fieldHeader r)) (bodyLines r) [],
    rowReceive (fieldHeader r) l, rowTransmit (fieldHeader r) l,
    by simp [mapGet, hne], by simp [mapGet], ?_, ?_, ?_, ?_, hmem _, hmem _,
    nodup_mapKeys_storeRows _ _ [] (by simp [mapKeys]),
    nodup_mapKeys_storeRows _ _ [] (by simp [mapKeys])⟩
  · exact parseNetDevLine_eq _ _ (by simp)
  · rw [parseNetDevLine_eq _ _ (by simp; omega), rowTransmit, List.take_length]
  · rw [hb, mapGet_storeRows_last _ _ _ _ _ hlast]
  · rw [hb, mapGet_storeRows_last _ _ _ _ _ hlast]

/-- C19, an instance: the two rows of `eth0` in `duplicateDeviceInput`; the
result holds the values 5 6 7 8 of the second. -/
theorem parseNetStats_last_line_wins_example :
    ShortLines duplicateDeviceInput ∧
    parseNetStats duplicateDeviceInput =
      .ok [(transmitKey, [(utf8 "eth0", [(utf8 "bytes", utf8 "7"), (utf8 "packets", utf8 "8")])]),
           (receiveKey, [(utf8 "eth0", [(utf8 "bytes", utf8 "5"), (utf8 "packets", utf8 "6")])])] ∧
    bodyLines duplicateDeviceInput = [utf8 "eth0: 1 2 3 4"] ++ utf8 "eth0: 5 6 7 8" :: [] ∧
    bodyLines duplicateDeviceInput = (inputLines duplicateDeviceInput).drop 2 ∧
    ∃ R T receive transmit,
      mapGet [(transmitKey, [(utf8 "eth0", [(utf8 "bytes", utf8 "7"), (utf8 "packets", utf8 "8")])]),
           (receiveKey, [(utf8 "eth0", [(utf8 "bytes", utf8 "5"), (utf8 "packets", utf8 "6")])])]
        receiveKey = some R ∧
      mapGet [(transmitKey, [(utf8 "eth0", [(utf8 "bytes", utf8 "7"), (utf8 "packets", utf8 "8")])]),
           (receiveKey, [(utf8 "eth0", [(utf8 "bytes", utf8 "5"), (utf8 "packets", utf8 "6")])])]
        transmitKey = some T ∧
      parseNetDevLine (((Fields (utf8 "eth0: 5 6 7 8")).take
        ((fieldHeader duplicateDeviceInput).length + 1)).drop 1)
        (fieldHeader duplicateDeviceInput) = .ok receive ∧
      parseNetDevLine ((Fields (utf8 "eth0: 5 6 7 8")).drop
        ((fieldHeader duplicateDeviceInput).length + 1))
        (fieldHeader duplicateDeviceInput) = .ok transmit ∧
      mapGet R (devName (utf8 "eth0: 5 6 7 8")) = some receive ∧
      mapGet T (devName (utf8 "eth0: 5 6 7 8")) = some transmit ∧
      devName (utf8 "eth0: 5 6 7 8") ∈ mapKeys R ∧
      devName (utf8 "eth0: 5 6 7 8") ∈ mapKeys T ∧
      (mapKeys R).Nodup ∧ (mapKeys T).Nodup :=
  ⟨by decide, by decide, by decide,
    parseNetStats_last_line_wins duplicateDeviceInput _ (by decide) (by decide)
      [utf8 "eth0: 1 2 3 4"] (utf8 "eth0: 5 6 7 8") [] (by decide) (by simp)⟩

/-- C20, as stated, fails on `noColonTwiceInput`: the first body line has five
tokens and its first token `eth0` does not end in a colon; the line is
accepted, and the result holds under `eth` (the token without its last byte)
not the values 1 2 3 4 of this line but the values 5 6 7 8 of the later line of
the device `eth`. -/
theorem parseNetStats_no_colon_overwritten :
    inputLines noColonTwiceInput =
      [utf8 "Inter-| Receive | Transmit", utf8 " face |bytes packets|bytes packets",
       utf8 "eth0 1 2 3 4", utf8 "eth: 5 6 7 8"] ∧
    fieldHeader noColonTwiceInput = [utf8 "bytes", utf8 "packets"] ∧
    Fields (utf8 "eth0 1 2 3 4") = [utf8 "eth0", utf8 "1", utf8 "2", utf8 "3", utf8 "4"] ∧
    (utf8 "eth0").dropLast = utf8 "eth" ∧
    parseNetStats noColonTwiceInput =
      .ok [(transmitKey, [(utf8 "eth", [(utf8 "bytes", utf8 "7"), (utf8 "packets", utf8 "8")])]),
           (receiveKey, [(utf8 "eth", [(utf8 "bytes", utf8 "5"), (utf8 "packets", utf8 "6")])])] := by
  decide

/-- C20, as amended: the device name is token 0 without its last byte, whatever
that byte is. When every line of the input is shorter than the buffer of the
scanner (so that the header text is the second line and the body lines are the
lines after it), the header has three segments and every body line has 2N+1
tokens, `parseNetStats` succeeds, and a line with first token `p0` (ending in a
colon or not) has its maps stored under `p0` without its last byte: that name
is a device of both directions, and the result holds the maps of the line under
it unless a later line has the same device name. -/
theorem parseNetStats_drops_last_byte (r : GoString)
    (hshort : ShortLines r)
    (hseg : (Split (headerText r) 124).length = 3)
    (hrows : ∀ l ∈ bodyLines r, (Fields l).length = 2 * (fieldHeader r).length + 1)
    (pre : List GoString) (l : GoString) (post : List GoString)
    (hb : bodyLines r = pre ++ l :: post)
    (p0 : GoString) (rest : List GoString) (htok : Fields l = p0 :: rest) :
    headerText r = (inputLines r).getD 1 [] ∧ bodyLines r = (inputLines r).drop 2 ∧
    devName l = p0.dropLast ∧
    ∃ ns R T receive transmit,
      parseNetStats r = .ok ns ∧
      mapGet ns receiveKey = some R ∧ mapGet ns transmitKey = some T ∧
      p0.dropLast ∈ mapKeys R ∧ p0.dropLast ∈ mapKeys T ∧
      parseNetDevLine (((Fields l).take ((fieldHeader r).length + 1)).drop 1) (fieldHeader r) =
        .ok receive ∧
      parseNetDevLine ((Fields l).drop ((fieldHeader r).length + 1)) (fieldHeader r) =
        .ok transmit ∧
      ((∀ l1 ∈ post, devName l1 ≠ p0.dropLast) →
        mapGet R p0.dropLast = some receive ∧ mapGet T p0.dropLast = some transmit) := by
  have hne := transmitKey_ne_receiveKey
  have hd : devName l = p0.dropLast := by
    simp [devName, htok, List.dropLast_eq_take]
  have hfind : (bodyLines r).find? (badRow (fieldHeader r)) = none := by
    rw [List.find?_eq_none]
    intro l1 hl1
    simp [badRow, hrows l1 hl1]
  have hl : (Fields l).length = 2 * (fieldHeader r).length + 1 :=
    hrows l (by rw [hb]; simp)
  have hmem : ∀ row : GoString → DevStats,
      p0.dropLast ∈ mapKeys (storeRows row (bodyLines r) []) := by
    intro row
    rw [mem_mapKeys_storeRows]
    exact Or.inr ⟨l, by rw [hb]; simp, hd⟩
  refine ⟨headerText_eq r hshort, bodyLines_eq r hshort, hd, _,
    storeRows (rowReceive (fieldHeader r)) (bodyLines r) [],
    storeRows (rowTransmit (fieldHeader r)) (bodyLines r) [],
    rowReceive (fieldHeader r) l, rowTransmit (fieldHeader r) l,
    by rw [parseNetStats_eq, if_neg (not_not.mpr hseg), hfind],
    by simp [mapGet, hne], by simp [mapGet], hmem _, hmem _, ?_, ?_, ?_⟩
  · exact parseNetDevLine_eq _ _ (by simp)
  · rw [parseNetDevLine_eq _ _ (by simp; omega), rowTransmit, List.take_length]
  · intro hlast
    rw [← hd] at hlast ⊢
    constructor
    · rw [hb, mapGet_storeRows_last _ _ _ _ _ hlast]
    · rw [hb, mapGet_storeRows_last _ _ _ _ _ hlast]

/-- C20, an instance: the row of `noColonInput` starts with the token `eth0`
and its values are stored under `eth`. -/
theorem parseNetStats_drops_last_byte_example :
    ShortLines noColonInput ∧
    (Split (headerText noColonInput) 124).length = 3 ∧
    (∀ l ∈ bodyLines noColonInput,
      (Fields l).length = 2 * (fieldHeader noColonInput).length + 1) ∧
    bodyLines noColonInput = [] ++ utf8 "eth0 100 1 200 2" :: [] ∧
    Fields (utf8 "eth0 100 1 200 2") =
      utf8 "eth0" :: [utf8 "100", utf8 "1", utf8 "200", utf8 "2"] ∧
    (utf8 "eth0").dropLast = utf8 "eth" ∧
    parseNetStats noColonInput =
      .ok [(transmitKey, [(utf8 "eth", [(utf8 "bytes", utf8 "200"), (utf8 "packets", utf8 "2")])]),
           (receiveKey, [(utf8 "eth", [(utf8 "bytes", utf8 "100"), (utf8 "packets", utf8 "1")])])] ∧
    headerText noColonInput = (inputLines noColonInput).getD 1 [] ∧
    bodyLines noColonInput = (inputLines noColonInput).drop 2 ∧
    devName (utf8 "eth0 100 1 200 2") = (utf8 "eth0").dropLast ∧
    ∃ ns R T receive transmit,
      parseNetStats noColonInput = .ok ns ∧
      mapGet ns receiveKey = some R ∧ mapGet ns transmitKey = some T ∧
      (utf8 "eth0").dropLast ∈ mapKeys R ∧ (utf8 "eth0").dropLast ∈ mapKeys T ∧
      parseNetDevLine (((Fields (utf8 "eth0 100 1 200 2")).take
        ((fieldHeader noColonInput).length + 1)).drop 1) (fieldHeader noColonInput) =
        .ok receive ∧
      parseNetDevLine ((Fields (utf8 "eth0 100 1 200 2")).drop
        ((fieldHeader noColonInput).length + 1)) (fieldHeader noColonInput) = .ok transmit ∧
      ((∀ l1 ∈ ([] : List GoString), devName l1 ≠ (utf8 "eth0").dropLast) →
        mapGet R (utf8 "eth0").dropLast = some receive ∧
        mapGet T (utf8 "eth0").dropLast = some transmit) :=
  ⟨by decide, by decide, by decide, by decide, by decide, by decide, by decide,
    parseNetStats_drops_last_byte noColonInput (by decide) (by decide) (by decide) []
      (utf8 "eth0 100 1 200 2") [] (by decide) (utf8 "eth0")
      [utf8 "100", utf8 "1", utf8 "200", utf8 "2"] (by decide)⟩

/-- C15, as amended: the registration of "netdev" at initialization is a plain
map assignment. For every registry it ends without an error; afterwards
"netdev" is bound to `NewNetDevCollector`, whatever was registered under that
name before, and every other name is bound as before. -/
theorem init_registers_netdev {Factory : Type} (newNetDevCollector : Factory)
    (Factories : GoMap GoString Factory) :
    ∃ Factories1, init newNetDevCollector Factories = .ok Factories1 ∧
      mapGet Factories1 (utf8 "netdev") = some newNetDevCollector ∧
      ∀ name, name ≠ utf8 "netdev" → mapGet Factories1 name = mapGet Factories name :=
  ⟨_, rfl, mapGet_mapSet_self _ _ _, fun _ h => mapGet_mapSet_ne _ _ h⟩

/-- C15, as stated, fails: with a constructor `NewOtherCollector` already
registered under "netdev" (constructors being named by strings here), `init`
ends without an error and the registry holds `NewNetDevCollector` under
"netdev" in its place. -/
theorem init_overwrites_netdev :
    mapGet [(utf8 "netdev", utf8 "NewOtherCollector")] (utf8 "netdev") =
      some (utf8 "NewOtherCollector") ∧
    init (utf8 "NewNetDevCollector") [(utf8 "netdev", utf8 "NewOtherCollector")] =
      .ok [(utf8 "netdev", utf8 "NewNetDevCollector")] ∧
    utf8 "NewNetDevCollector" ≠ utf8 "NewOtherCollector" := by
  decide

/-- C15, an instance: a registry holding the constructor of another collector
under another name. -/
theorem init_registers_netdev_example :
    ∃ Factories1,
      init (utf8 "NewNetDevCollector") [(utf8 "loadavg", utf8 "NewLoadavgCollector")] =
        .ok Factories1 ∧
      mapGet Factories1 (utf8 "netdev") = some (utf8 "NewNetDevCollector") ∧
      ∀ name, name ≠ utf8 "netdev" →
        mapGet Factories1 name =
          mapGet [(utf8 "loadavg", utf8 "NewLoadavgCollector")] name :=
  init_registers_netdev (utf8 "NewNetDevCollector")
    [(utf8 "loadavg", utf8 "NewLoadavgCollector")]

theorem mem_of_mapGet {K V : Type} [DecidableEq K] (m : GoMap K V) (k : K) (v : V)
    (h : mapGet m k = some v) : (k, v) ∈ m := by
  induction m with
  | nil => simp [mapGet] at h
  | cons e m ih =>
    obtain ⟨k1, v1⟩ := e
    by_cases hk : k1 = k
    · subst hk
      simp [mapGet] at h
      simp [h]
    · simp [mapGet, hk] at h
      exact List.mem_cons_of_mem _ (ih h)

theorem sample_of_gaugeValue {F : Type} (c : Cache F) (key dev : GoString) (v : F)
    (h : gaugeValue c key dev = some v) :
    ∃ g, mapGet c key = some g ∧
      ({ opts := g.opts, labelNames := g.labelNames, labelValue := dev, value := v } :
        Sample F) ∈ collectAll c := by
  unfold gaugeValue at h
  cases hg : mapGet c key with
  | none => simp [hg] at h
  | some g =>
    rw [hg] at h
    refine ⟨g, rfl, ?_⟩
    rw [mem_collectAll]
    exact ⟨key, g, dev, v, mem_of_mapGet _ _ _ hg, mem_of_mapGet _ _ _ h, rfl⟩

section FrameClaim

variable {F : Type} (parseFloat : GoString → F × Option GoString) (Namespace : GoString)

/-- C11: a call of `Update`, successful or failed, leaves unchanged the value
of every gauge (key, device) for which the statistics of the call have no
(direction, device, field) with direction + "_" + field = key. In particular,
when a second `Update`, on a source that lacks a device, returns nil, every
value the cache held for the device after the first call (whatever the outcome
of the first call) is still in the cache and among the metrics sent; and when
the first call returned nil too, these are the values parsed from the raw
values of the device in its source. -/
theorem Update_keeps_unobserved (ρ : RangeOrder F) (hρ : ρ.Valid)
    (file : Except GoString GoString) (cache : Cache F) :
    (∀ key dev,
      (∀ ns, getNetStats file = .ok ns →
        ∀ q ∈ quadruples ns, ¬ (q.direction ++ utf8 "_" ++ q.t = key ∧ q.dev = dev)) →
      gaugeValue (Update parseFloat Namespace ρ file cache).netStatsMetrics key dev =
        gaugeValue cache key dev) ∧
    (∀ (ρ2 : RangeOrder F) (content2 : GoString) (ns2 : NetStats) (dev : GoString),
      ρ2.Valid → parseNetStats content2 = .ok ns2 →
      (Update parseFloat Namespace ρ2 (.ok content2)
        (Update parseFloat Namespace ρ file cache).netStatsMetrics).ret = .ok () →
      (∀ q ∈ quadruples ns2, q.dev ≠ dev) →
      ∀ key v,
        gaugeValue (Update parseFloat Namespace ρ file cache).netStatsMetrics key dev =
          some v →
        gaugeValue (Update parseFloat Namespace ρ2 (.ok content2)
          (Update parseFloat Namespace ρ file cache).netStatsMetrics).netStatsMetrics
          key dev = some v ∧
        ∃ g, mapGet (Update parseFloat Namespace ρ2 (.ok content2)
            (Update parseFloat Namespace ρ file cache).netStatsMetrics).netStatsMetrics
            key = some g ∧
          ({ opts := g.opts, labelNames := g.labelNames, labelValue := dev, value := v } :
            Sample F) ∈
            (Update parseFloat Namespace ρ2 (.ok content2)
              (Update parseFloat Namespace ρ file cache).netStatsMetrics).sent) ∧
    (∀ (ρ2 : RangeOrder F) (content content2 : GoString) (ns ns2 : NetStats) (dev : GoString),
      ρ2.Valid → file = .ok content →
      parseNetStats content = .ok ns →
      (Update parseFloat Namespace ρ file cache).ret = .ok () →
      parseNetStats content2 = .ok ns2 →
      (Update parseFloat Namespace ρ2 (.ok content2)
        (Update parseFloat Namespace ρ file cache).netStatsMetrics).ret = .ok () →
      (∀ q ∈ quadruples ns2, q.dev ≠ dev) →
      ∀ q ∈ quadruples ns, q.dev = dev →
        gaugeValue (Update parseFloat Namespace ρ2 (.ok content2)
          (Update parseFloat Namespace ρ file cache).netStatsMetrics).netStatsMetrics
          (q.direction ++ utf8 "_" ++ q.t) dev = some (parseFloat q.value).1 ∧
        ∃ g, mapGet (Update parseFloat Namespace ρ2 (.ok content2)
            (Update parseFloat Namespace ρ file cache).netStatsMetrics).netStatsMetrics
            (q.direction ++ utf8 "_" ++ q.t) = some g ∧
          ({ opts := g.opts, labelNames := g.labelNames, labelValue := dev,
             value := (parseFloat q.value).1 } : Sample F) ∈
            (Update parseFloat Namespace ρ2 (.ok content2)
              (Update parseFloat Namespace ρ file cache).netStatsMetrics).sent) := by
  have frame : ∀ (ρ0 : RangeOrder F), ρ0.Valid → ∀ (file0 : Except GoString GoString)
      (c : Cache F) (key dev : GoString),
      (∀ ns, getNetStats file0 = .ok ns →
        ∀ q ∈ quadruples ns, ¬ (q.direction ++ utf8 "_" ++ q.t = key ∧ q.dev = dev)) →
      gaugeValue (Update parseFloat Namespace ρ0 file0 c).netStatsMetrics key dev =
        gaugeValue c key dev := by
    intro ρ0 hρ0 file0 c key dev habs
    cases hg : getNetStats file0 with
    | err e => simp [Update, hg]
    | panic => simp [Update, hg]
    | ok ns =>
      rw [(Update_of_stats parseFloat Namespace ρ0 file0 ns c hg).1]
      apply gaugeValue_updateLoop_frame
      intro hmem
      obtain ⟨q, hq, hc⟩ := List.mem_map.mp hmem
      have hq1 := (hρ0.1 ns).mem_iff.mp hq
      simp only [cellOf, Prod.mk.injEq] at hc
      exact habs ns hg q hq1 ⟨hc.1, hc.2⟩
  have kept : ∀ (ρ2 : RangeOrder F) (content2 : GoString) (ns2 : NetStats) (dev : GoString),
      ρ2.Valid → parseNetStats content2 = .ok ns2 →
      (Update parseFloat Namespace ρ2 (.ok content2)
        (Update parseFloat Namespace ρ file cache).netStatsMetrics).ret = .ok () →
      (∀ q ∈ quadruples ns2, q.dev ≠ dev) →
      ∀ key v,
        gaugeValue (Update parseFloat Namespace ρ file cache).netStatsMetrics key dev =
          some v →
        gaugeValue (Update parseFloat Namespace ρ2 (.ok content2)
          (Update parseFloat Namespace ρ file cache).netStatsMetrics).netStatsMetrics
          key dev = some v ∧
        ∃ g, mapGet (Update parseFloat Namespace ρ2 (.ok content2)
            (Update parseFloat Namespace ρ file cache).netStatsMetrics).netStatsMetrics
            key = some g ∧
          ({ opts := g.opts, labelNames := g.labelNames, labelValue := dev, value := v } :
            Sample F) ∈
            (Update parseFloat Namespace ρ2 (.ok content2)
              (Update parseFloat Namespace ρ file cache).netStatsMetrics).sent := by
    intro ρ2 content2 ns2 dev hρ2 hparse2 hret2 hdev key v h1
    have hg2 : getNetStats (.ok content2) = .ok ns2 := hparse2
    obtain ⟨hc2, hr2, hs2⟩ := Update_of_stats parseFloat Namespace ρ2 _ ns2
      (Update parseFloat Namespace ρ file cache).netStatsMetrics hg2
    have hok2 : (updateLoop parseFloat Namespace (ρ2.stats ns2)
        (Update parseFloat Namespace ρ file cache).netStatsMetrics).2 = .ok () := by
      rw [← hr2, hret2]
    have h2 : gaugeValue (Update parseFloat Namespace ρ2 (.ok content2)
        (Update parseFloat Namespace ρ file cache).netStatsMetrics).netStatsMetrics
        key dev = some v := by
      rw [frame ρ2 hρ2 (.ok content2) _ _ dev, h1]
      intro ns3 hns3 q3 hq3 hc
      rw [hg2] at hns3
      cases hns3
      exact hdev q3 hq3 hc.2
    refine ⟨h2, ?_⟩
    obtain ⟨g, hg, hmem⟩ := sample_of_gaugeValue _ _ _ _ h2
    refine ⟨g, hg, ?_⟩
    rw [hs2, hok2]
    simp only
    rw [(hρ2.2 _).mem_iff, ← hc2]
    exact hmem
  refine ⟨frame ρ hρ file cache, kept, ?_⟩
  intro ρ2 content content2 ns ns2 dev hρ2 hfile hparse hret1 hparse2 hret2 hdev q hq hqd
  subst hfile
  have hg1 : getNetStats (.ok content) = .ok ns := hparse
  obtain ⟨hc1, hr1, -⟩ := Update_of_stats parseFloat Namespace ρ _ ns cache hg1
  have hv1 : ∀ q ∈ ρ.stats ns, (parseFloat q.value).2 = none ∧ ValidString q.dev = true :=
    updateLoop_ok_valid parseFloat Namespace (ρ.stats ns) cache (by rw [← hr1, hret1])
  have hn1 : ((ρ.stats ns).map cellOf).Nodup :=
    (((hρ.1 ns).map cellOf).nodup_iff).mpr (nodup_cells_parsed content ns hparse)
  have h1 : gaugeValue (Update parseFloat Namespace ρ (.ok content) cache).netStatsMetrics
      (q.direction ++ utf8 "_" ++ q.t) dev = some (parseFloat q.value).1 := by
    rw [hc1, ← hqd]
    exact gaugeValue_updateLoop_visited parseFloat Namespace (ρ.stats ns) cache hv1 hn1 q
      ((hρ.1 ns).mem_iff.mpr hq)
  exact kept ρ2 content2 ns2 dev hρ2 hparse2 hret2 hdev _ _ h1

end FrameClaim

/-- C11, three instances. The call `exampleUpdate` on `exampleInput` leaves the
value of `wlan0` as it was. A call on `badValueInput` fails at the value `abc`
after it has set `transmit_bytes` of `eth0` to 200, and after a second call, on
`loOnlyInput`, which lacks `eth0` and returns nil, that value is still in the
cache and is sent. After the call `exampleUpdate`, which returns nil, and a
second call on `loOnlyInput`, the values of `eth0` parsed by the first call are
still in the cache and are sent. -/
theorem Update_keeps_unobserved_example :
    (storageOrder Nat).Valid ∧
    gaugeValue exampleUpdate.netStatsMetrics (utf8 "receive_bytes") (utf8 "wlan0") =
      gaugeValue exampleCache (utf8 "receive_bytes") (utf8 "wlan0") ∧
    ((reverseOrder Nat).Valid ∧ parseNetStats loOnlyInput = .ok loOnlyStats ∧
      (Update exampleParseFloat exampleNamespace (storageOrder Nat) (.ok badValueInput)
        exampleCache).ret = .err (utf8 "Invalid value abc in netstats: invalid number") ∧
      (Update exampleParseFloat exampleNamespace (reverseOrder Nat) (.ok loOnlyInput)
        (Update exampleParseFloat exampleNamespace (storageOrder Nat) (.ok badValueInput)
          exampleCache).netStatsMetrics).ret = .ok () ∧
      (∀ q ∈ quadruples loOnlyStats, q.dev ≠ utf8 "eth0") ∧
      gaugeValue (Update exampleParseFloat exampleNamespace (storageOrder Nat)
        (.ok badValueInput) exampleCache).netStatsMetrics (utf8 "transmit_bytes")
        (utf8 "eth0") = some 200) ∧
    (gaugeValue (Update exampleParseFloat exampleNamespace (reverseOrder Nat) (.ok loOnlyInput)
        (Update exampleParseFloat exampleNamespace (storageOrder Nat) (.ok badValueInput)
          exampleCache).netStatsMetrics).netStatsMetrics (utf8 "transmit_bytes")
        (utf8 "eth0") = some 200 ∧
      ∃ g, mapGet (Update exampleParseFloat exampleNamespace (reverseOrder Nat)
          (.ok loOnlyInput)
          (Update exampleParseFloat exampleNamespace (storageOrder Nat) (.ok badValueInput)
            exampleCache).netStatsMetrics).netStatsMetrics (utf8 "transmit_bytes") = some g ∧
        ({ opts := g.opts, labelNames := g.labelNames, labelValue := utf8 "eth0",
           value := 200 } : Sample Nat) ∈
          (Update exampleParseFloat exampleNamespace (reverseOrder Nat) (.ok loOnlyInput)
            (Update exampleParseFloat exampleNamespace (storageOrder Nat) (.ok badValueInput)
              exampleCache).netStatsMetrics).sent) ∧
    (parseNetStats exampleInput = .ok exampleStats ∧
      exampleUpdate.ret = .ok () ∧
      (Update exampleParseFloat exampleNamespace (reverseOrder Nat) (.ok loOnlyInput)
        exampleUpdate.netStatsMetrics).ret = .ok ()) ∧
    (∀ q ∈ quadruples exampleStats, q.dev = utf8 "eth0" →
        gaugeValue (Update exampleParseFloat exampleNamespace (reverseOrder Nat)
          (.ok loOnlyInput) exampleUpdate.netStatsMetrics).netStatsMetrics
          (q.direction ++ utf8 "_" ++ q.t) (utf8 "eth0") = some (exampleParseFloat q.value).1 ∧
        ∃ g, mapGet (Update exampleParseFloat exampleNamespace (reverseOrder Nat)
            (.ok loOnlyInput) exampleUpdate.netStatsMetrics).netStatsMetrics
            (q.direction ++ utf8 "_" ++ q.t) = some g ∧
          ({ opts := g.opts, labelNames := g.labelNames, labelValue := utf8 "eth0",
             value := (exampleParseFloat q.value).1 } : Sample Nat) ∈
            (Update exampleParseFloat exampleNamespace (reverseOrder Nat) (.ok loOnlyInput)
              exampleUpdate.netStatsMetrics).sent) :=
  ⟨storageOrder_valid Nat,
    (Update_keeps_unobserved exampleParseFloat exampleNamespace (storageOrder Nat)
      (storageOrder_valid Nat) (.ok exampleInput) exampleCache).1 (utf8 "receive_bytes")
      (utf8 "wlan0") (by
        intro ns hns
        have e : getNetStats (.ok exampleInput) = .ok exampleStats := by decide
        rw [e] at hns
        cases hns
        decide),
    ⟨reverseOrder_valid Nat, by decide, by decide, by decide, by decide, by decide⟩,
    (Update_keeps_unobserved exampleParseFloat exampleNamespace (storageOrder Nat)
      (storageOrder_valid Nat) (.ok badValueInput) exampleCache).2.1 (reverseOrder Nat)
      loOnlyInput loOnlyStats (utf8 "eth0") (reverseOrder_valid Nat) (by decide) (by decide)
      (by decide) (utf8 "transmit_bytes") 200 (by decide),
    ⟨by decide, by decide, by decide⟩,
    (Update_keeps_unobserved exampleParseFloat exampleNamespace (storageOrder Nat)
      (storageOrder_valid Nat) (.ok exampleInput) exampleCache).2.2 (reverseOrder Nat)
      exampleInput loOnlyInput exampleStats loOnlyStats (utf8 "eth0") (reverseOrder_valid Nat)
      rfl (by decide) (by decide) (by decide) (by decide) (by decide)⟩

section GaugeLemmas

variable {F : Type} (parseFloat : GoString → F × Option GoString) (Namespace : GoString)

theorem mapGet_ensureGauge_of_some (q : Quad) (c : Cache F) (k : GoString) (g : GaugeVec F)
    (h : mapGet c k = some g) : mapGet (ensureGauge Namespace q c) k = some g := by
  by_cases hk : k = metricKey q.direction q.t
  · subst hk
    simp [ensureGauge, h]
  · rw [mapGet_ensureGauge_ne Namespace q c k hk, h]

theorem mapGet_ensureGauge_of_none (q : Quad) (c : Cache F)
    (h : mapGet c (metricKey q.direction q.t) = none) :
    mapGet (ensureGauge Namespace q c) (metricKey q.direction q.t) =
      some (NewGaugeVec (gaugeOptsOf Namespace q) [utf8 "device"]) := by
  simp only [ensureGauge, h]
  exact mapGet_mapSet_self _ _ _

theorem updateLoop_keeps_gauge (visits : List Quad) :
    ∀ (c : Cache F) (key : GoString) (g : GaugeVec F), mapGet c key = some g →
      ∃ g1, mapGet (updateLoop parseFloat Namespace visits c).1 key = some g1 ∧
        g1.opts = g.opts ∧ g1.labelNames = g.labelNames := by
  induction visits with
  | nil => intro c key g h; exact ⟨g, h, rfl, rfl⟩
  | cons q rest ih =>
    intro c key g h
    have he := mapGet_ensureGauge_of_some Namespace q c key g h
    rcases updateLoop_cases parseFloat Namespace q rest c with
      ⟨e, -, hstep⟩ | ⟨-, -, hstep⟩ | ⟨-, -, g0, hg0, -, hstep⟩
    · rw [hstep]
      exact ⟨g, he, rfl, rfl⟩
    · rw [hstep]
      exact ⟨g, he, rfl, rfl⟩
    · rw [hstep]
      by_cases hk : key = metricKey q.direction q.t
      · subst hk
        rw [he] at hg0
        cases hg0
        obtain ⟨g1, h1, h2, h3⟩ := ih
          (mapSet (ensureGauge Namespace q c) (metricKey q.direction q.t)
            (g.setValue q.dev (parseFloat q.value).1)) (metricKey q.direction q.t)
          (g.setValue q.dev (parseFloat q.value).1) (mapGet_mapSet_self _ _ _)
        exact ⟨g1, h1, h2, h3⟩
      · exact ih _ key g (by rw [mapGet_mapSet_ne _ _ hk, he])

theorem updateLoop_new_gauge (visits : List Quad) :
    ∀ (c : Cache F) (key : GoString) (g : GaugeVec F), mapGet c key = none →
      mapGet (updateLoop parseFloat Namespace visits c).1 key = some g →
      ∃ q ∈ visits, key = metricKey q.direction q.t ∧ g.opts = gaugeOptsOf Namespace q ∧
        g.labelNames = [utf8 "device"] := by
  induction visits with
  | nil =>
    intro c key g h1 h2
    rw [updateLoop, h1] at h2
    cases h2
  | cons q rest ih =>
    intro c key g h1 h2
    by_cases hk : key = metricKey q.direction q.t
    · subst hk
      have he := mapGet_ensureGauge_of_none Namespace q c h1
      rcases updateLoop_cases parseFloat Namespace q rest c with
        ⟨e, -, hstep⟩ | ⟨-, -, hstep⟩ | ⟨-, -, g0, hg0, -, hstep⟩
      · rw [hstep, he] at h2
        cases h2
        exact ⟨q, by simp, rfl, rfl, rfl⟩
      · rw [hstep, he] at h2
        cases h2
        exact ⟨q, by simp, rfl, rfl, rfl⟩
      · rw [he] at hg0
        cases hg0
        rw [hstep] at h2
        obtain ⟨g1, h3, h4, h5⟩ := updateLoop_keeps_gauge parseFloat Namespace rest
          (mapSet (ensureGauge Namespace q c) (metricKey q.direction q.t)
            ((NewGaugeVec (gaugeOptsOf Namespace q) [utf8 "device"]).setValue q.dev
              (parseFloat q.value).1)) (metricKey q.direction q.t) _
          (mapGet_mapSet_self _ _ _)
        rw [h3] at h2
        cases h2
        exact ⟨q, by simp, rfl, h4, h5⟩
    · have he : mapGet (ensureGauge Namespace q c) key = none := by
        rw [mapGet_ensureGauge_ne Namespace q c key hk, h1]
      rcases updateLoop_cases parseFloat Namespace q rest c with
        ⟨e, -, hstep⟩ | ⟨-, -, hstep⟩ | ⟨-, -, g0, hg0, -, hstep⟩
      · rw [hstep, he] at h2
        cases h2
      · rw [hstep, he] at h2
        cases h2
      · rw [hstep] at h2
        obtain ⟨q1, hq1, h3⟩ := ih _ key g (by rw [mapGet_mapSet_ne _ _ hk, he]) h2
        exact ⟨q1, by simp [hq1], h3⟩

theorem updateLoop_visited_present (visits : List Quad) :
    ∀ c : Cache F,
      (∀ q ∈ visits, (parseFloat q.value).2 = none ∧ ValidString q.dev = true) →
      ∀ q ∈ visits,
        ∃ g, mapGet (updateLoop parseFloat Namespace visits c).1 (metricKey q.direction q.t) =
          some g := by
  induction visits with
  | nil => intro c _ q hq; simp at hq
  | cons q0 rest ih =>
    intro c h q hq
    obtain ⟨hp, hv⟩ := h q0 (by simp)
    obtain ⟨g0, hg0, -, hstep⟩ := updateLoop_step parseFloat Namespace q0 rest c hp hv
    rw [hstep]
    rcases List.mem_cons.mp hq with h1 | h1
    · subst h1
      obtain ⟨g1, h2, -, -⟩ := updateLoop_keeps_gauge parseFloat Namespace rest
        (mapSet (ensureGauge Namespace q c) (metricKey q.direction q.t)
          (g0.setValue q.dev (parseFloat q.value).1)) (metricKey q.direction q.t) _
        (mapGet_mapSet_self _ _ _)
      exact ⟨g1, h2⟩
    · exact ih _ (fun q1 hq1 => h q1 (by simp [hq1])) q h1

end GaugeLemmas

theorem direction_of_parsed (r : GoString) (ns : NetStats) (hok : parseNetStats r = .ok ns)
    (q : Quad) (hq : q ∈ quadruples ns) :
    q.direction = receiveKey ∨ q.direction = transmitKey := by
  obtain ⟨-, -, hns⟩ := parseNetStats_ok r ns hok
  subst hns
  simp only [quadruples, List.flatMap_cons, List.flatMap_nil, List.append_nil,
    List.mem_append, List.mem_flatMap, List.mem_map] at hq
  rcases hq with ⟨dv, -, s, -, rfl⟩ | ⟨dv, -, s, -, rfl⟩
  · exact Or.inr rfl
  · exact Or.inl rfl

theorem metricKey_eq_of_directions (d1 d2 f1 f2 : GoString)
    (h1 : d1 = receiveKey ∨ d1 = transmitKey) (h2 : d2 = receiveKey ∨ d2 = transmitKey)
    (h : metricKey d1 f1 = metricKey d2 f2) : d1 = d2 ∧ f1 = f2 := by
  rcases h1 with h1 | h1 <;> rcases h2 with h2 | h2 <;> subst h1 <;> subst h2
  · exact ⟨rfl, metricKey_injective receiveKey h⟩
  · exact absurd h.symm (metricKey_transmit_ne_receive f2 f1)
  · exact absurd h (metricKey_transmit_ne_receive f1 f2)
  · exact ⟨rfl, metricKey_injective transmitKey h⟩

theorem BuildFQName_gaugeOptsOf (Namespace : GoString) (q : Quad) (h : Namespace ≠ []) :
    BuildFQName (gaugeOptsOf Namespace q).Namespace (gaugeOptsOf Namespace q).Subsystem
      (gaugeOptsOf Namespace q).Name =
      Namespace ++ utf8 "_network_" ++ q.direction ++ utf8 "_" ++ q.t := by
  have e1 : netStatsSubsystem ≠ [] := by decide
  have e2 : metricKey q.direction q.t ≠ [] := by
    have e : utf8 "_" = [95] := by decide
    simp [metricKey, e]
  have e3 : utf8 "_" ++ netStatsSubsystem ++ utf8 "_" = utf8 "_network_" := by decide
  simp only [BuildFQName, gaugeOptsOf, if_neg e2, h, e1, ne_eq, not_false_eq_true, and_self,
    if_true]
  rw [← e3]
  simp [metricKey, List.append_assoc]

section NewGaugeClaim

variable {F : Type} (parseFloat : GoString → F × Option GoString) (Namespace : GoString)

/-- C14: a gauge vector that a call of `Update` adds to the cache, under a key
the cache did not hold, was made for a (direction, field) of the statistics
with direction + "_" + field the key: it has the namespace `Namespace`, the
subsystem "network", the name direction + "_" + field, the help string
field ++ " " ++ direction ++ " from /proc/net/dev." and the single label
"device", and its fully qualified name is
Namespace ++ "_network_" ++ direction ++ "_" ++ field when `Namespace` is not
empty. When the call succeeds, every (direction, field) of the statistics whose
key the cache did not hold has such a vector afterwards. -/
theorem Update_new_gauge (ρ : RangeOrder F) (hρ : ρ.Valid)
    (file : Except GoString GoString) (cache : Cache F) :
    (∀ key g, mapGet cache key = none →
      mapGet (Update parseFloat Namespace ρ file cache).netStatsMetrics key = some g →
      ∃ ns, getNetStats file = .ok ns ∧ ∃ q ∈ quadruples ns,
        key = q.direction ++ utf8 "_" ++ q.t ∧
        g.opts = { Namespace := Namespace, Subsystem := utf8 "network",
                   Name := q.direction ++ utf8 "_" ++ q.t,
                   Help := q.t ++ utf8 " " ++ q.direction ++ utf8 " from /proc/net/dev." } ∧
        g.labelNames = [utf8 "device"] ∧
        (Namespace ≠ [] →
          BuildFQName g.opts.Namespace g.opts.Subsystem g.opts.Name =
            Namespace ++ utf8 "_network_" ++ q.direction ++ utf8 "_" ++ q.t)) ∧
    (∀ ns, getNetStats file = .ok ns →
      (Update parseFloat Namespace ρ file cache).ret = .ok () →
      ∀ q ∈ quadruples ns, mapGet cache (q.direction ++ utf8 "_" ++ q.t) = none →
        ∃ g, mapGet (Update parseFloat Namespace ρ file cache).netStatsMetrics
            (q.direction ++ utf8 "_" ++ q.t) = some g ∧
          g.opts = { Namespace := Namespace, Subsystem := utf8 "network",
                     Name := q.direction ++ utf8 "_" ++ q.t,
                     Help := q.t ++ utf8 " " ++ q.direction ++ utf8 " from /proc/net/dev." } ∧
          g.labelNames = [utf8 "device"]) := by
  have hopts : ∀ q : Quad, gaugeOptsOf Namespace q =
      { Namespace := Namespace, Subsystem := utf8 "network",
        Name := q.direction ++ utf8 "_" ++ q.t,
        Help := q.t ++ utf8 " " ++ q.direction ++ utf8 " from /proc/net/dev." } := fun _ => rfl
  have part1 : ∀ key g, mapGet cache key = none →
      mapGet (Update parseFloat Namespace ρ file cache).netStatsMetrics key = some g →
      ∃ ns, getNetStats file = .ok ns ∧ ∃ q ∈ quadruples ns,
        key = metricKey q.direction q.t ∧ g.opts = gaugeOptsOf Namespace q ∧
        g.labelNames = [utf8 "device"] := by
    intro key g h1 h2
    cases hg : getNetStats file with
    | err e =>
      simp only [Update, hg] at h2
      rw [h1] at h2
      cases h2
    | panic =>
      simp only [Update, hg] at h2
      rw [h1] at h2
      cases h2
    | ok ns =>
      rw [(Update_of_stats parseFloat Namespace ρ file ns cache hg).1] at h2
      obtain ⟨q, hq, h3⟩ := updateLoop_new_gauge parseFloat Namespace _ cache key g h1 h2
      exact ⟨ns, rfl, q, (hρ.1 ns).mem_iff.mp hq, h3⟩
  constructor
  · intro key g h1 h2
    obtain ⟨ns, hns, q, hq, hk, ho, hl⟩ := part1 key g h1 h2
    refine ⟨ns, hns, q, hq, hk, by rw [ho, hopts], hl, ?_⟩
    intro hN
    rw [ho]
    exact BuildFQName_gaugeOptsOf Namespace q hN
  · intro ns hns hret q hq habs
    obtain ⟨content, -, hparse⟩ := getNetStats_ok file ns hns
    obtain ⟨hc, hr, -⟩ := Update_of_stats parseFloat Namespace ρ file ns cache hns
    have hv := updateLoop_ok_valid parseFloat Namespace (ρ.stats ns) cache (by rw [← hr, hret])
    obtain ⟨g, hg⟩ := updateLoop_visited_present parseFloat Namespace (ρ.stats ns) cache hv q
      ((hρ.1 ns).mem_iff.mpr hq)
    rw [← hc] at hg
    obtain ⟨ns1, hns1, q1, hq1, hk, ho, hl⟩ := part1 _ g habs hg
    rw [hns] at hns1
    cases hns1
    obtain ⟨hd, ht⟩ := metricKey_eq_of_directions _ _ _ _
      (direction_of_parsed content ns hparse q hq) (direction_of_parsed content ns hparse q1 hq1)
      hk
    refine ⟨g, hg, ?_, hl⟩
    rw [ho, hopts, ← hd, ← ht]

end NewGaugeClaim

/-- C14, an instance: `exampleCache` holds the key `receive_bytes` only, and the
call `exampleUpdate` adds the vector of (transmit, packets), among others. -/
theorem Update_new_gauge_example :
    (storageOrder Nat).Valid ∧
    (∀ key g, mapGet exampleCache key = none →
      mapGet exampleUpdate.netStatsMetrics key = some g →
      ∃ ns, getNetStats (.ok exampleInput) = .ok ns ∧ ∃ q ∈ quadruples ns,
        key = q.direction ++ utf8 "_" ++ q.t ∧
        g.opts = { Namespace := exampleNamespace, Subsystem := utf8 "network",
                   Name := q.direction ++ utf8 "_" ++ q.t,
                   Help := q.t ++ utf8 " " ++ q.direction ++ utf8 " from /proc/net/dev." } ∧
        g.labelNames = [utf8 "device"] ∧
        (exampleNamespace ≠ [] →
          BuildFQName g.opts.Namespace g.opts.Subsystem g.opts.Name =
            exampleNamespace ++ utf8 "_network_" ++ q.direction ++ utf8 "_" ++ q.t)) ∧
    (getNetStats (.ok exampleInput) = .ok exampleStats ∧ exampleUpdate.ret = .ok () ∧
      mapGet exampleCache (utf8 "transmit" ++ utf8 "_" ++ utf8 "packets") = none) ∧
    ∃ g, mapGet exampleUpdate.netStatsMetrics (utf8 "transmit" ++ utf8 "_" ++ utf8 "packets") =
        some g ∧
      g.opts = { Namespace := exampleNamespace, Subsystem := utf8 "network",
                 Name := utf8 "transmit" ++ utf8 "_" ++ utf8 "packets",
                 Help := utf8 "packets" ++ utf8 " " ++ utf8 "transmit" ++
                   utf8 " from /proc/net/dev." } ∧
      g.labelNames = [utf8 "device"] :=
  ⟨storageOrder_valid Nat,
    (Update_new_gauge exampleParseFloat exampleNamespace (storageOrder Nat)
      (storageOrder_valid Nat) (.ok exampleInput) exampleCache).1,
    ⟨by decide, by decide, by decide⟩,
    (Update_new_gauge exampleParseFloat exampleNamespace (storageOrder Nat)
      (storageOrder_valid Nat) (.ok exampleInput) exampleCache).2 exampleStats (by decide)
      (by decide)
      { direction := utf8 "transmit", dev := utf8 "eth0", t := utf8 "packets",
        value := utf8 "2" } (by decide) (by decide)⟩

section CacheShape

variable {F : Type} (parseFloat : GoString → F × Option GoString) (Namespace : GoString)

theorem updateLoop_invariant (P : Cache F → Prop)
    (hensure : ∀ q c, P c → P (ensureGauge Namespace q c))
    (hset : ∀ (q : Quad) (c : Cache F) (g : GaugeVec F) (v : F), P c →
      mapGet c (metricKey q.direction q.t) = some g →
      P (mapSet c (metricKey q.direction q.t) (g.setValue q.dev v)))
    (visits : List Quad) :
    ∀ c, P c → P (updateLoop parseFloat Namespace visits c).1 := by
  induction visits with
  | nil => intro c h; exact h
  | cons q rest ih =>
    intro c h
    rcases updateLoop_cases parseFloat Namespace q rest c with
      ⟨e, -, hstep⟩ | ⟨-, -, hstep⟩ | ⟨-, -, g, hg, -, hstep⟩
    · rw [hstep]
      exact hensure q c h
    · rw [hstep]
      exact hensure q c h
    · rw [hstep]
      exact ih _ (hset q _ g _ (hensure q c h) hg)

theorem nodup_mapKeys_ensureGauge (q : Quad) (c : Cache F) (h : (mapKeys c).Nodup) :
    (mapKeys (ensureGauge Namespace q c)).Nodup := by
  unfold ensureGauge
  cases mapGet c (metricKey q.direction q.t) with
  | some g => exact h
  | none => exact nodup_mapKeys_mapSet _ _ _ h

theorem nodup_mapKeys_updateLoop (visits : List Quad) (c : Cache F) (h : (mapKeys c).Nodup) :
    (mapKeys (updateLoop parseFloat Namespace visits c).1).Nodup :=
  updateLoop_invariant parseFloat Namespace (fun c => (mapKeys c).Nodup)
    (fun q c hc => nodup_mapKeys_ensureGauge Namespace q c hc)
    (fun _ c _ _ hc _ => nodup_mapKeys_mapSet c _ _ hc) visits c h

theorem nodup_children_updateLoop (visits : List Quad) (c : Cache F)
    (h : ∀ k g, mapGet c k = some g → (mapKeys g.children).Nodup) :
    ∀ k g, mapGet (updateLoop parseFloat Namespace visits c).1 k = some g →
      (mapKeys g.children).Nodup := by
  apply updateLoop_invariant parseFloat Namespace
    (fun c => ∀ k g, mapGet c k = some g → (mapKeys g.children).Nodup) _ _ visits c h
  · intro q c hc k g hg
    by_cases hk : k = metricKey q.direction q.t
    · subst hk
      cases hm : mapGet c (metricKey q.direction q.t) with
      | some g0 =>
        rw [mapGet_ensureGauge_of_some Namespace q c _ g0 hm] at hg
        cases hg
        exact hc _ _ hm
      | none =>
        rw [mapGet_ensureGauge_of_none Namespace q c hm] at hg
        cases hg
        simp [NewGaugeVec, mapKeys]
    · rw [mapGet_ensureGauge_ne Namespace q c k hk] at hg
      exact hc k g hg
  · intro q c g v hc hg k g1 hg1
    by_cases hk : k = metricKey q.direction q.t
    · subst hk
      rw [mapGet_mapSet_self] at hg1
      cases hg1
      exact nodup_mapKeys_mapSet _ _ _ (hc _ _ hg)
    · rw [mapGet_mapSet_ne _ _ hk] at hg1
      exact hc k g1 hg1

theorem mem_mapKeys_updateLoop (visits : List Quad) (c : Cache F)
    (hv : ∀ q ∈ visits, (parseFloat q.value).2 = none ∧ ValidString q.dev = true)
    (k : GoString) :
    k ∈ mapKeys (updateLoop parseFloat Namespace visits c).1 ↔
      k ∈ mapKeys c ∨ k ∈ visits.map fun q => metricKey q.direction q.t := by
  constructor
  · intro h
    obtain ⟨g, hg⟩ := Option.isSome_iff_exists.mp ((mapGet_isSome_iff _ _).mpr h)
    cases hc : mapGet c k with
    | some g0 => exact Or.inl ((mapGet_isSome_iff _ _).mp (by simp [hc]))
    | none =>
      obtain ⟨q, hq, hk, -, -⟩ := updateLoop_new_gauge parseFloat Namespace visits c k g hc hg
      exact Or.inr (List.mem_map.mpr ⟨q, hq, hk.symm⟩)
  · rintro (h | h)
    · obtain ⟨g, hg⟩ := Option.isSome_iff_exists.mp ((mapGet_isSome_iff _ _).mpr h)
      obtain ⟨g1, h1, -, -⟩ := updateLoop_keeps_gauge parseFloat Namespace visits c k g hg
      exact (mapGet_isSome_iff _ _).mp (by simp [h1])
    · obtain ⟨q, hq, rfl⟩ := List.mem_map.mp h
      obtain ⟨g, hg⟩ := updateLoop_visited_present parseFloat Namespace visits c hv q hq
      exact (mapGet_isSome_iff _ _).mp (by simp [hg])

end CacheShape

theorem eq_singleton_of_keys {K V : Type} [DecidableEq K] (l : GoMap K V) (k : K) (v : V)
    (hn : (mapKeys l).Nodup) (hk : ∀ d, d ∈ mapKeys l → d = k) (hg : mapGet l k = some v) :
    l = [(k, v)] := by
  cases l with
  | nil => simp [mapGet] at hg
  | cons e t =>
    obtain ⟨k1, v1⟩ := e
    have h1 : k1 = k := hk k1 (by simp [mapKeys])
    subst h1
    simp only [mapGet, if_true, Option.some.injEq] at hg
    subst hg
    have hn1 : k1 ∉ mapKeys t := by
      have := hn
      simp only [mapKeys, List.map_cons, List.nodup_cons] at this
      exact this.1
    cases t with
    | nil => rfl
    | cons e2 t2 =>
      exfalso
      apply hn1
      have h2 : e2.1 = k1 := hk e2.1 (by simp [mapKeys])
      rw [← h2]
      simp [mapKeys]

/-- C13: for every source whose lines are all shorter than the buffer of the
scanner, whose second line holds two bars, whose receive fields are bytes,
packets and errs and whose only body line is `eth0: 100 1 0 200 2 0`,
`parseNetStats` returns `literalStats`; and when `ParseFloat` accepts the five
literals, `Update` on it with an empty cache, whatever the order of its visits,
returns no error and leaves the cache with exactly the six keys of
`literalCells`, the vector of each holding exactly one label value, "eth0",
with the number parsed from the raw value of the key. -/
theorem Update_literal {F : Type} (parseFloat : GoString → F × Option GoString)
    (Namespace : GoString) (ρ : RangeOrder F) (hρ : ρ.Valid) (r : GoString)
    (hshort : ShortLines r)
    (hbars : ((inputLines r).getD 1 []).count 124 = 2)
    (hhdr : Fields ((Split ((inputLines r).getD 1 []) 124).getD 1 []) =
      [utf8 "bytes", utf8 "packets", utf8 "errs"])
    (hbody : (inputLines r).drop 2 = [utf8 "eth0: 100 1 0 200 2 0"])
    (hvalid : ∀ v ∈ [utf8 "100", utf8 "1", utf8 "0", utf8 "200", utf8 "2"],
      (parseFloat v).2 = none) :
    parseNetStats r = .ok literalStats ∧
    (Update parseFloat Namespace ρ (.ok r) []).ret = .ok () ∧
    (mapKeys (Update parseFloat Namespace ρ (.ok r) []).netStatsMetrics).Perm
      (literalCells.map Prod.fst) ∧
    ∀ c ∈ literalCells,
      ∃ g, mapGet (Update parseFloat Namespace ρ (.ok r) []).netStatsMetrics c.1 = some g ∧
        g.children = [(utf8 "eth0", (parseFloat c.2).1)] := by
  rw [← headerText_eq r hshort] at hbars hhdr
  rw [← bodyLines_eq r hshort] at hbody
  have hparse : parseNetStats r = .ok literalStats := by
    rw [parseNetStats_eq, if_neg (by rw [Split_length, hbars]; simp), hbody, fieldHeader, hhdr]
    decide
  have hg : getNetStats (.ok r) = .ok literalStats := hparse
  obtain ⟨hc, hr, -⟩ := Update_of_stats parseFloat Namespace ρ _ literalStats [] hg
  have hperm := hρ.1 literalStats
  have hvals : ∀ q ∈ quadruples literalStats,
      q.value ∈ [utf8 "100", utf8 "1", utf8 "0", utf8 "200", utf8 "2"] := by decide
  have hutf : ∀ q ∈ quadruples literalStats, ValidString q.dev = true := by decide
  have hv : ∀ q ∈ ρ.stats literalStats,
      (parseFloat q.value).2 = none ∧ ValidString q.dev = true :=
    fun q hq => ⟨hvalid _ (hvals q (hperm.mem_iff.mp hq)), hutf q (hperm.mem_iff.mp hq)⟩
  have hn : ((ρ.stats literalStats).map cellOf).Nodup :=
    ((hperm.map cellOf).nodup_iff).mpr (nodup_cells_parsed r literalStats hparse)
  have hdevs : ∀ x ∈ (quadruples literalStats).map cellOf, x.2 = utf8 "eth0" := by decide
  have hkeys : (quadruples literalStats).map (fun q => metricKey q.direction q.t) =
      [utf8 "transmit_bytes", utf8 "transmit_packets", utf8 "transmit_errs",
       utf8 "receive_bytes", utf8 "receive_packets", utf8 "receive_errs"] := by decide
  refine ⟨hparse, by rw [hr, updateLoop_valid parseFloat Namespace _ [] hv], ?_, ?_⟩
  · rw [hc, List.perm_ext_iff_of_nodup
      (nodup_mapKeys_updateLoop parseFloat Namespace _ [] (by simp [mapKeys])) (by decide)]
    intro k
    rw [mem_mapKeys_updateLoop parseFloat Namespace _ [] hv k,
      (hperm.map fun q => metricKey q.direction q.t).mem_iff, hkeys]
    have e : ∀ k, k ∈ literalCells.map Prod.fst ↔
        k ∈ [utf8 "transmit_bytes", utf8 "transmit_packets", utf8 "transmit_errs",
          utf8 "receive_bytes", utf8 "receive_packets", utf8 "receive_errs"] := by
      intro k
      have e1 : literalCells.map Prod.fst =
          [utf8 "receive_bytes", utf8 "receive_packets", utf8 "receive_errs",
           utf8 "transmit_bytes", utf8 "transmit_packets", utf8 "transmit_errs"] := by decide
      rw [e1]
      simp only [List.mem_cons, List.mem_singleton, List.not_mem_nil, or_false]
      tauto
    rw [e k]
    simp [mapKeys]
  · intro c hcell
    have hq : ∃ q ∈ quadruples literalStats,
        metricKey q.direction q.t = c.1 ∧ q.dev = utf8 "eth0" ∧ q.value = c.2 := by
      revert c
      decide
    obtain ⟨q, hq, hk, hd, hval⟩ := hq
    have hgv := gaugeValue_updateLoop_visited parseFloat Namespace (ρ.stats literalStats) []
      hv hn q (hperm.mem_iff.mpr hq)
    rw [hk, hd, hval, ← hc] at hgv
    unfold gaugeValue at hgv
    cases hm : mapGet (Update parseFloat Namespace ρ (.ok r) []).netStatsMetrics c.1 with
    | none => simp [hm] at hgv
    | some g =>
      rw [hm] at hgv
      refine ⟨g, rfl, ?_⟩
      apply eq_singleton_of_keys
      · rw [hc] at hm
        exact nodup_children_updateLoop parseFloat Namespace _ []
          (fun k g h => by simp [mapGet] at h) c.1 g hm
      · intro d hdmem
        by_contra hne
        have hfr := gaugeValue_updateLoop_frame parseFloat Namespace (ρ.stats literalStats) []
          c.1 d (by
            intro hmem
            have := hdevs _ ((hperm.map cellOf).mem_iff.mp hmem)
            exact hne this)
        rw [← hc] at hfr
        simp only [gaugeValue, hm, mapGet, Option.bind] at hfr
        exact ((mapGet_eq_none_iff _ _).mp hfr) hdmem
      · exact hgv

/-- C13, an instance: `literalInput`, the stand-in for `ParseFloat`, the maps
visited in reverse order. -/
theorem Update_literal_example :
    (reverseOrder Nat).Valid ∧ ShortLines literalInput ∧
    ((inputLines literalInput).getD 1 []).count 124 = 2 ∧
    Fields ((Split ((inputLines literalInput).getD 1 []) 124).getD 1 []) =
      [utf8 "bytes", utf8 "packets", utf8 "errs"] ∧
    (inputLines literalInput).drop 2 = [utf8 "eth0: 100 1 0 200 2 0"] ∧
    (∀ v ∈ [utf8 "100", utf8 "1", utf8 "0", utf8 "200", utf8 "2"],
      (exampleParseFloat v).2 = none) ∧
    parseNetStats literalInput = .ok literalStats ∧
    (Update exampleParseFloat exampleNamespace (reverseOrder Nat) (.ok literalInput) []).ret =
      .ok () ∧
    (mapKeys (Update exampleParseFloat exampleNamespace (reverseOrder Nat) (.ok literalInput)
      []).netStatsMetrics).Perm (literalCells.map Prod.fst) ∧
    ∀ c ∈ literalCells,
      ∃ g, mapGet (Update exampleParseFloat exampleNamespace (reverseOrder Nat)
          (.ok literalInput) []).netStatsMetrics c.1 = some g ∧
        g.children = [(utf8 "eth0", (exampleParseFloat c.2).1)] :=
  ⟨reverseOrder_valid Nat, by decide, by decide, by decide, by decide, by decide,
    Update_literal exampleParseFloat exampleNamespace (reverseOrder Nat)
      (reverseOrder_valid Nat) literalInput (by decide) (by decide) (by decide) (by decide)
      (by decide)⟩

section StoreLemmas

variable {F : Type} (parseFloat : GoString → F × Option GoString) (Namespace : GoString)

theorem updateLoopPtr_cons (q : Quad) (rest : List Quad) (s : MetricStore F) :
    updateLoopPtr parseFloat Namespace (q :: rest) s =
      match (parseFloat q.value).2 with
      | some e => (ensureGaugePtr Namespace q s, .err (invalidValue q.value e))
      | none =>
        match mapGet (ensureGaugePtr Namespace q s).netStatsMetrics
            (metricKey q.direction q.t) with
        | none => (ensureGaugePtr Namespace q s, .panic)
        | some p =>
          match (ensureGaugePtr Namespace q s).heap[p]? with
          | none => (ensureGaugePtr Namespace q s, .panic)
          | some g =>
            match g.Set q.dev (parseFloat q.value).1 with
            | none => (ensureGaugePtr Namespace q s, .panic)
            | some g1 =>
              updateLoopPtr parseFloat Namespace rest
                { ensureGaugePtr Namespace q s with
                  heap := (ensureGaugePtr Namespace q s).heap.set p g1 } := by
  rfl

theorem grows_refl (s : MetricStore F) : s.Grows s :=
  ⟨fun _ _ h => h, fun _ g h => ⟨g, h, rfl, rfl, fun _ hd => hd⟩,
    [], by simp, by simp, by simp, by simp, by simp⟩

theorem grows_trans {a b c : MetricStore F} (h1 : a.Grows b) (h2 : b.Grows c) : a.Grows c := by
  obtain ⟨k1, v1, x, hx, hxn, hxa, hxl, hxp⟩ := h1
  obtain ⟨k2, v2, y, hy, hyn, hyb, hyl, hyp⟩ := h2
  refine ⟨fun key p h => k2 key p (k1 key p h), ?_, x ++ y, ?_, ?_, ?_, ?_, ?_⟩
  · intro p g h
    obtain ⟨g1, e1, o1, l1, c1⟩ := v1 p g h
    obtain ⟨g2, e2, o2, l2, c2⟩ := v2 p g1 e1
    exact ⟨g2, e2, o2.trans o1, l2.trans l1, fun d hd => c2 d (c1 d hd)⟩
  · rw [hy, hx, List.append_assoc]
  · rw [List.nodup_append]
    refine ⟨hxn, hyn, ?_⟩
    intro k hkx hky
    exact hyb k hky (by rw [hx]; exact List.mem_append_right _ hkx)
  · intro k hk
    rcases List.mem_append.mp hk with h | h
    · exact hxa k h
    · intro hka
      exact hyb k h (by rw [hx]; exact List.mem_append_left _ hka)
  · rw [hyl, hxl, List.length_append]
    omega
  · intro k hk
    rcases List.mem_append.mp hk with h | h
    · obtain ⟨p, hp, hle⟩ := hxp k h
      exact ⟨p, k2 k p hp, hle⟩
    · obtain ⟨p, hp, hle⟩ := hyp k h
      exact ⟨p, hp, by omega⟩

theorem grows_ensure (q : Quad) (s : MetricStore F) : s.Grows (ensureGaugePtr Namespace q s) := by
  unfold ensureGaugePtr
  cases hm : mapGet s.netStatsMetrics (metricKey q.direction q.t) with
  | some p => exact grows_refl s
  | none =>
    have habs : metricKey q.direction q.t ∉ mapKeys s.netStatsMetrics :=
      (mapGet_eq_none_iff _ _).mp hm
    refine ⟨?_, ?_, [metricKey q.direction q.t], ?_, by simp, ?_, by simp, ?_⟩
    · intro key p h
      have hne : key ≠ metricKey q.direction q.t := by
        intro c
        rw [c, hm] at h
        cases h
      simp only
      rw [mapGet_mapSet_ne _ _ hne, h]
    · intro p g h
      have hp : p < s.heap.length := by
        by_contra hc
        rw [List.getElem?_eq_none (by omega)] at h
        cases h
      exact ⟨g, by simp only; rw [List.getElem?_append_left hp, h], rfl, rfl, fun _ hd => hd⟩
    · simp only
      rw [mapSet_of_not_mem _ _ _ habs]
      simp [mapKeys]
    · intro k hk
      rw [List.mem_singleton] at hk
      rw [hk]
      exact habs
    · intro k hk
      rw [List.mem_singleton] at hk
      rw [hk]
      exact ⟨s.heap.length, mapGet_mapSet_self _ _ _, le_refl _⟩

theorem grows_set (s : MetricStore F) (p : Nat) (g : GaugeVec F) (dev : GoString) (v : F)
    (hg : s.heap[p]? = some g) :
    s.Grows { s with heap := s.heap.set p (g.setValue dev v) } := by
  refine ⟨fun _ _ h => h, ?_, [], by simp, by simp, by simp, by simp, by simp⟩
  intro p1 g1 h1
  by_cases hp : p = p1
  · subst hp
    rw [hg] at h1
    cases h1
    have hlt : p < s.heap.length := by
      by_contra hc
      rw [List.getElem?_eq_none (by omega)] at hg
      cases hg
    refine ⟨g.setValue dev v, by simp [hlt], rfl, rfl, ?_⟩
    intro d hd
    simp only [GaugeVec.setValue]
    rw [mem_mapKeys_mapSet]
    exact Or.inr hd
  · exact ⟨g1, by simp only; rw [List.getElem?_set_ne hp, h1], rfl, rfl, fun _ hd => hd⟩

theorem updateLoopPtr_grows (visits : List Quad) :
    ∀ s : MetricStore F, s.Grows (updateLoopPtr parseFloat Namespace visits s).1 := by
  induction visits with
  | nil => intro s; exact grows_refl s
  | cons q rest ih =>
    intro s
    rw [updateLoopPtr_cons]
    have he := grows_ensure Namespace q s
    cases (parseFloat q.value).2 with
    | some e => exact he
    | none =>
      simp only
      cases hm : mapGet (ensureGaugePtr Namespace q s).netStatsMetrics
          (metricKey q.direction q.t) with
      | none => exact he
      | some p =>
        simp only
        cases hg : (ensureGaugePtr Namespace q s).heap[p]? with
        | none => exact he
        | some g =>
          simp only
          cases hv : ValidString q.dev with
          | false =>
            rw [Set_of_invalid _ _ _ hv]
            exact he
          | true =>
            rw [Set_of_valid _ _ _ hv]
            exact grows_trans he (grows_trans (grows_set _ p g _ _ hg) (ih _))

theorem UpdatePtr_grows (ρ : RangeOrder F) (file : Except GoString GoString)
    (s : MetricStore F) : s.Grows (UpdatePtr parseFloat Namespace ρ file s).store := by
  unfold UpdatePtr
  cases getNetStats file with
  | err e => exact grows_refl s
  | panic => exact grows_refl s
  | ok ns =>
    simp only
    have h := updateLoopPtr_grows parseFloat Namespace (ρ.stats ns) s
    generalize updateLoopPtr parseFloat Namespace (ρ.stats ns) s = p at h
    obtain ⟨s1, res⟩ := p
    cases res <;> exact h

end StoreLemmas

section ViewLemmas

variable {F : Type}

theorem view_nil (heap : List (GaugeVec F)) :
    MetricStore.view { netStatsMetrics := [], heap := heap } = [] := rfl

theorem view_cons (k : GoString) (p : Nat) (m : GoMap GoString Nat) (heap : List (GaugeVec F))
    (g : GaugeVec F) (h : heap[p]? = some g) :
    MetricStore.view { netStatsMetrics := (k, p) :: m, heap := heap } =
      (k, g) :: MetricStore.view { netStatsMetrics := m, heap := heap } := by
  simp [MetricStore.view, List.filterMap_cons, h]

theorem view_set_other (m : GoMap GoString Nat) (heap : List (GaugeVec F)) (p : Nat)
    (x : GaugeVec F) (h : ∀ e ∈ m, e.2 ≠ p) :
    MetricStore.view { netStatsMetrics := m, heap := heap.set p x } =
      MetricStore.view { netStatsMetrics := m, heap := heap } := by
  unfold MetricStore.view
  apply List.filterMap_congr
  intro e he
  simp only
  rw [List.getElem?_set_ne (Ne.symm (h e he))]

theorem view_heap_append (m : GoMap GoString Nat) (heap extra : List (GaugeVec F))
    (h : ∀ e ∈ m, e.2 < heap.length) :
    MetricStore.view { netStatsMetrics := m, heap := heap ++ extra } =
      MetricStore.view { netStatsMetrics := m, heap := heap } := by
  unfold MetricStore.view
  apply List.filterMap_congr
  intro e he
  simp only
  rw [List.getElem?_append_left (h e he)]

theorem mapGet_view (m : GoMap GoString Nat) (heap : List (GaugeVec F))
    (h : ∀ e ∈ m, e.2 < heap.length) (key : GoString) :
    mapGet (MetricStore.view { netStatsMetrics := m, heap := heap }) key =
      (mapGet m key).bind fun p => heap[p]? := by
  induction m with
  | nil => rfl
  | cons e m ih =>
    obtain ⟨k, p⟩ := e
    have hp : p < heap.length := h (k, p) (by simp)
    have hg : heap[p]? = some heap[p] := List.getElem?_eq_getElem hp
    rw [view_cons k p m heap _ hg]
    by_cases hk : k = key
    · subst hk
      simp [mapGet, hg]
    · simp only [mapGet, hk, if_false]
      exact ih fun e he => h e (by simp [he])

theorem mapKeys_view (m : GoMap GoString Nat) (heap : List (GaugeVec F))
    (h : ∀ e ∈ m, e.2 < heap.length) :
    mapKeys (MetricStore.view { netStatsMetrics := m, heap := heap }) = mapKeys m := by
  induction m with
  | nil => rfl
  | cons e m ih =>
    obtain ⟨k, p⟩ := e
    have hp : p < heap.length := h (k, p) (by simp)
    rw [view_cons k p m heap _ (List.getElem?_eq_getElem hp)]
    simp only [mapKeys, List.map_cons] at ih ⊢
    rw [ih fun e he => h e (by simp [he])]

theorem view_set (m : GoMap GoString Nat) (heap : List (GaugeVec F)) (key : GoString) (p : Nat)
    (x : GaugeVec F) (hv : ∀ e ∈ m, e.2 < heap.length) (hn : (m.map Prod.snd).Nodup)
    (hg : mapGet m key = some p) :
    MetricStore.view { netStatsMetrics := m, heap := heap.set p x } =
      mapSet (MetricStore.view { netStatsMetrics := m, heap := heap }) key x := by
  induction m with
  | nil => simp [mapGet] at hg
  | cons e m ih =>
    obtain ⟨k, p1⟩ := e
    have hp1 : p1 < heap.length := hv (k, p1) (by simp)
    have hn1 : p1 ∉ m.map Prod.snd ∧ (m.map Prod.snd).Nodup := by simpa using hn
    rw [view_cons k p1 m heap _ (List.getElem?_eq_getElem hp1)]
    by_cases hk : k = key
    · subst hk
      simp only [mapGet, if_true, Option.some.injEq] at hg
      subst hg
      rw [view_cons k p1 m (heap.set p1 x) x (by simp [hp1]), mapSet, if_pos rfl,
        view_set_other m heap p1 x]
      intro e he hc
      exact hn1.1 (List.mem_map.mpr ⟨e, he, hc⟩)
    · simp only [mapGet, hk, if_false] at hg
      have hne : p1 ≠ p := by
        intro c
        apply hn1.1
        rw [c]
        exact List.mem_map.mpr ⟨(key, p), mem_of_mapGet _ _ _ hg, rfl⟩
      rw [view_cons k p1 m (heap.set p x) heap[p1]
        (by rw [List.getElem?_set_ne (Ne.symm hne), List.getElem?_eq_getElem hp1]),
        mapSet, if_neg hk, ih (fun e he => hv e (by simp [he])) hn1.2 hg]

end ViewLemmas

section Refinement

variable {F : Type} (parseFloat : GoString → F × Option GoString) (Namespace : GoString)

theorem wellFormed_empty : (MetricStore.mk [] ([] : List (GaugeVec F))).WellFormed :=
  ⟨by simp, by simp⟩

theorem ensureGaugePtr_view (q : Quad) (s : MetricStore F) (h : s.WellFormed) :
    (ensureGaugePtr Namespace q s).WellFormed ∧
    (ensureGaugePtr Namespace q s).view = ensureGauge Namespace q s.view := by
  obtain ⟨m, heap⟩ := s
  obtain ⟨hv, hn⟩ := h
  simp only at hv hn
  have hget := mapGet_view m heap hv (metricKey q.direction q.t)
  unfold ensureGaugePtr ensureGauge
  cases hm : mapGet m (metricKey q.direction q.t) with
  | some p =>
    have hp : p < heap.length := hv _ (mem_of_mapGet _ _ _ hm)
    rw [hm] at hget
    simp only [Option.bind, List.getElem?_eq_getElem hp] at hget
    simp only [hm, hget]
    exact ⟨⟨hv, hn⟩, trivial⟩
  | none =>
    rw [hm] at hget
    simp only [Option.bind] at hget
    have habs : metricKey q.direction q.t ∉ mapKeys m := (mapGet_eq_none_iff _ _).mp hm
    have habs1 : metricKey q.direction q.t ∉
        mapKeys (MetricStore.view { netStatsMetrics := m, heap := heap }) := by
      rw [mapKeys_view m heap hv]
      exact habs
    simp only [hm, hget]
    rw [mapSet_of_not_mem _ _ _ habs, mapSet_of_not_mem _ _ _ habs1]
    refine ⟨⟨?_, ?_⟩, ?_⟩
    · intro e he
      simp only [List.mem_append, List.mem_singleton] at he
      simp only [List.length_append, List.length_singleton]
      rcases he with he | he
      · have := hv e he
        omega
      · rw [he]
        simp
    · simp only [List.map_append, List.map_cons, List.map_nil]
      rw [List.nodup_append]
      refine ⟨hn, by simp, ?_⟩
      intro a ha hb
      obtain ⟨e, he, rfl⟩ := List.mem_map.mp ha
      have := hv e he
      simp only [List.mem_singleton] at hb
      omega
    · simp only [MetricStore.view, List.filterMap_append]
      congr 1
      · apply List.filterMap_congr
        intro e he
        rw [List.getElem?_append_left (hv e he)]
      · simp [List.filterMap_cons]
        rfl

theorem setGaugePtr_view (s : MetricStore F) (key : GoString) (p : Nat) (x : GaugeVec F)
    (h : s.WellFormed) (hg : mapGet s.netStatsMetrics key = some p) :
    (MetricStore.mk s.netStatsMetrics (s.heap.set p x)).WellFormed ∧
    (MetricStore.mk s.netStatsMetrics (s.heap.set p x)).view = mapSet s.view key x := by
  obtain ⟨m, heap⟩ := s
  obtain ⟨hv, hn⟩ := h
  simp only at hv hn hg
  refine ⟨⟨?_, hn⟩, view_set m heap key p x hv hn hg⟩
  intro e he
  simp only [List.length_set]
  exact hv e he

theorem updateLoopPtr_view (visits : List Quad) :
    ∀ s : MetricStore F, s.WellFormed →
      (updateLoopPtr parseFloat Namespace visits s).1.WellFormed ∧
      (updateLoopPtr parseFloat Namespace visits s).1.view =
        (updateLoop parseFloat Namespace visits s.view).1 ∧
      (updateLoopPtr parseFloat Namespace visits s).2 =
        (updateLoop parseFloat Namespace visits s.view).2 := by
  induction visits with
  | nil => intro s h; exact ⟨h, rfl, rfl⟩
  | cons q rest ih =>
    intro s h
    obtain ⟨hw, hview⟩ := ensureGaugePtr_view Namespace q s h
    rw [updateLoopPtr_cons, updateLoop_cons]
    cases (parseFloat q.value).2 with
    | some e => exact ⟨hw, hview, rfl⟩
    | none =>
      simp only
      have hget := mapGet_view (ensureGaugePtr Namespace q s).netStatsMetrics
        (ensureGaugePtr Namespace q s).heap hw.1 (metricKey q.direction q.t)
      have hv1 : MetricStore.view
          { netStatsMetrics := (ensureGaugePtr Namespace q s).netStatsMetrics,
            heap := (ensureGaugePtr Namespace q s).heap } =
          ensureGauge Namespace q s.view := hview
      rw [hv1] at hget
      cases hm : mapGet (ensureGaugePtr Namespace q s).netStatsMetrics
          (metricKey q.direction q.t) with
      | none =>
        rw [hm] at hget
        simp only [Option.bind] at hget
        simp only [hget]
        exact ⟨hw, hview, trivial⟩
      | some p =>
        have hp : p < (ensureGaugePtr Namespace q s).heap.length :=
          hw.1 _ (mem_of_mapGet _ _ _ hm)
        rw [hm] at hget
        simp only [Option.bind, List.getElem?_eq_getElem hp] at hget
        simp only [hget, List.getElem?_eq_getElem hp]
        cases hu : ValidString q.dev with
        | false =>
          simp only [Set_of_invalid _ _ _ hu]
          exact ⟨hw, hview, trivial⟩
        | true =>
          simp only [Set_of_valid _ _ _ hu]
          obtain ⟨hw2, hview2⟩ := setGaugePtr_view (ensureGaugePtr Namespace q s)
            (metricKey q.direction q.t) p
            (((ensureGaugePtr Namespace q s).heap[p]).setValue q.dev (parseFloat q.value).1)
            hw hm
          have := ih _ hw2
          rw [hview2, hview] at this
          exact this

theorem UpdatePtr_view (ρ : RangeOrder F) (file : Except GoString GoString)
    (s : MetricStore F) (h : s.WellFormed) :
    (UpdatePtr parseFloat Namespace ρ file s).store.WellFormed ∧
    (UpdatePtr parseFloat Namespace ρ file s).store.view =
      (Update parseFloat Namespace ρ file s.view).netStatsMetrics ∧
    (UpdatePtr parseFloat Namespace ρ file s).sent =
      (Update parseFloat Namespace ρ file s.view).sent ∧
    (UpdatePtr parseFloat Namespace ρ file s).ret =
      (Update parseFloat Namespace ρ file s.view).ret := by
  unfold UpdatePtr Update
  cases getNetStats file with
  | err e => exact ⟨h, rfl, rfl, rfl⟩
  | panic => exact ⟨h, rfl, rfl, rfl⟩
  | ok ns =>
    simp only
    obtain ⟨h1, h2, h3⟩ := updateLoopPtr_view parseFloat Namespace (ρ.stats ns) s h
    generalize updateLoopPtr parseFloat Namespace (ρ.stats ns) s = a at h1 h2 h3
    generalize updateLoop parseFloat Namespace (ρ.stats ns) s.view = b at h2 h3
    obtain ⟨s1, r1⟩ := a
    obtain ⟨c1, r2⟩ := b
    simp only at h1 h2 h3
    subst h2 h3
    cases r1 <;> exact ⟨h1, rfl, rfl, rfl⟩

end Refinement

/-- C12: a call of `Update`, whether it succeeds or fails and whatever the
order of its visits, keeps every key of the cache bound to the pointer it was
bound to, and keeps every vector at its address with its options, its label
names and its label values. The keys afterwards are the keys before followed
by new keys, pairwise distinct and absent before, and the call has allocated
exactly one vector for each new key, at an address that was free before. On a
well-formed store the call is the call of `Update` on the cache of the
store. -/
theorem Update_cache_grows {F : Type} (parseFloat : GoString → F × Option GoString)
    (Namespace : GoString) (ρ : RangeOrder F) (file : Except GoString GoString)
    (s : MetricStore F) :
    (∀ key p, mapGet s.netStatsMetrics key = some p →
      mapGet (UpdatePtr parseFloat Namespace ρ file s).store.netStatsMetrics key = some p) ∧
    (∀ (p : Nat) (g : GaugeVec F), s.heap[p]? = some g →
      ∃ g1, (UpdatePtr parseFloat Namespace ρ file s).store.heap[p]? = some g1 ∧
        g1.opts = g.opts ∧ g1.labelNames = g.labelNames ∧
        ∀ d, d ∈ mapKeys g.children → d ∈ mapKeys g1.children) ∧
    (∃ added,
      mapKeys (UpdatePtr parseFloat Namespace ρ file s).store.netStatsMetrics =
        mapKeys s.netStatsMetrics ++ added ∧
      added.Nodup ∧ (∀ k ∈ added, k ∉ mapKeys s.netStatsMetrics) ∧
      (UpdatePtr parseFloat Namespace ρ file s).store.heap.length =
        s.heap.length + added.length ∧
      ∀ k ∈ added, ∃ p,
        mapGet (UpdatePtr parseFloat Namespace ρ file s).store.netStatsMetrics k = some p ∧
        s.heap.length ≤ p) ∧
    (s.WellFormed →
      (UpdatePtr parseFloat Namespace ρ file s).store.WellFormed ∧
      (UpdatePtr parseFloat Namespace ρ file s).store.view =
        (Update parseFloat Namespace ρ file s.view).netStatsMetrics ∧
      (UpdatePtr parseFloat Namespace ρ file s).sent =
        (Update parseFloat Namespace ρ file s.view).sent ∧
      (UpdatePtr parseFloat Namespace ρ file s).ret =
        (Update parseFloat Namespace ρ file s.view).ret) :=
  ⟨(UpdatePtr_grows parseFloat Namespace ρ file s).1,
    (UpdatePtr_grows parseFloat Namespace ρ file s).2.1,
    (UpdatePtr_grows parseFloat Namespace ρ file s).2.2,
    UpdatePtr_view parseFloat Namespace ρ file s⟩

/-- C12, an instance: a call on `badValueInput`, which fails, with the store
`exampleStore`, whose cache is `exampleCache`: the key `receive_bytes` is still
bound to the vector at address 0. -/
theorem Update_cache_grows_example :
    exampleStore.WellFormed ∧ exampleStore.view = exampleCache ∧
    (UpdatePtr exampleParseFloat exampleNamespace (storageOrder Nat) (.ok badValueInput)
      exampleStore).ret ≠ .ok () ∧
    mapGet (UpdatePtr exampleParseFloat exampleNamespace (storageOrder Nat) (.ok badValueInput)
      exampleStore).store.netStatsMetrics (utf8 "receive_bytes") = some 0 ∧
    ((UpdatePtr exampleParseFloat exampleNamespace (storageOrder Nat) (.ok badValueInput)
        exampleStore).store.WellFormed ∧
      (UpdatePtr exampleParseFloat exampleNamespace (storageOrder Nat) (.ok badValueInput)
        exampleStore).store.view =
        (Update exampleParseFloat exampleNamespace (storageOrder Nat) (.ok badValueInput)
          exampleStore.view).netStatsMetrics ∧
      (UpdatePtr exampleParseFloat exampleNamespace (storageOrder Nat) (.ok badValueInput)
        exampleStore).sent =
        (Update exampleParseFloat exampleNamespace (storageOrder Nat) (.ok badValueInput)
          exampleStore.view).sent ∧
      (UpdatePtr exampleParseFloat exampleNamespace (storageOrder Nat) (.ok badValueInput)
        exampleStore).ret =
        (Update exampleParseFloat exampleNamespace (storageOrder Nat) (.ok badValueInput)
          exampleStore.view).ret) :=
  ⟨⟨by decide, by decide⟩, by decide, by decide,
    (Update_cache_grows exampleParseFloat exampleNamespace (storageOrder Nat)
      (.ok badValueInput) exampleStore).1 (utf8 "receive_bytes") 0 (by decide),
    (Update_cache_grows exampleParseFloat exampleNamespace (storageOrder Nat)
      (.ok badValueInput) exampleStore).2.2.2 ⟨by decide, by decide⟩⟩

end Collector
